import Mathlib

/-!
DMV reader (Slovenian DEM, `frmts/dmv/dmvdataset.cpp`).

A shallow embedding of the tile geocoder (`getCellOrign`, `getCellSize`,
`getCellDimension`), of the neighbour filter (`calcPixAvg`), of the ingestion done
by the `DMVRasterBand` constructor and `DMVDataset::Open`, and of the block read
(`IReadBlock`).

Modelling conventions.

* A C `double` that holds a sample, an origin or a cell value is an exact rational
  (`ℚ`): rounding is not modelled.  The one non-finite value the code can produce,
  the quotient `pixSum / pixCnt` with `pixCnt = 0`, is kept apart in `Dbl`.
* A C `int` is a Lean `Int`; `/` and `%` on `int` are the truncating `Int.tdiv`
  and `Int.tmod`.  Signed overflow is undefined in C and is not modelled: the
  only products formed are `5 * 600 * subX` and `5 * 450 * (subY - 1)`, with
  `subNum` coming from two characters of a file name.
* A C `char` is a Lean `Char` (a byte is the character of that code).
-/

namespace DMV

/-! ## Data -/

/-- The `struct xyz` of the source: three doubles. -/
structure XYZ where
  x : ℚ
  y : ℚ
  z : ℚ
deriving DecidableEq, Repr

/-- The `struct dmvcell` of the source. -/
structure DmvCell where
  originX : ℚ
  originY : ℚ
  widthY : Int
  heightX : Int
deriving DecidableEq, Repr

/-! ## Tile geocoder -/

/-- The table `originXY[12][12][2]` of `getCellOrign`: one row per letter `A`..`L`,
one entry per section `19`..`30`; the first component is `[0]` (Y), the second is
`[1]` (X). -/
def originXY : List (List (Int × Int)) :=
  [ -- A
    [(0, 0), (0, 0), (0, 0), (0, 0), (365000, 85000), (365000, 100000),
     (365000, 115000), (365000, 130000), (0, 0), (0, 0), (0, 0), (0, 0)],
    -- B
    [(387500, 25000), (387500, 40000), (387500, 55000), (387500, 70000),
     (387500, 85000), (387500, 100000), (387500, 115000), (387500, 130000),
     (387500, 145000), (0, 0), (0, 0), (0, 0)],
    -- C
    [(410000, 25000), (410000, 40000), (410000, 55000), (410000, 70000),
     (410000, 85000), (410000, 100000), (410000, 115000), (410000, 130000),
     (410000, 145000), (0, 0), (0, 0), (0, 0)],
    -- D
    [(432500, 25000), (432500, 40000), (432500, 55000), (432500, 70000),
     (432500, 85000), (432500, 100000), (432500, 115000), (432500, 130000),
     (432500, 145000), (0, 0), (0, 0), (0, 0)],
    -- E
    [(0, 0), (455000, 40000), (455000, 55000), (455000, 70000),
     (455000, 85000), (455000, 100000), (455000, 115000), (455000, 130000),
     (455000, 145000), (0, 0), (0, 0), (0, 0)],
    -- F
    [(477500, 25000), (477500, 40000), (477500, 55000), (477500, 70000),
     (477500, 85000), (477500, 100000), (477500, 115000), (477500, 130000),
     (477500, 145000), (477500, 160000), (0, 0), (0, 0)],
    -- G
    [(500000, 25000), (500000, 40000), (500000, 55000), (500000, 70000),
     (500000, 85000), (500000, 100000), (500000, 115000), (500000, 130000),
     (500000, 145000), (500000, 160000), (0, 0), (0, 0)],
    -- H
    [(522500, 25000), (522500, 40000), (522500, 55000), (522500, 70000),
     (522500, 85000), (522500, 100000), (522500, 115000), (522500, 130000),
     (522500, 145000), (522500, 160000), (0, 0), (0, 0)],
    -- I
    [(0, 0), (0, 0), (0, 0), (545000, 70000), (545000, 85000), (545000, 100000),
     (545000, 115000), (545000, 130000), (545000, 145000), (545000, 160000),
     (545000, 175000), (0, 0)],
    -- J
    [(0, 0), (0, 0), (0, 0), (0, 0), (0, 0), (0, 0), (567500, 115000),
     (567500, 130000), (567500, 145000), (567500, 160000), (567500, 175000),
     (567500, 190000)],
    -- K
    [(0, 0), (0, 0), (0, 0), (0, 0), (0, 0), (0, 0), (0, 0), (590000, 130000),
     (590000, 145000), (590000, 160000), (590000, 175000), (590000, 190000)],
    -- L
    [(0, 0), (0, 0), (0, 0), (0, 0), (0, 0), (0, 0), (0, 0), (0, 0),
     (612500, 145000), (612500, 160000), (0, 0), (0, 0)] ]

/-- The entry `originXY[y][x]`, read only under the guard `-1 < y < 12`,
`-1 < x < 12` of `getCellOrign`. -/
def tableEntry (y x : Int) : Int × Int :=
  (originXY.getD y.toNat []).getD x.toNat (0, 0)

/-- The first half of `getCellOrign` (lines 969-984): the origin looked up in the
table, or `(-1, -1)` when an index is out of range.  The result is the pair
`(origin.x, origin.y)`. -/
def baseOrigin (letter : Int) (num : Int) : ℚ × ℚ :=
  let y := letter - 65
  let x := num - 19
  if (y > -1 ∧ y < 12) ∧ (x > -1 ∧ x < 12) then
    (((tableEntry y x).2 : Int), ((tableEntry y x).1 : Int))
  else
    (-1, -1)

/-- The function `getCellOrign(letter, num, subNum)`.  `letter` is the integer value
of the `char`.  The member `z` is never assigned by the source and never read by its
caller; it is `0` here. -/
def getCellOrign (letter : Int) (num : Int) (subNum : Int) : XYZ :=
  let origin := baseOrigin letter num
  if origin.1 > 0 ∧ origin.2 > 0 then
    let subX : Int := 4 - Int.tdiv (subNum - 1) 10
    let subY : Int := Int.tmod (subNum - 1) 10
    let ox : ℚ := if subX > 0 then origin.1 + ((5 * 600 * subX : Int) : ℚ) else origin.1
    let oy : ℚ :=
      if subY > 0 then
        if subY = 1 then origin.2 + ((5 * 450 : Int) : ℚ)
        else origin.2 + (((5 * 450) + (5 * 450 * (subY - 1)) : Int) : ℚ)
      else origin.2
    { x := ox, y := oy, z := 0 }
  else
    { x := origin.1, y := origin.2, z := 0 }

/-- The function `getCellSize(subNum)`: every branch assigns `x = 600`, `y = 450`
(`z` is never assigned; it is `0` here). -/
def getCellSize (subNum : Int) : XYZ :=
  if subNum = 1 then
    { x := 600, y := 450, z := 0 }
  else if subNum > 1 ∧ subNum < 11 then
    { x := 600, y := 450, z := 0 }
  else if subNum = 11 ∨ subNum = 21 ∨ subNum = 31 ∨ subNum = 41 then
    { x := 600, y := 450, z := 0 }
  else
    { x := 600, y := 450, z := 0 }

/-- The conversion `(int) d` of a double to `int`: the fractional part is
discarded (truncation toward zero). -/
def doubleToInt (d : ℚ) : Int :=
  Int.tdiv d.num d.den

/-- The C library `isspace` in the "C" locale. -/
def isspace (c : Char) : Bool :=
  c.toNat = 32 || (9 ≤ c.toNat && c.toNat ≤ 13)

/-- The C library `isdigit`. -/
def isdigit (c : Char) : Bool :=
  48 ≤ c.toNat && c.toNat ≤ 57

/-- The decimal value of the leading run of digits of `s`, continuing from `acc`. -/
def digitsValue : List Char → Int → Int
  | [], acc => acc
  | c :: rest, acc =>
    if isdigit c then digitsValue rest (acc * 10 + ((c.toNat : Int) - 48)) else acc

/-- The C library `atoi` on the characters of a NUL-terminated string: leading
white space is skipped, an optional sign is read, then the leading run of decimal
digits; `0` when there is none. -/
def atoi (s : List Char) : Int :=
  match s.dropWhile isspace with
  | [] => 0
  | c :: rest =>
    if c.toNat = 45 then - digitsValue rest 0
    else if c.toNat = 43 then digitsValue rest 0
    else digitsValue (c :: rest) 0

/-- The characters of the C string held in a buffer: those before the first NUL. -/
def cstr (buf : List Char) : List Char :=
  buf.takeWhile (fun c => c.toNat ≠ 0)

/-- The two bytes that `strncpy(dst, src, 2)` writes: the first two characters of
the C string `src`, padded with NUL when it is shorter. -/
def strncpy2 (src : List Char) : List Char :=
  (cstr src).take 2 ++ List.replicate (2 - ((cstr src).take 2).length) (Char.ofNat 0)

/-- The function `getCellDimension(fileName)`.  `fileName` holds the characters
of the base name (without the terminating NUL); a position past its end reads
as NUL.  `numStr` and `subNumStr` are the two-byte copies made by `strncpy`,
terminated by the NUL written at index 2. -/
def getCellDimension (fileName : List Char) : DmvCell :=
  let letter : Char := fileName.getD 2 (Char.ofNat 0)
  let numStr := cstr (strncpy2 (fileName.drop 3) ++ [Char.ofNat 0])
  let subNumStr := cstr (strncpy2 (fileName.drop 5) ++ [Char.ofNat 0])
  let num := atoi numStr
  let subNum := atoi subNumStr
  let xy := getCellOrign (letter.toNat : Int) num subNum
  let wh := getCellSize subNum
  { originX := xy.x
    originY := xy.y
    heightX := doubleToInt wh.x
    widthY := doubleToInt wh.y }

/-! ## Grid and neighbour filter -/

/-- The grid `double **band`: the value stored at `band[y][x]`.  Only the cells
with `0 ≤ y < nRasterYSize` and `0 ≤ x < nRasterXSize` are allocated; an access
outside them is reported as `Fault.outOfBounds` by the code that makes it. -/
abbrev Band := Int → Int → ℚ

/-- The grid as the constructor allocates it: every cell holds the value `0`. -/
def emptyBand : Band :=
  fun _ _ => 0

/-- What the C code does where its behaviour is not defined or it does not return. -/
inductive Fault where
  /-- an access to `band` outside the allocated rows and columns -/
  | outOfBounds
  /-- an access to the 80-byte line buffer `lline` at an index of 80 or more -/
  | bufferOverrun
  /-- a loop that does not end -/
  | noTermination
deriving DecidableEq, Repr

/-- A double that need not be finite: the result of `pixSum / pixCnt`. -/
inductive Dbl where
  | fin (q : ℚ)
  | posInf
  | negInf
  | nan
deriving DecidableEq, Repr

/-- The quotient `pixSum / pixCnt` of a double by an `int` converted to double:
division by zero gives an infinity, and `0 / 0` gives a NaN. -/
def Dbl.div (pixSum : ℚ) (pixCnt : Int) : Dbl :=
  if pixCnt ≠ 0 then Dbl.fin (pixSum / (pixCnt : ℚ))
  else if pixSum > 0 then Dbl.posInf
  else if pixSum < 0 then Dbl.negInf
  else Dbl.nan

/-- The comparison `pixAvg == 0`: false for a NaN and for an infinity. -/
def Dbl.isZero : Dbl → Bool
  | Dbl.fin q => decide (q = 0)
  | _ => false

/-- The difference `z - pixAvg` for a finite `z`. -/
def Dbl.rsub (z : ℚ) : Dbl → Dbl
  | Dbl.fin q => Dbl.fin (z - q)
  | Dbl.posInf => Dbl.negInf
  | Dbl.negInf => Dbl.posInf
  | Dbl.nan => Dbl.nan

/-- The `abs` of a double (the `double` overload that `<math.h>` declares in C++). -/
def Dbl.abs : Dbl → Dbl
  | Dbl.fin q => Dbl.fin |q|
  | Dbl.posInf => Dbl.posInf
  | Dbl.negInf => Dbl.posInf
  | Dbl.nan => Dbl.nan

/-- The comparison `delta > 30`: false for a NaN. -/
def Dbl.gt30 : Dbl → Bool
  | Dbl.fin q => decide (q > 30)
  | Dbl.posInf => true
  | Dbl.negInf => false
  | Dbl.nan => false

/-- One of the eight numbered blocks of `calcPixAvg`: the neighbour `(y, x)` is
added to `(pixSum, pixCnt)` when it passes the index guard and holds a value
`> 0`. -/
def addPix (band : Band) (maxy maxx : Int) (y x : Int) (acc : ℚ × Int) : ℚ × Int :=
  if (y > 0) ∧ (y < maxy) ∧ (x > 0) ∧ (x < maxx) then
    if band y x > 0 then (acc.1 + band y x, acc.2 + 1) else acc
  else acc

/-- The pair `(pixSum, pixCnt)` that `calcPixAvg` has accumulated when it reaches
the division: the blocks 1 to 8 in the order of the source. -/
def pixSumCnt (band : Band) (bandY bandX maxy maxx : Int) : ℚ × Int :=
  let acc : ℚ × Int := (0, 0)
  let acc := addPix band maxy maxx (bandY - 1) (bandX - 1) acc
  let acc := addPix band maxy maxx (bandY - 1) bandX acc
  let acc := addPix band maxy maxx (bandY - 1) (bandX + 1) acc
  let acc := addPix band maxy maxx bandY (bandX - 1) acc
  let acc := addPix band maxy maxx bandY (bandX + 1) acc
  let acc := addPix band maxy maxx (bandY + 1) (bandX - 1) acc
  let acc := addPix band maxy maxx (bandY + 1) bandX acc
  let acc := addPix band maxy maxx (bandY + 1) (bandX + 1) acc
  acc

/-- The method `DMVRasterBand::calcPixAvg(bandY, bandX, maxy, maxx)`. -/
def calcPixAvg (band : Band) (bandY bandX maxy maxx : Int) : Dbl :=
  let acc := pixSumCnt band bandY bandX maxy maxx
  Dbl.div acc.1 acc.2

/-- The fields of `DMVDataset` (and of its base class) that the driver sets in
`Open` and reads in the band; `fp` is the content of the file. -/
structure DMVDataset where
  fp : List Char
  nRasterXSize : Int
  nRasterYSize : Int
  nRasterXOrigin : Int
  nRasterYOrigin : Int

/-- The grid after the value `z` has been stored at `(bandY, bandX)`. -/
def setCell (band : Band) (bandY bandX : Int) (z : ℚ) : Band :=
  fun y x => if y = bandY ∧ x = bandX then z else band y x

/-- The assignment `band[bandY][bandX] = z`. -/
def storeCell (poDS : DMVDataset) (band : Band) (bandY bandX : Int) (z : ℚ) :
    Except Fault Band :=
  if 0 ≤ bandY ∧ bandY < poDS.nRasterYSize ∧ 0 ≤ bandX ∧ bandX < poDS.nRasterXSize then
    Except.ok (setCell band bandY bandX z)
  else
    Except.error Fault.outOfBounds

/-- Lines 296-297 of the constructor: the indices of a sample before the
overshoot test, `(bandY, bandX)`. -/
def bandIndex (poDS : DMVDataset) (data : XYZ) : Int × Int :=
  (doubleToInt ((data.x - (poDS.nRasterYOrigin : ℚ)) / 5),
   doubleToInt ((data.y - (poDS.nRasterXOrigin : ℚ)) / 5))

/-- Lines 299-306 of the constructor: an index at or beyond the raster size is
replaced by the last index. -/
def clampIndex (poDS : DMVDataset) (idx : Int × Int) : Int × Int :=
  let bandY := if idx.1 ≥ poDS.nRasterYSize then poDS.nRasterYSize - 1 else idx.1
  let bandX := if idx.2 ≥ poDS.nRasterXSize then poDS.nRasterXSize - 1 else idx.2
  (bandY, bandX)

/-- Lines 309-319 of the constructor: the sample value `z` is stored at
`(bandY, bandX)` or dropped, by its distance to the neighbour average. -/
def placeAt (poDS : DMVDataset) (band : Band) (bandY bandX : Int) (z : ℚ) :
    Except Fault Band :=
  let pixAvg := calcPixAvg band bandY bandX poDS.nRasterYSize poDS.nRasterXSize
  if pixAvg.isZero then
    storeCell poDS band bandY bandX z
  else
    let delta := (Dbl.rsub z pixAvg).abs
    if delta.gt30 then
      Except.ok band
    else
      storeCell poDS band bandY bandX z

/-- Lines 296-319 of the constructor: one parsed record is placed in the grid. -/
def placeSample (poDS : DMVDataset) (band : Band) (data : XYZ) : Except Fault Band :=
  let idx := clampIndex poDS (bandIndex poDS data)
  placeAt poDS band idx.1 idx.2 data.z

/-! ## Line reader and record parser -/

/-- The 80-byte buffer `char lline[80]`: the byte at each index `0`..`79`. -/
abbrev LineBuf := Nat → Char

/-- What the source leaves to its environment: the C library `atof`, the bytes
found in variables that are read before they are written, and the bytes that
follow an unterminated string. -/
structure Env where
  /-- the C library `atof` on the characters of a NUL-terminated string -/
  atof : List Char → ℚ
  /-- the content of `chr[0]` when call number `k` of `readLine` starts -/
  chrInit : Nat → Char
  /-- the content of `lline` when the constructor starts -/
  llineInit : LineBuf
  /-- the bytes that follow the two-byte `numStr` of `Identify` in memory -/
  afterNumStr : List Char

/-- The call `VSIFReadL(chr, 1, 1, fp)`: the next byte of the file is stored in
`chr[0]`; at the end of the file nothing is stored.  The result is the new
`chr[0]` and the rest of the file. -/
def VSIFReadL (chr : Char) (fp : List Char) : Char × List Char :=
  match fp with
  | [] => (chr, [])
  | c :: rest => (c, rest)

/-- The `while (chr[0] != EOF)` loop of `readLine`, entered with `chr[0] = chr`
and `i` bytes stored.  The byte `0xFF` is the `char` that compares equal to `EOF`.
The result is the returned `int`, the line buffer and the rest of the file. -/
def readLineLoop : Nat → Char → Nat → LineBuf → List Char →
    Except Fault (Int × LineBuf × List Char)
  | 0, _, _, _, _ => Except.error Fault.noTermination
  | fuel + 1, chr, i, line, fp =>
    if chr.toNat = 255 then
      Except.ok (-1, line, fp)
    else if chr.toNat = 10 then
      if i < 80 then
        Except.ok ((i : Int) + 1, Function.update line i (Char.ofNat 0), fp)
      else Except.error Fault.bufferOverrun
    else if chr.toNat = 13 then
      readLineLoop fuel (VSIFReadL chr fp).1 i line (VSIFReadL chr fp).2
    else if i < 80 then
      readLineLoop fuel (VSIFReadL chr fp).1 (i + 1) (Function.update line i chr)
        (VSIFReadL chr fp).2
    else Except.error Fault.bufferOverrun

/-- The function `readLine(line, fp)`; `chr0` is the content of the local
`chr[0]` on entry.  Every turn of the loop either consumes a byte of the file or
runs at its end, where at most 80 bytes can be stored: `fp.length + 82` turns
decide the outcome. -/
def readLine (chr0 : Char) (line : LineBuf) (fp : List Char) :
    Except Fault (Int × LineBuf × List Char) :=
  readLineLoop (fp.length + 82) (VSIFReadL chr0 fp).1 0 line (VSIFReadL chr0 fp).2

/-- One of the three scanning loops of `parseXyzLine`,
`while ((ch = line[i++]) != stop) str[j++] = ch;`, with `rem = 80 - i` bytes of
the buffer left.  The result is the bytes copied and the new `i`. -/
def scanField (stop : Nat) (line : LineBuf) : Nat → Nat → List Char →
    Except Fault (List Char × Nat)
  | 0, _, _ => Except.error Fault.bufferOverrun
  | rem + 1, i, str =>
    if (line i).toNat = stop then Except.ok (str, i + 1)
    else scanField stop line rem (i + 1) (str ++ [line i])

/-- The function `parseXyzLine(line, data)`: the first field goes to `yStr`, the
second to `xStr`, the rest up to the NUL to `zStr`; each is a zero-filled
buffer, so `atof` sees the bytes copied up to their first NUL. -/
def parseXyzLine (atof : List Char → ℚ) (line : LineBuf) : Except Fault XYZ :=
  match scanField 32 line 80 0 [] with
  | Except.error e => Except.error e
  | Except.ok (yStr, i) =>
    match scanField 32 line (80 - i) i [] with
    | Except.error e => Except.error e
    | Except.ok (xStr, i2) =>
      match scanField 0 line (80 - i2) i2 [] with
      | Except.error e => Except.error e
      | Except.ok (zStr, _) =>
        Except.ok { x := atof (cstr xStr), y := atof (cstr yStr), z := atof (cstr zStr) }

/-! ## Band constructor -/

/-- The state of `DMVRasterBand` after its constructor: the block size, the grid
and the number of records read. -/
structure DMVRasterBand where
  nBlockXSize : Int
  nBlockYSize : Int
  band : Band
  lineCnt : Int

/-- The `while ((len != EOF) && (len > 5))` loop of the constructor, entered
before call number `k` of `readLine`.  The minima and maxima it keeps are only
printed and are left out. -/
def ingestLoop (env : Env) (poDS : DMVDataset) : Nat → Nat → Int → LineBuf → List Char →
    Band → Int → Except Fault (Band × Int)
  | 0, _, _, _, _, _, _ => Except.error Fault.noTermination
  | fuel + 1, k, len, lline, fp, band, lineCnt =>
    if len ≠ -1 ∧ len > 5 then
      match parseXyzLine env.atof lline with
      | Except.error e => Except.error e
      | Except.ok data =>
        match placeSample poDS band data with
        | Except.error e => Except.error e
        | Except.ok band2 =>
          match readLine (env.chrInit k) (Function.update lline 0 (Char.ofNat 10)) fp with
          | Except.error e => Except.error e
          | Except.ok (len2, lline2, fp2) =>
            ingestLoop env poDS fuel (k + 1) len2 lline2 fp2 band2 (lineCnt + 1)
    else
      Except.ok (band, lineCnt)

/-- The constructor `DMVRasterBand::DMVRasterBand(poDS, nBand)`: the grid is
allocated and set to `0`, the file is read from its start.  A record that passes
the loop test has consumed at least one byte, so `fp.length + 1` turns decide the
outcome. -/
def DMVRasterBand.new (env : Env) (poDS : DMVDataset) : Except Fault DMVRasterBand :=
  let band : Band := emptyBand
  match readLine (env.chrInit 0) env.llineInit poDS.fp with
  | Except.error e => Except.error e
  | Except.ok (len, lline, fp) =>
    match ingestLoop env poDS (poDS.fp.length + 1) 1 len lline fp band 0 with
    | Except.error e => Except.error e
    | Except.ok (band2, lineCnt) =>
      Except.ok { nBlockXSize := poDS.nRasterXSize
                  nBlockYSize := 1
                  band := band2
                  lineCnt := lineCnt }

/-! ## Identify and Open -/

/-- The access mode of `GDALOpenInfo`. -/
inductive GDALAccess where
  | GA_ReadOnly
  | GA_Update
deriving DecidableEq, Repr

/-- The part of `GDALOpenInfo` the driver reads.  `baseName` and `extension` are
what `CPLGetBasename` and `CPLGetExtension` return for `pszFilename`; `fpL` is the
content of the file when the file pointer is not `NULL`. -/
structure GDALOpenInfo where
  baseName : List Char
  extension : List Char
  nHeaderBytes : Int
  eAccess : GDALAccess
  fpL : Option (List Char)

/-- The test `EQUALN(a, b, n)`: the first `n` characters agree, case ignored. -/
def EQUALN (a b : List Char) (n : Nat) : Bool :=
  (a.take n).map Char.toLower == (b.take n).map Char.toLower

/-- The function `DMVDataset::Identify`.  Its `numStr` has room for the two
copied bytes only, so `atoi` reads on into the bytes that follow it in memory,
`env.afterNumStr`.  A position past the end of `fileName` reads as NUL. -/
def Identify (env : Env) (poOpenInfo : GDALOpenInfo) : Bool :=
  if poOpenInfo.nHeaderBytes < 100 then false
  else
    let fileName := poOpenInfo.baseName
    let fileExt := poOpenInfo.extension
    if !EQUALN fileExt [Char.ofNat 120, Char.ofNat 121, Char.ofNat 122] 3 then false
    else if !EQUALN fileName [Char.ofNat 86, Char.ofNat 84] 2 then false
    else
      let letter : Char := fileName.getD 2 (Char.ofNat 0)
      if !(letter.toNat > 64 && letter.toNat < 77) then false
      else if atoi (cstr (strncpy2 (fileName.drop 3) ++ env.afterNumStr)) = 0 then false
      else if atoi (cstr (strncpy2 (fileName.drop 5) ++ env.afterNumStr)) = 0 then false
      else true

/-- What `Open` hands back when it does not return `NULL`: the dataset and its
band 1. -/
structure Opened where
  poDS : DMVDataset
  band1 : DMVRasterBand

/-- The function `DMVDataset::Open`: `Except.ok none` is the return of `NULL`. -/
def Open (env : Env) (poOpenInfo : GDALOpenInfo) : Except Fault (Option Opened) :=
  if !Identify env poOpenInfo then Except.ok none
  else if poOpenInfo.eAccess = GDALAccess.GA_Update then Except.ok none
  else
    match poOpenInfo.fpL with
    | none => Except.ok none
    | some fp =>
      let cellDim := getCellDimension poOpenInfo.baseName
      let poDS : DMVDataset :=
        { fp := fp
          nRasterYSize := cellDim.heightX
          nRasterXSize := cellDim.widthY
          nRasterYOrigin := doubleToInt cellDim.originX
          nRasterXOrigin := doubleToInt cellDim.originY }
      if poDS.nRasterXSize ≤ 0 ∨ poDS.nRasterYSize ≤ 0 then Except.ok none
      else
        match DMVRasterBand.new env poDS with
        | Except.error e => Except.error e
        | Except.ok band1 => Except.ok (some { poDS := poDS, band1 := band1 })


/-- The dataset that `Open` hands to the constructor of the band, as the theorems
below state it: the raster size 450 x 600 and the origin `getCellDimension`
computes from the base name. -/
def datasetFor (poOpenInfo : GDALOpenInfo) (fp : List Char) : DMVDataset :=
  { fp := fp
    nRasterXSize := 450
    nRasterYSize := 600
    nRasterXOrigin := doubleToInt (getCellDimension poOpenInfo.baseName).originY
    nRasterYOrigin := doubleToInt (getCellDimension poOpenInfo.baseName).originX }

/-! ## The placement policy as the specification words it -/

/-- The 8 cells that surround `(row, col)`. -/
def surrounding (row col : Int) : List (Int × Int) :=
  [(row - 1, col - 1), (row - 1, col), (row - 1, col + 1),
   (row, col - 1), (row, col + 1),
   (row + 1, col - 1), (row + 1, col), (row + 1, col + 1)]

/-- A surrounding cell is eligible when its indices lie strictly between 0 and the
grid dimension on both axes and its value is greater than the sentinel 0. -/
def eligible (band : Band) (height width : Int) (p : Int × Int) : Bool :=
  decide (0 < p.1 ∧ p.1 < height ∧ 0 < p.2 ∧ p.2 < width ∧ 0 < band p.1 p.2)

/-- The values `N` of the eligible cells among the 8 that surround `(row, col)`. -/
def eligibleNeighbours (band : Band) (height width row col : Int) : List ℚ :=
  ((surrounding row col).filter (eligible band height width)).map (fun p => band p.1 p.2)

/-- The mean `M` of a non-empty list of values. -/
def neighbourMean (N : List ℚ) : ℚ :=
  N.sum / (N.length : ℚ)

/-! ## Buffer contents, for stating what the reader leaves behind -/

/-- The buffer after the bytes `cs` have been stored from index `i` on. -/
def storeBytes (line : LineBuf) (i : Nat) : List Char → LineBuf
  | [] => line
  | c :: cs => storeBytes (Function.update line i c) (i + 1) cs

/-- The bytes of a line that `readLine` stores: all but the carriage returns. -/
def dropCR (body : List Char) : List Char :=
  body.filter (fun c => c.toNat ≠ 13)

/-- The `n` bytes of the buffer from index `i` on. -/
def bytesFrom (line : LineBuf) (i n : Nat) : List Char :=
  (List.range n).map (fun k => line (i + k))

/-! ## Inputs used to evaluate the model -/

/-- The dataset that `Open` sets up for tile `VTB1901` (600 rows of 450 cells,
`nRasterYOrigin = 37000`, `nRasterXOrigin = 387500`), here without file content. -/
def tileB1901 : DMVDataset :=
  { fp := []
    nRasterXSize := 450
    nRasterYSize := 600
    nRasterXOrigin := 387500
    nRasterYOrigin := 37000 }

/-- The value `atof` gives for an optionally signed run of decimal digits, the
only numerals in `sampleFile`. -/
def atofDigits (s : List Char) : ℚ :=
  ((atoi s : Int) : ℚ)

/-- An environment: `atof` on digit runs, zero bytes in the unwritten variables. -/
def sampleEnv : Env :=
  { atof := atofDigits
    chrInit := fun _ => Char.ofNat 0
    llineInit := fun _ => Char.ofNat 0
    afterNumStr := [] }

/-- The first record of `sampleFile`: first field 100000, second field 400000,
elevation 500. -/
def sampleRecord : List Char :=
  "100000 400000 500".toList

/-- The records of `sampleFile` after its empty line. -/
def sampleTail : List Char :=
  ("100005 400000 502\n100010 400000 503\n100015 400000 504\n" ++
   "100020 400000 505\n100025 400000 506\n").toList

/-- A file of 109 bytes: one record, an empty line, then five more records. -/
def sampleFile : List Char :=
  sampleRecord ++ Char.ofNat 10 :: Char.ofNat 10 :: sampleTail

/-- The line buffer after `readLine` has read the first line of `sampleFile`. -/
def sampleLine : LineBuf :=
  Function.update (storeBytes sampleEnv.llineInit 0 (dropCR sampleRecord))
    (dropCR sampleRecord).length (Char.ofNat 0)

/-- The file `VTA1801.xyz` opened read-only: letter `A`, section 18 (outside
`19..30`), sub-section 1. -/
def sectionOutOfRange : GDALOpenInfo :=
  { baseName := "VTA1801".toList
    extension := "xyz".toList
    nHeaderBytes := 109
    eAccess := GDALAccess.GA_ReadOnly
    fpL := some sampleFile }

/-- The dataset of `VTA1801.xyz`: the sentinel origin `-1` on both axes. -/
def sectionOutOfRangeDS : DMVDataset :=
  { fp := sampleFile
    nRasterXSize := 450
    nRasterYSize := 600
    nRasterXOrigin := -1
    nRasterYOrigin := -1 }

/-- The first record of `tileFile`: first field 387510, second field 37020,
elevation 500; it lies inside tile `VTB1901`. -/
def tileRecord : List Char :=
  "387510 37020 500".toList

/-- The records of `tileFile` after its empty line. -/
def tileTail : List Char :=
  ("387515 37020 502\n387520 37020 503\n387525 37020 504\n" ++
   "387530 37020 505\n387535 37020 506\n387540 37020 507\n").toList

/-- A file of 120 bytes for tile `VTB1901`: one record, an empty line, then six
more records. -/
def tileFile : List Char :=
  tileRecord ++ Char.ofNat 10 :: Char.ofNat 10 :: tileTail

/-- The line buffer after `readLine` has read the first line of `tileFile`. -/
def tileLine : LineBuf :=
  Function.update (storeBytes sampleEnv.llineInit 0 (dropCR tileRecord))
    (dropCR tileRecord).length (Char.ofNat 0)

/-- The file `VTB1901.xyz` opened read-only: a populated tile. -/
def tileB1901Info : GDALOpenInfo :=
  { baseName := "VTB1901".toList
    extension := "xyz".toList
    nHeaderBytes := 120
    eAccess := GDALAccess.GA_ReadOnly
    fpL := some tileFile }

/-- The dataset of `VTB1901.xyz` with the content of `tileFile`. -/
def tileB1901DS : DMVDataset :=
  { fp := tileFile
    nRasterXSize := 450
    nRasterYSize := 600
    nRasterXOrigin := 387500
    nRasterYOrigin := 37000 }

/-- What `Open` returns for `VTB1901.xyz`: the first record of `tileFile` stored at
row 4, column 2, and one record counted. -/
def tileB1901Opened : Opened :=
  { poDS := tileB1901DS
    band1 := { nBlockXSize := 450
               nBlockYSize := 1
               band := setCell emptyBand 4 2 500
               lineCnt := 1 } }

/-- What `Open` returns for `VTA1801.xyz`: the first record of `sampleFile` stored
at the last cell `(599, 449)`, and one record counted. -/
def sectionOutOfRangeOpened : Opened :=
  { poDS := sectionOutOfRangeDS
    band1 := { nBlockXSize := 450
               nBlockYSize := 1
               band := setCell emptyBand 599 449 500
               lineCnt := 1 } }

/-- A grid with two written cells next to `(5, 5)`: 100 at `(4, 5)` and 110 at
`(6, 6)`; their mean is 105. -/
def twoNeighbours : Band :=
  setCell (setCell emptyBand 4 5 100) 6 6 110

/-- A grid whose only written cell is the corner `(599, 449)` of the last row and
the last column of a 600 x 450 raster, holding 10. -/
def cornerBand : Band :=
  setCell emptyBand 599 449 10

/-- A record of tile `VTB1901` ten units below its row origin 37000: the row index
computed for it is `-2`. -/
def underOrigin : XYZ :=
  { x := 36990, y := 387510, z := 500 }

/-- A record of tile `VTB1901` that falls on cell `(5, 5)` with the elevation 105,
the mean of the two neighbours written in `twoNeighbours`. -/
def atMean : XYZ :=
  { x := 37025, y := 387525, z := 105 }

/-! ## Block read -/

/-- A file whose first line has 80 bytes before its newline: the letter `a` 80
times. -/
def longLineFile : List Char :=
  List.replicate 80 (Char.ofNat 97) ++ [Char.ofNat 10]

/-- An environment in which `chr[0]` of `readLine` starts as the newline that ended
the previous line, as when the variable keeps its place on the stack. -/
def staleEnv : Env :=
  { atof := atofDigits
    chrInit := fun _ => Char.ofNat 10
    llineInit := fun _ => Char.ofNat 0
    afterNumStr := [] }

/-- The first line of the scenario. -/
def scenarioLine1 : List Char :=
  "100000 400000 500".toList

/-- The second line of the scenario. -/
def scenarioLine2 : List Char :=
  "100005 400000 502".toList

/-- The third line of the scenario. -/
def scenarioLine3 : List Char :=
  "100000 400005 10000".toList

/-- The three lines of the scenario, each ended by a newline. -/
def scenarioFile : List Char :=
  scenarioLine1 ++ Char.ofNat 10 :: (scenarioLine2 ++ Char.ofNat 10 ::
    (scenarioLine3 ++ Char.ofNat 10 :: []))

/-- The dataset of the scenario: the origin is that of the first record, 400000 for
the second field (row axis) and 100000 for the first field (column axis). -/
def scenarioDS : DMVDataset :=
  { fp := scenarioFile
    nRasterXSize := 450
    nRasterYSize := 600
    nRasterXOrigin := 100000
    nRasterYOrigin := 400000 }

/-- The line buffer after call `k` of `readLine` has stored `stored` in the buffer
`line` that the loop handed over (its first byte reset to a newline). -/
def nextLine (line : LineBuf) (stored : List Char) : LineBuf :=
  Function.update (storeBytes (Function.update line 0 (Char.ofNat 10)) 0 stored) stored.length
    (Char.ofNat 0)

/-- The line buffer of the scenario after its first line has been read. -/
def scenarioBuf1 : LineBuf :=
  Function.update (storeBytes staleEnv.llineInit 0 (dropCR scenarioLine1))
    (dropCR scenarioLine1).length (Char.ofNat 0)

/-- The grid of the scenario after its three records. -/
def scenarioBand : Band :=
  setCell (setCell (setCell emptyBand 0 0 500) 0 1 502) 1 0 10000

/-- A line of exactly 5 characters. -/
def fiveCharLine : List Char :=
  "1 2 3".toList

/-- A line of exactly 4 characters. -/
def fourCharLine : List Char :=
  "1 23".toList

/-- A file that holds the line `1 2 3` and an empty line. -/
def fiveCharFile : List Char :=
  fiveCharLine ++ Char.ofNat 10 :: Char.ofNat 10 :: []

/-- A dataset with the origin `(0, 0)`, that of an unpopulated tile, on the file
`fiveCharFile`. -/
def fiveCharDS : DMVDataset :=
  { fp := fiveCharFile
    nRasterXSize := 450
    nRasterYSize := 600
    nRasterXOrigin := 0
    nRasterYOrigin := 0 }

/-- The line buffer after the line `1 2 3` has been read. -/
def fiveCharBuf : LineBuf :=
  Function.update (storeBytes staleEnv.llineInit 0 (dropCR fiveCharLine))
    (dropCR fiveCharLine).length (Char.ofNat 0)

/-- A line of 8 characters without a space. -/
def noSpaceLine : List Char :=
  "abcdefgh".toList

/-- A file that holds the line `abcdefgh` and an empty line. -/
def noSpaceFile : List Char :=
  noSpaceLine ++ Char.ofNat 10 :: Char.ofNat 10 :: []

/-- The dataset of tile `VTB1901` on the file `noSpaceFile`. -/
def noSpaceDS : DMVDataset :=
  { fp := noSpaceFile
    nRasterXSize := 450
    nRasterYSize := 600
    nRasterXOrigin := 387500
    nRasterYOrigin := 37000 }

/-- The line buffer after the line `abcdefgh` has been read into a buffer of zero
bytes. -/
def noSpaceBuf : LineBuf :=
  Function.update (storeBytes sampleEnv.llineInit 0 (dropCR noSpaceLine))
    (dropCR noSpaceLine).length (Char.ofNat 0)

/-- A line of 7 characters with one space only. -/
def oneSpaceLine : List Char :=
  "77777 8".toList

/-- The line buffer after the line `77777 8` has been read over the line
`100000 400000 500` of `sampleLine`: from index 8 on it still holds the bytes
`00000 500` of that earlier line. -/
def oneSpaceBuf : LineBuf :=
  nextLine sampleLine (dropCR oneSpaceLine)

/-- The grid after the records `recs` have been placed in order, each by the lines
296-319 of the constructor, starting from the grid `band`. -/
def placeRecords (poDS : DMVDataset) : Band → List XYZ → Except Fault Band
  | band, [] => Except.ok band
  | band, data :: rest =>
    match placeSample poDS band data with
    | Except.error e => Except.error e
    | Except.ok band2 => placeRecords poDS band2 rest

/-- Every cell of the grid `g` holds the sentinel 0 or the elevation of one of the
records `recs` whose clamped indices are that cell. -/
def Provenance (poDS : DMVDataset) (recs : List XYZ) (g : Band) : Prop :=
  ∀ y x, g y x = 0 ∨
    ∃ r ∈ recs, clampIndex poDS (bandIndex poDS r) = (y, x) ∧ g y x = r.z

/-- The three records of the scenario, as parsed. -/
def scenarioRecords : List XYZ :=
  [{ x := 400000, y := 100000, z := 500 }, { x := 400000, y := 100005, z := 502 },
   { x := 400005, y := 100000, z := 10000 }]

/-- A record line of tile `VTB1901` whose second field 36990 lies below the row
origin 37000. -/
def underflowLine : List Char :=
  "387510 36990 500".toList

/-- A file that holds the line `387510 36990 500` and an empty line. -/
def underflowFile : List Char :=
  underflowLine ++ Char.ofNat 10 :: Char.ofNat 10 :: []

/-- The dataset of tile `VTB1901` on the file `underflowFile`. -/
def underflowDS : DMVDataset :=
  { fp := underflowFile
    nRasterXSize := 450
    nRasterYSize := 600
    nRasterXOrigin := 387500
    nRasterYOrigin := 37000 }

/-- The line buffer after the line `387510 36990 500` has been read. -/
def underflowBuf : LineBuf :=
  Function.update (storeBytes sampleEnv.llineInit 0 (dropCR underflowLine))
    (dropCR underflowLine).length (Char.ofNat 0)

/-! ## Ingestion line by line, for stating where it stops -/

/-- The bytes of a sequence of lines, each followed by its newline. -/
def linesOf : List (List Char) → List Char
  | [] => []
  | body :: more => body ++ Char.ofNat 10 :: linesOf more

/-- The dataset `poDS` on another file. -/
def withFile (poDS : DMVDataset) (fp : List Char) : DMVDataset :=
  { poDS with fp := fp }

/-- A call of `readLine` followed by the loop of the constructor: the first two
statements after the allocation (`k = 0`) and the end of every turn of the loop. -/
def readAndIngest (env : Env) (poDS : DMVDataset) (fuel k : Nat) (prev : LineBuf)
    (fp : List Char) (band : Band) (lineCnt : Int) : Except Fault (Band × Int) :=
  match readLine (env.chrInit k) prev fp with
  | Except.error e => Except.error e
  | Except.ok (len, lline, fp2) => ingestLoop env poDS fuel (k + 1) len lline fp2 band lineCnt

/-- What the constructor does with a sequence of lines that all pass the loop test:
each line is stored over the buffer `prev` left by the line before, parsed, and its
record placed; the first byte of the buffer is then reset to a newline. -/
def ingestLines (env : Env) (poDS : DMVDataset) :
    LineBuf → Band → Int → List (List Char) → Except Fault (Band × Int)
  | _, band, lineCnt, [] => Except.ok (band, lineCnt)
  | prev, band, lineCnt, body :: more =>
    match parseXyzLine env.atof (Function.update (storeBytes prev 0 (dropCR body))
        (dropCR body).length (Char.ofNat 0)) with
    | Except.error e => Except.error e
    | Except.ok data =>
      match placeSample poDS band data with
      | Except.error e => Except.error e
      | Except.ok band2 =>
        ingestLines env poDS
          (Function.update (Function.update (storeBytes prev 0 (dropCR body))
            (dropCR body).length (Char.ofNat 0)) 0 (Char.ofNat 10))
          band2 (lineCnt + 1) more

/-- The result of the constructor from the grid and the count its loop returns. -/
def bandOf (poDS : DMVDataset) (r : Except Fault (Band × Int)) : Except Fault DMVRasterBand :=
  match r with
  | Except.error e => Except.error e
  | Except.ok (band2, lineCnt) =>
    Except.ok { nBlockXSize := poDS.nRasterXSize
                nBlockYSize := 1
                band := band2
                lineCnt := lineCnt }

/-- Outside the table `baseOrigin` is the pair `(-1, -1)`. -/
theorem baseOrigin_outside (letter num : Int)
    (h : letter - 65 < 0 ∨ 11 < letter - 65 ∨ num - 19 < 0 ∨ 11 < num - 19) :
    baseOrigin letter num = (-1, -1) := by
  unfold baseOrigin
  have hg : ¬ ((letter - 65 > -1 ∧ letter - 65 < 12) ∧ (num - 19 > -1 ∧ num - 19 < 12)) := by
    omega
  simp only [hg, if_false]

/-- Inside the table `baseOrigin` is the table entry, X first. -/
theorem baseOrigin_inside (letter num : Int)
    (hy : 0 ≤ letter - 65 ∧ letter - 65 < 12) (hx : 0 ≤ num - 19 ∧ num - 19 < 12) :
    baseOrigin letter num =
      (((tableEntry (letter - 65) (num - 19)).2 : ℚ),
       ((tableEntry (letter - 65) (num - 19)).1 : ℚ)) := by
  unfold baseOrigin
  have hg : (letter - 65 > -1 ∧ letter - 65 < 12) ∧ (num - 19 > -1 ∧ num - 19 < 12) := by
    omega
  simp only [hg, and_self, if_true]

/-- The sub-section offsets in closed form, for a populated entry and a sub-section
in `1..50`. -/
theorem getCellOrign_populated (letter num s : Int)
    (hy : 0 ≤ letter - 65 ∧ letter - 65 < 12) (hx : 0 ≤ num - 19 ∧ num - 19 < 12)
    (hpos : 0 < (tableEntry (letter - 65) (num - 19)).1 ∧
      0 < (tableEntry (letter - 65) (num - 19)).2)
    (hs : 1 ≤ s ∧ s ≤ 50) :
    (getCellOrign letter num s).x =
        (((tableEntry (letter - 65) (num - 19)).2 + (4 - (s - 1) / 10) * (5 * 600) : Int) : ℚ) ∧
    (getCellOrign letter num s).y =
        (((tableEntry (letter - 65) (num - 19)).1 + 5 * 450 * ((s - 1) % 10) : Int) : ℚ) := by
  obtain ⟨h1, h2⟩ := hpos
  have hd : Int.tdiv (s - 1) 10 = (s - 1) / 10 :=
    Int.tdiv_eq_ediv (by omega) (by omega)
  have hm : Int.tmod (s - 1) 10 = (s - 1) % 10 :=
    Int.tmod_eq_emod (by omega) (by omega)
  have hq1 : (0 : ℚ) < ((tableEntry (letter - 65) (num - 19)).2 : ℚ) := by exact_mod_cast h2
  have hq2 : (0 : ℚ) < ((tableEntry (letter - 65) (num - 19)).1 : ℚ) := by exact_mod_cast h1
  unfold getCellOrign
  rw [baseOrigin_inside letter num hy hx, hd, hm]
  simp only [gt_iff_lt, hq1, hq2, and_self, if_true]
  constructor
  · by_cases hsx : 0 < 4 - (s - 1) / 10
    · simp only [hsx, if_true]
      push_cast
      ring
    · have : (s - 1) / 10 = 4 := by omega
      simp only [hsx, if_false, this]
      norm_num
  · by_cases hsy : 0 < (s - 1) % 10
    · simp only [hsy, if_true]
      by_cases h1' : (s - 1) % 10 = 1
      · simp only [h1', if_true]
        norm_num
      · simp only [h1', if_false]
        push_cast
        ring
    · have : (s - 1) % 10 = 0 := by omega
      simp only [hsy, if_false, this]
      norm_num

/-! ## Geocoder: claims -/

/-- C1: when `letter - 'A'` or `num - 19` lies outside `0..11`, `getCellOrign`
returns the sentinel origin `x = -1`, `y = -1` for every sub-section number: no
sub-section offset is added to it. -/
theorem getCellOrign_out_of_range (letter num subNum : Int)
    (h : letter - 65 < 0 ∨ 11 < letter - 65 ∨ num - 19 < 0 ∨ 11 < num - 19) :
    (getCellOrign letter num subNum).x = -1 ∧ (getCellOrign letter num subNum).y = -1 := by
  unfold getCellOrign
  rw [baseOrigin_outside letter num h]
  norm_num

/-- C1, at letter `M` (77), section 19, sub-section 7 and at letter `A`, section
18, sub-section 50. -/
theorem getCellOrign_out_of_range_witness :
    ((getCellOrign 77 19 7).x = -1 ∧ (getCellOrign 77 19 7).y = -1) ∧
    ((getCellOrign 65 18 50).x = -1 ∧ (getCellOrign 65 18 50).y = -1) :=
  ⟨getCellOrign_out_of_range 77 19 7 (by decide),
   getCellOrign_out_of_range 65 18 50 (by decide)⟩

/-- C2 as stated fails: letter `A`, section 19 is inside the table, its entry is the
unpopulated pair `(0, 0)`, and the origin returned for sub-section 1 is `(0, 0)`,
not the sentinel `(-1, -1)`. -/
theorem getCellOrign_unpopulated_not_sentinel :
    (0 ≤ (65 : Int) - 65 ∧ (65 : Int) - 65 < 12) ∧ (0 ≤ (19 : Int) - 19 ∧ (19 : Int) - 19 < 12) ∧
    tableEntry (65 - 65) (19 - 19) = (0, 0) ∧
    (getCellOrign 65 19 1).x = 0 ∧ (getCellOrign 65 19 1).y = 0 ∧
    ¬ ((getCellOrign 65 19 1).x = -1 ∧ (getCellOrign 65 19 1).y = -1) := by
  refine ⟨by decide, by decide, by decide, ?_, ?_, ?_⟩ <;>
    simp [getCellOrign, baseOrigin, tableEntry, originXY]

/-- C2, amended: for every `(letter, num)` inside the 12x12 table whose entry is the
unpopulated pair `(0, 0)`, and every sub-section number, `getCellOrign` returns the
origin `x = 0`, `y = 0`: the entry itself, with no sub-section offset. -/
theorem getCellOrign_unpopulated (letter num subNum : Int)
    (hy : 0 ≤ letter - 65 ∧ letter - 65 < 12) (hx : 0 ≤ num - 19 ∧ num - 19 < 12)
    (h0 : tableEntry (letter - 65) (num - 19) = (0, 0)) :
    (getCellOrign letter num subNum).x = 0 ∧ (getCellOrign letter num subNum).y = 0 := by
  unfold getCellOrign
  rw [baseOrigin_inside letter num hy hx, h0]
  norm_num

/-- C2 amended, at letter `L` (76), section 30, sub-section 25. -/
theorem getCellOrign_unpopulated_witness :
    tableEntry (76 - 65) (30 - 19) = (0, 0) ∧
    (getCellOrign 76 30 25).x = 0 ∧ (getCellOrign 76 30 25).y = 0 :=
  ⟨by decide, getCellOrign_unpopulated 76 30 25 (by decide) (by decide) (by decide)⟩

/-- C3 as stated fails: for letter `B`, section 19, sub-section 1 the returned
`origin.x` is not 25000, and for letter `A`, section 23, sub-section 1 it is not
85000. -/
theorem getCellOrign_examples_not_base :
    ¬ ((getCellOrign 66 19 1).x = 25000) ∧ ¬ ((getCellOrign 65 23 1).x = 85000) := by
  constructor <;> simp [getCellOrign, baseOrigin, tableEntry, originXY]

/-- C3, amended: for letter `B`, section 19, sub-section 1 the returned origin is
`x = 37000` (the table value 25000 plus four sub-rows of 3000) and `y = 387500`,
with size `(600, 450)`; for letter `A`, section 23, sub-section 1 it is `x = 97000`,
`y = 365000`.  The same holds through `getCellDimension` on the name `VTB1901`. -/
theorem getCellOrign_examples :
    (getCellOrign 66 19 1).x = 37000 ∧ (getCellOrign 66 19 1).y = 387500 ∧
    (getCellSize 1).x = 600 ∧ (getCellSize 1).y = 450 ∧
    (getCellOrign 65 23 1).x = 97000 ∧ (getCellOrign 65 23 1).y = 365000 ∧
    getCellDimension tileB1901Info.baseName =
      { originX := 37000, originY := 387500, widthY := 450, heightX := 600 } := by
  refine ⟨?_, ?_, ?_, ?_, ?_, ?_, ?_⟩
  · simp [getCellOrign, baseOrigin, tableEntry, originXY]; norm_num
  · simp [getCellOrign, baseOrigin, tableEntry, originXY]
  · simp [getCellSize]
  · simp [getCellSize]
  · simp [getCellOrign, baseOrigin, tableEntry, originXY]; norm_num
  · simp [getCellOrign, baseOrigin, tableEntry, originXY]
  · simp [getCellDimension, tileB1901Info, strncpy2, cstr, atoi, isspace, isdigit, digitsValue,
      getCellOrign, baseOrigin, tableEntry, originXY, getCellSize, doubleToInt]
    norm_num

/-- C4 as stated fails: for letter `B`, section 19 (entry `(387500, 25000)`) and
sub-section 1, `origin.y` is not the table value plus `(4 - 0) * 5 * 600`, and
`origin.x` is not the table value plus `5 * 450 * 0`. -/
theorem getCellOrign_offsets_not_swapped :
    (0 < (tableEntry (66 - 65) (19 - 19)).1 ∧ 0 < (tableEntry (66 - 65) (19 - 19)).2) ∧
    ¬ ((getCellOrign 66 19 1).y =
        (((tableEntry (66 - 65) (19 - 19)).1 + (4 - (1 - 1) / 10) * 5 * 600 : Int) : ℚ)) ∧
    ¬ ((getCellOrign 66 19 1).x =
        (((tableEntry (66 - 65) (19 - 19)).2 + 5 * 450 * ((1 - 1) % 10) : Int) : ℚ)) := by
  refine ⟨by decide, ?_, ?_⟩ <;>
    simp [getCellOrign, baseOrigin, tableEntry, originXY]

/-- C4, amended: for every `(letter, num)` whose table entry has both coordinates
`> 0` and every sub-section `s` in `1..50`, the returned `origin.x` (25000 in the
table for B/19) is the table X plus `(4 - floor((s-1)/10)) * 5 * 600`, and the
returned `origin.y` (387500 for B/19) is the table Y plus `5 * 450 * ((s-1) mod 10)`. -/
theorem getCellOrign_offsets (letter num s : Int)
    (hy : 0 ≤ letter - 65 ∧ letter - 65 < 12) (hx : 0 ≤ num - 19 ∧ num - 19 < 12)
    (hpos : 0 < (tableEntry (letter - 65) (num - 19)).1 ∧
      0 < (tableEntry (letter - 65) (num - 19)).2)
    (hs : 1 ≤ s ∧ s ≤ 50) :
    (getCellOrign letter num s).x =
        (((tableEntry (letter - 65) (num - 19)).2 + (4 - (s - 1) / 10) * (5 * 600) : Int) : ℚ) ∧
    (getCellOrign letter num s).y =
        (((tableEntry (letter - 65) (num - 19)).1 + 5 * 450 * ((s - 1) % 10) : Int) : ℚ) :=
  getCellOrign_populated letter num s hy hx hpos hs

/-- C4 amended, at letter `G` (71), section 25, sub-section 27: the offsets are
`2 * 3000` on `x` and `6 * 2250` on `y`. -/
theorem getCellOrign_offsets_witness :
    tableEntry (71 - 65) (25 - 19) = (500000, 115000) ∧
    (getCellOrign 71 25 27).x = ((115000 + (4 - (27 - 1) / 10) * (5 * 600) : Int) : ℚ) ∧
    (getCellOrign 71 25 27).y = ((500000 + 5 * 450 * ((27 - 1) % 10) : Int) : ℚ) :=
  ⟨by decide,
   getCellOrign_offsets 71 25 27 (by decide) (by decide) (by decide) (by decide)⟩

/-- C5 as stated fails: for letter `B`, section 19 the origins of sub-sections 1 and
10 differ in `y` by 20250, which is neither `4 * 5 * 600` nor `4 * 5 * 450`. -/
theorem getCellOrign_sub1_sub10_not_four_columns :
    (0 < (tableEntry (66 - 65) (19 - 19)).1 ∧ 0 < (tableEntry (66 - 65) (19 - 19)).2) ∧
    (getCellOrign 66 19 10).y - (getCellOrign 66 19 1).y = 20250 ∧
    ¬ ((getCellOrign 66 19 10).y - (getCellOrign 66 19 1).y = 4 * 5 * 600) ∧
    ¬ ((getCellOrign 66 19 10).y - (getCellOrign 66 19 1).y = 4 * 5 * 450) := by
  have hm : Int.tmod 9 10 = 9 := by decide
  have hd : Int.tdiv 9 10 = 0 := by decide
  refine ⟨by decide, ?_, ?_, ?_⟩ <;>
    simp [getCellOrign, baseOrigin, tableEntry, originXY, hm, hd] <;> norm_num

/-- C5, amended: for every `(letter, num)` with a populated table entry, the origins
returned for sub-section 1 and for sub-section 10 have the same `x` (northing) and
differ only in `y` (easting), by exactly `9 * 5 * 450 = 20250`: nine sub-columns of
450 cells of 5 units. -/
theorem getCellOrign_sub1_sub10 (letter num : Int)
    (hy : 0 ≤ letter - 65 ∧ letter - 65 < 12) (hx : 0 ≤ num - 19 ∧ num - 19 < 12)
    (hpos : 0 < (tableEntry (letter - 65) (num - 19)).1 ∧
      0 < (tableEntry (letter - 65) (num - 19)).2) :
    (getCellOrign letter num 10).x = (getCellOrign letter num 1).x ∧
    (getCellOrign letter num 10).y - (getCellOrign letter num 1).y = 9 * 5 * 450 ∧
    (getCellOrign letter num 10).y - (getCellOrign letter num 1).y =
      9 * 5 * (getCellSize 10).y := by
  obtain ⟨hx1, hy1⟩ := getCellOrign_populated letter num 1 hy hx hpos (by decide)
  obtain ⟨hx10, hy10⟩ := getCellOrign_populated letter num 10 hy hx hpos (by decide)
  rw [hx1, hy1, hx10, hy10]
  refine ⟨by norm_num, ?_, ?_⟩
  · push_cast
    norm_num
  · push_cast
    simp [getCellSize]
    norm_num

/-- C5 amended, at letter `F` (70), section 28. -/
theorem getCellOrign_sub1_sub10_witness :
    tableEntry (70 - 65) (28 - 19) = (477500, 160000) ∧
    (getCellOrign 70 28 10).x = (getCellOrign 70 28 1).x ∧
    (getCellOrign 70 28 10).y - (getCellOrign 70 28 1).y = 9 * 5 * 450 ∧
    (getCellOrign 70 28 10).y - (getCellOrign 70 28 1).y = 9 * 5 * (getCellSize 10).y :=
  ⟨by decide, getCellOrign_sub1_sub10 70 28 (by decide) (by decide) (by decide)⟩


/-! ## Neighbour filter lemmas -/

/-- One block of `calcPixAvg` adds the value of an eligible cell and counts it. -/
theorem addPix_eq (band : Band) (maxy maxx y x : Int) (acc : ℚ × Int) :
    addPix band maxy maxx y x acc =
      if eligible band maxy maxx (y, x) then (acc.1 + band y x, acc.2 + 1) else acc := by
  unfold addPix eligible
  simp only [gt_iff_lt, decide_eq_true_eq]
  by_cases hg : 0 < y ∧ y < maxy ∧ 0 < x ∧ x < maxx
  · by_cases hv : 0 < band y x
    · rw [if_pos hg, if_pos hv, if_pos ⟨hg.1, hg.2.1, hg.2.2.1, hg.2.2.2, hv⟩]
    · rw [if_pos hg, if_neg hv, if_neg (fun h => hv h.2.2.2.2)]
  · rw [if_neg hg, if_neg (fun h => hg ⟨h.1, h.2.1, h.2.2.1, h.2.2.2.1⟩)]

/-- Running the blocks over a list of cells adds the eligible values to the sum
and their number to the count. -/
theorem foldl_addPix (band : Band) (maxy maxx : Int) (cells : List (Int × Int))
    (acc : ℚ × Int) :
    cells.foldl (fun a p => addPix band maxy maxx p.1 p.2 a) acc =
      (acc.1 + ((cells.filter (eligible band maxy maxx)).map (fun p => band p.1 p.2)).sum,
       acc.2 + (((cells.filter (eligible band maxy maxx)).map
          (fun p => band p.1 p.2)).length : Int)) := by
  induction cells generalizing acc with
  | nil => simp
  | cons p rest ih =>
    rw [List.foldl_cons, ih, addPix_eq]
    by_cases he : eligible band maxy maxx (p.1, p.2) = true
    · have he2 : eligible band maxy maxx p = true := he
      simp only [he, if_true, List.filter_cons, he2, List.map_cons, List.sum_cons,
        List.length_cons]
      refine Prod.ext ?_ ?_
      · simp only; ring
      · simp only; push_cast; ring
    · have he2 : ¬ eligible band maxy maxx p = true := he
      simp only [he, if_false, List.filter_cons, he2, Bool.false_eq_true]

/-- The sum and count of `calcPixAvg` are those of the eligible neighbours. -/
theorem pixSumCnt_eq (band : Band) (bandY bandX maxy maxx : Int) :
    pixSumCnt band bandY bandX maxy maxx =
      ((eligibleNeighbours band maxy maxx bandY bandX).sum,
       ((eligibleNeighbours band maxy maxx bandY bandX).length : Int)) := by
  have h := foldl_addPix band maxy maxx (surrounding bandY bandX) (0, 0)
  simp only [zero_add] at h
  unfold eligibleNeighbours
  rw [← h]
  rfl

/-- Every value counted by `calcPixAvg` is positive. -/
theorem eligibleNeighbours_pos (band : Band) (maxy maxx bandY bandX : Int) (v : ℚ)
    (hv : v ∈ eligibleNeighbours band maxy maxx bandY bandX) : 0 < v := by
  unfold eligibleNeighbours at hv
  rw [List.mem_map] at hv
  obtain ⟨p, hp, rfl⟩ := hv
  rw [List.mem_filter] at hp
  have := hp.2
  unfold eligible at this
  simp only [decide_eq_true_eq] at this
  exact this.2.2.2.2

/-- A non-empty list of positive values has a positive sum. -/
theorem sum_pos_of_pos : ∀ (N : List ℚ), N ≠ [] → (∀ v ∈ N, 0 < v) → 0 < N.sum
  | [], h, _ => absurd rfl h
  | [a], _, hp => by simpa using hp a (by simp)
  | a :: b :: rest, _, hp => by
    have h1 : 0 < a := hp a (by simp)
    have h2 : 0 < (b :: rest).sum :=
      sum_pos_of_pos (b :: rest) (by simp) (fun v hv => hp v (List.mem_cons_of_mem a hv))
    rw [List.sum_cons]
    exact add_pos h1 h2

/-- With no eligible neighbour the average is the NaN of `0 / 0`. -/
theorem calcPixAvg_nil (band : Band) (bandY bandX maxy maxx : Int)
    (hN : eligibleNeighbours band maxy maxx bandY bandX = []) :
    calcPixAvg band bandY bandX maxy maxx = Dbl.nan := by
  unfold calcPixAvg
  rw [pixSumCnt_eq, hN]
  simp [Dbl.div]

/-- With an eligible neighbour the average is the finite, positive mean. -/
theorem calcPixAvg_cons (band : Band) (bandY bandX maxy maxx : Int)
    (hN : eligibleNeighbours band maxy maxx bandY bandX ≠ []) :
    calcPixAvg band bandY bandX maxy maxx =
        Dbl.fin (neighbourMean (eligibleNeighbours band maxy maxx bandY bandX)) ∧
      0 < neighbourMean (eligibleNeighbours band maxy maxx bandY bandX) := by
  have hlen : 0 < (eligibleNeighbours band maxy maxx bandY bandX).length :=
    List.length_pos.mpr hN
  have hsum := sum_pos_of_pos _ hN (eligibleNeighbours_pos band maxy maxx bandY bandX)
  constructor
  · unfold calcPixAvg
    rw [pixSumCnt_eq]
    have : ((eligibleNeighbours band maxy maxx bandY bandX).length : Int) ≠ 0 := by omega
    simp only [Dbl.div, ne_eq, this, not_false_eq_true, if_true, neighbourMean, Int.cast_natCast]
  · unfold neighbourMean
    exact div_pos hsum (by exact_mod_cast hlen)


/-- Storing a value on row 0 or column 0 changes no eligible neighbour. -/
theorem eligibleNeighbours_setCell_border (band : Band) (maxy maxx bandY bandX y x : Int)
    (v : ℚ) (h : y = 0 ∨ x = 0) :
    eligibleNeighbours (setCell band y x v) maxy maxx bandY bandX =
      eligibleNeighbours band maxy maxx bandY bandX := by
  have hel : ∀ p : Int × Int, eligible (setCell band y x v) maxy maxx p =
      eligible band maxy maxx p := by
    intro p
    unfold eligible setCell
    by_cases hp : p.1 = y ∧ p.2 = x
    · have hno : ¬ (0 < p.1 ∧ 0 < p.2) := by
        rcases h with h | h
        · intro hc; rw [hp.1, h] at hc; exact absurd hc.1 (lt_irrefl 0)
        · intro hc; rw [hp.2, h] at hc; exact absurd hc.2 (lt_irrefl 0)
      have h1 : ¬ (0 < p.1 ∧ p.1 < maxy ∧ 0 < p.2 ∧ p.2 < maxx ∧
          0 < (if p.1 = y ∧ p.2 = x then v else band p.1 p.2)) :=
        fun hc => hno ⟨hc.1, hc.2.2.1⟩
      have h2 : ¬ (0 < p.1 ∧ p.1 < maxy ∧ 0 < p.2 ∧ p.2 < maxx ∧ 0 < band p.1 p.2) :=
        fun hc => hno ⟨hc.1, hc.2.2.1⟩
      rw [decide_eq_false h1, decide_eq_false h2]
    · rw [if_neg hp]
  unfold eligibleNeighbours
  have hfun : eligible (setCell band y x v) maxy maxx = eligible band maxy maxx := funext hel
  rw [hfun]
  apply List.map_congr_left
  intro p hp
  rw [List.mem_filter] at hp
  have he := hp.2
  unfold eligible at he
  simp only [decide_eq_true_eq] at he
  unfold setCell
  have hne : ¬ (p.1 = y ∧ p.2 = x) := by
    rcases h with h | h
    · intro hc; rw [hc.1, h] at he; exact absurd he.1 (lt_irrefl 0)
    · intro hc; rw [hc.2, h] at he; exact absurd he.2.2.1 (lt_irrefl 0)
  rw [if_neg hne]

/-- The conversion to `int` is the floor of a non-negative double and the ceiling
of a negative one. -/
theorem doubleToInt_eq (q : ℚ) :
    doubleToInt q = if 0 ≤ q then ⌊q⌋ else ⌈q⌉ := by
  unfold doubleToInt
  by_cases hq : 0 ≤ q
  · rw [if_pos hq, Rat.floor_def]
    exact Int.tdiv_eq_ediv (Rat.num_nonneg.mpr hq) (Int.natCast_nonneg _)
  · rw [if_neg hq]
    have hneg : 0 ≤ -q := by linarith [not_le.mp hq]
    have hnum : 0 ≤ (-q).num := Rat.num_nonneg.mpr hneg
    have hc : ⌈q⌉ = -⌊-q⌋ := by
      have := @Int.ceil_neg ℚ _ _ (-q)
      rwa [neg_neg] at this
    rw [hc, Rat.floor_def, Rat.neg_den, ← Int.tdiv_eq_ediv hnum (Int.natCast_nonneg _),
      Rat.neg_num, Int.neg_tdiv, neg_neg]


/-! ## Reader lemmas -/

/-- The loop of `readLine` on a line that ends with a newline: the bytes before the
newline are stored without the carriage returns, then a NUL; the count includes
the NUL. -/
theorem readLineLoop_line (rest : List Char) :
    ∀ (body : List Char), (∀ c ∈ body, c.toNat ≠ 10 ∧ c.toNat ≠ 255) →
    ∀ (fuel i : Nat) (line : LineBuf) (chr : Char) (fp : List Char),
      chr :: fp = body ++ Char.ofNat 10 :: rest → body.length < fuel →
      i + (dropCR body).length < 80 →
      readLineLoop fuel chr i line fp =
        Except.ok (((i + (dropCR body).length : Nat) : Int) + 1,
          Function.update (storeBytes line i (dropCR body)) (i + (dropCR body).length)
            (Char.ofNat 0), rest) := by
  intro body
  induction body with
  | nil =>
    intro _ fuel i line chr fp hfp hfuel hi
    simp only [List.nil_append, List.cons.injEq] at hfp
    obtain ⟨hchr, hrest⟩ := hfp
    obtain ⟨f, rfl⟩ : ∃ f, fuel = f + 1 := ⟨fuel - 1, by simp at hfuel; omega⟩
    have h1 : ¬ chr.toNat = 255 := by rw [hchr]; decide
    have h2 : chr.toNat = 10 := by rw [hchr]; decide
    have hi' : i < 80 := by simpa [dropCR] using hi
    rw [readLineLoop, if_neg h1, if_pos h2, if_pos hi', hrest]
    simp [dropCR, storeBytes]
  | cons c body ih =>
    intro hclean fuel i line chr fp hfp hfuel hi
    simp only [List.cons_append, List.cons.injEq] at hfp
    obtain ⟨hchr, hfp⟩ := hfp
    obtain ⟨f, rfl⟩ : ∃ f, fuel = f + 1 := ⟨fuel - 1, by simp at hfuel; omega⟩
    have hc := hclean c (List.mem_cons_self c body)
    have hclean' : ∀ d ∈ body, d.toNat ≠ 10 ∧ d.toNat ≠ 255 :=
      fun d hd => hclean d (List.mem_cons_of_mem c hd)
    have hne : fp ≠ [] := by rw [hfp]; cases body <;> simp
    obtain ⟨c2, fp2, rfl⟩ := List.exists_cons_of_ne_nil hne
    have hfuel' : body.length < f := by simp at hfuel; omega
    rw [hchr]
    by_cases hcr : c.toNat = 13
    · have hd : dropCR (c :: body) = dropCR body := by
        simp [dropCR, hcr]
      rw [hd] at hi ⊢
      rw [readLineLoop, if_neg hc.2, if_neg hc.1, if_pos hcr]
      exact ih hclean' f i line c2 fp2 hfp hfuel' hi
    · have hd : dropCR (c :: body) = c :: dropCR body := by
        simp [dropCR, hcr]
      rw [hd] at hi ⊢
      simp only [List.length_cons] at hi ⊢
      have hi80 : i < 80 := by omega
      rw [readLineLoop, if_neg hc.2, if_neg hc.1, if_neg hcr, if_pos hi80]
      have := ih hclean' f (i + 1) (Function.update line i c) c2 fp2 hfp hfuel' (by omega)
      simp only [VSIFReadL]
      rw [this]
      simp only [storeBytes]
      have e : i + 1 + (dropCR body).length = i + ((dropCR body).length + 1) := by omega
      rw [e]

/-- The function `readLine` on a file whose first line ends with a newline. -/
theorem readLine_line (chr0 : Char) (line : LineBuf) (body rest : List Char)
    (hclean : ∀ c ∈ body, c.toNat ≠ 10 ∧ c.toNat ≠ 255)
    (hlen : (dropCR body).length < 80) :
    readLine chr0 line (body ++ Char.ofNat 10 :: rest) =
      Except.ok ((((dropCR body).length : Nat) : Int) + 1,
        Function.update (storeBytes line 0 (dropCR body)) (dropCR body).length (Char.ofNat 0),
        rest) := by
  unfold readLine
  have hne : body ++ Char.ofNat 10 :: rest ≠ [] := by cases body <;> simp
  obtain ⟨c, fp, hfp⟩ := List.exists_cons_of_ne_nil hne
  rw [hfp]
  simp only [VSIFReadL]
  have hl : body.length < (c :: fp).length := by
    rw [← hfp, List.length_append, List.length_cons]
    omega
  have h := readLineLoop_line rest body hclean ((c :: fp).length + 82) 0 line c fp hfp.symm
    (by omega) (by omega)
  simp only [Nat.zero_add] at h
  exact h


/-- The bytes from index `i` on, one more than from `i + 1` on. -/
theorem bytesFrom_succ (line : LineBuf) (i n : Nat) :
    bytesFrom line i (n + 1) = line i :: bytesFrom line (i + 1) n := by
  unfold bytesFrom
  rw [List.range_succ_eq_map, List.map_cons, List.map_map]
  congr 1
  apply List.map_congr_left
  intro k _
  simp only [Function.comp, Nat.succ_eq_add_one]
  congr 1
  omega

/-- A scanning loop of `parseXyzLine` that meets its stop byte after `n` other
bytes, inside the buffer: it copies these `n` bytes and moves past the stop byte. -/
theorem scanField_run (stop : Nat) (line : LineBuf) :
    ∀ (n rem i : Nat) (str : List Char),
      (∀ k, k < n → (line (i + k)).toNat ≠ stop) → (line (i + n)).toNat = stop → n < rem →
      scanField stop line rem i str = Except.ok (str ++ bytesFrom line i n, i + n + 1) := by
  intro n
  induction n with
  | zero =>
    intro rem i str _ hstop hrem
    obtain ⟨r, rfl⟩ : ∃ r, rem = r + 1 := ⟨rem - 1, by omega⟩
    rw [scanField, if_pos (by simpa using hstop)]
    simp [bytesFrom]
  | succ n ih =>
    intro rem i str hno hstop hrem
    obtain ⟨r, rfl⟩ : ∃ r, rem = r + 1 := ⟨rem - 1, by omega⟩
    have h0 : ¬ (line i).toNat = stop := by simpa using hno 0 (by omega)
    rw [scanField, if_neg h0]
    have hno' : ∀ k, k < n → (line (i + 1 + k)).toNat ≠ stop := by
      intro k hk
      have := hno (k + 1) (by omega)
      rwa [show i + (k + 1) = i + 1 + k by omega] at this
    have hstop' : (line (i + 1 + n)).toNat = stop := by
      rwa [show i + (n + 1) = i + 1 + n by omega] at hstop
    rw [ih r (i + 1) (str ++ [line i]) hno' hstop' (by omega), bytesFrom_succ]
    simp only [List.append_assoc, List.singleton_append]
    rw [show i + 1 + n + 1 = i + (n + 1) + 1 by omega]

/-- The function `parseXyzLine` on a buffer that holds `n1` bytes, a space, `n2`
bytes, a space, `n3` bytes and a NUL, all inside the 80 bytes: the first field
goes to `y`, the second to `x`, the third to `z`. -/
theorem parseXyzLine_fields (atof : List Char → ℚ) (line : LineBuf) (n1 n2 n3 : Nat)
    (h1 : ∀ k, k < n1 → (line (0 + k)).toNat ≠ 32) (s1 : (line (0 + n1)).toNat = 32)
    (h2 : ∀ k, k < n2 → (line (n1 + 1 + k)).toNat ≠ 32)
    (s2 : (line (n1 + 1 + n2)).toNat = 32)
    (h3 : ∀ k, k < n3 → (line (n1 + 1 + n2 + 1 + k)).toNat ≠ 0)
    (s3 : (line (n1 + 1 + n2 + 1 + n3)).toNat = 0)
    (hlen : n1 + 1 + n2 + 1 + n3 < 80) :
    parseXyzLine atof line =
      Except.ok { x := atof (cstr (bytesFrom line (n1 + 1) n2))
                  y := atof (cstr (bytesFrom line 0 n1))
                  z := atof (cstr (bytesFrom line (n1 + 1 + n2 + 1) n3)) } := by
  unfold parseXyzLine
  rw [scanField_run 32 line n1 80 0 [] h1 s1 (by omega)]
  simp only [Nat.zero_add]
  rw [scanField_run 32 line n2 (80 - (n1 + 1)) (n1 + 1) [] h2 s2 (by omega)]
  simp only
  rw [scanField_run 0 line n3 (80 - (n1 + 1 + n2 + 1)) (n1 + 1 + n2 + 1) [] h3 s3 (by omega)]
  simp only [List.nil_append]


/-! ## Placement lemmas -/

/-- A store inside the raster succeeds. -/
theorem storeCell_inside (poDS : DMVDataset) (band : Band) (row col : Int) (z : ℚ)
    (hrow : 0 ≤ row ∧ row < poDS.nRasterYSize) (hcol : 0 ≤ col ∧ col < poDS.nRasterXSize) :
    storeCell poDS band row col z = Except.ok (setCell band row col z) := by
  unfold storeCell
  rw [if_pos ⟨hrow.1, hrow.2, hcol.1, hcol.2⟩]

/-- With no eligible neighbour the sample is stored. -/
theorem placeAt_nil (poDS : DMVDataset) (band : Band) (row col : Int) (z : ℚ)
    (hrow : 0 ≤ row ∧ row < poDS.nRasterYSize) (hcol : 0 ≤ col ∧ col < poDS.nRasterXSize)
    (hN : eligibleNeighbours band poDS.nRasterYSize poDS.nRasterXSize row col = []) :
    placeAt poDS band row col z = Except.ok (setCell band row col z) := by
  have havg := calcPixAvg_nil band row col poDS.nRasterYSize poDS.nRasterXSize hN
  simp only [placeAt, havg, Dbl.isZero, Dbl.rsub, Dbl.abs, Dbl.gt30, Bool.false_eq_true,
    if_false, storeCell_inside poDS band row col z hrow hcol]

/-- With eligible neighbours of mean `M`, a sample within 30 of `M` is stored. -/
theorem placeAt_near (poDS : DMVDataset) (band : Band) (row col : Int) (z : ℚ)
    (hrow : 0 ≤ row ∧ row < poDS.nRasterYSize) (hcol : 0 ≤ col ∧ col < poDS.nRasterXSize)
    (hN : eligibleNeighbours band poDS.nRasterYSize poDS.nRasterXSize row col ≠ [])
    (hd : |z - neighbourMean
      (eligibleNeighbours band poDS.nRasterYSize poDS.nRasterXSize row col)| ≤ 30) :
    placeAt poDS band row col z = Except.ok (setCell band row col z) := by
  obtain ⟨havg, hM⟩ := calcPixAvg_cons band row col poDS.nRasterYSize poDS.nRasterXSize hN
  have hM0 := ne_of_gt hM
  have hd2 := not_lt.mpr hd
  simp only [placeAt, havg, Dbl.isZero, Dbl.rsub, Dbl.abs, Dbl.gt30, hM0, gt_iff_lt, hd2,
    decide_False, Bool.false_eq_true, if_false, storeCell_inside poDS band row col z hrow hcol]

/-- The loop of the constructor ends when the line is too short or `EOF`. -/
theorem ingestLoop_stop (env : Env) (poDS : DMVDataset) (f k : Nat) (len : Int)
    (lline : LineBuf) (fp : List Char) (band : Band) (lineCnt : Int)
    (h : ¬ (len ≠ -1 ∧ len > 5)) :
    ingestLoop env poDS (f + 1) k len lline fp band lineCnt = Except.ok (band, lineCnt) := by
  rw [ingestLoop, if_neg h]

/-- One turn of the loop of the constructor. -/
theorem ingestLoop_step (env : Env) (poDS : DMVDataset) (f k : Nat) (len : Int)
    (lline : LineBuf) (fp : List Char) (band : Band) (lineCnt : Int)
    (data : XYZ) (band2 : Band) (len2 : Int) (lline2 : LineBuf) (fp2 : List Char)
    (h : len ≠ -1 ∧ len > 5)
    (hparse : parseXyzLine env.atof lline = Except.ok data)
    (hplace : placeSample poDS band data = Except.ok band2)
    (hread : readLine (env.chrInit k) (Function.update lline 0 (Char.ofNat 10)) fp =
      Except.ok (len2, lline2, fp2)) :
    ingestLoop env poDS (f + 1) k len lline fp band lineCnt =
      ingestLoop env poDS f (k + 1) len2 lline2 fp2 band2 (lineCnt + 1) := by
  rw [ingestLoop, if_pos h, hparse]
  simp only
  rw [hplace]
  simp only
  rw [hread]

/-- The raster size that `getCellDimension` gives does not depend on the name. -/
theorem getCellDimension_size (fileName : List Char) :
    (getCellDimension fileName).heightX = 600 ∧ (getCellDimension fileName).widthY = 450 := by
  have hs : ∀ n : Int, getCellSize n = { x := 600, y := 450, z := 0 } := by
    intro n
    unfold getCellSize
    split_ifs <;> rfl
  have h600 : doubleToInt 600 = 600 := by
    rw [doubleToInt_eq, if_pos (by norm_num)]
    exact_mod_cast Int.floor_intCast (600 : Int)
  have h450 : doubleToInt 450 = 450 := by
    rw [doubleToInt_eq, if_pos (by norm_num)]
    exact_mod_cast Int.floor_intCast (450 : Int)
  unfold getCellDimension
  simp only [hs]
  exact ⟨h600, h450⟩

/-- Once `Identify` accepts the file, the access is not an update and the file
pointer is there, `Open` builds the band on the 450 x 600 raster whatever origin
the name gives, and returns what the constructor of the band yields. -/
theorem Open_builds_band (env : Env) (poOpenInfo : GDALOpenInfo) (fp : List Char)
    (hid : Identify env poOpenInfo = true)
    (hacc : poOpenInfo.eAccess ≠ GDALAccess.GA_Update)
    (hfp : poOpenInfo.fpL = some fp) :
    Open env poOpenInfo =
      match DMVRasterBand.new env (datasetFor poOpenInfo fp) with
      | Except.error e => Except.error e
      | Except.ok band1 =>
        Except.ok (some { poDS := datasetFor poOpenInfo fp, band1 := band1 }) := by
  obtain ⟨hh, hw⟩ := getCellDimension_size poOpenInfo.baseName
  unfold Open
  rw [hid, if_neg hacc, hfp]
  simp only [Bool.not_true, Bool.false_eq_true, if_false, hh, hw]
  rw [if_neg (by decide)]
  rfl


/-! ## Opening `VTA1801.xyz` -/

/-- The name `VTA1801` is geocoded to the sentinel origin. -/
theorem datasetFor_sectionOutOfRange :
    datasetFor sectionOutOfRange sampleFile = sectionOutOfRangeDS := by
  have hd : getCellDimension sectionOutOfRange.baseName =
      { originX := -1, originY := -1, widthY := 450, heightX := 600 } := by
    simp [getCellDimension, sectionOutOfRange, strncpy2, cstr, atoi, isspace, isdigit, digitsValue,
      getCellOrign, baseOrigin, getCellSize, doubleToInt]
    norm_num
  have hm : doubleToInt (-1) = -1 := by
    simp [doubleToInt]
  unfold datasetFor sectionOutOfRangeDS
  rw [hd]
  simp only [hm]

/-- The first record of `sampleFile` as `parseXyzLine` reads it. -/
theorem parseXyzLine_sampleLine :
    parseXyzLine sampleEnv.atof sampleLine =
      Except.ok { x := 400000, y := 100000, z := 500 } := by
  rw [parseXyzLine_fields sampleEnv.atof sampleLine 6 6 3 (by decide) (by decide) (by decide)
    (by decide) (by decide) (by decide) (by decide)]
  have hx : atoi (cstr (bytesFrom sampleLine (6 + 1) 6)) = 400000 := by decide
  have hy : atoi (cstr (bytesFrom sampleLine 0 6)) = 100000 := by decide
  have hz : atoi (cstr (bytesFrom sampleLine (6 + 1 + 6 + 1) 3)) = 500 := by decide
  simp only [sampleEnv, atofDigits, hx, hy, hz]
  norm_num

/-- With the origin `-1` the first record of `sampleFile` lands, after the
overshoot clamp, on the last cell `(599, 449)` and is stored there. -/
theorem placeSample_sectionOutOfRange :
    placeSample sectionOutOfRangeDS emptyBand { x := 400000, y := 100000, z := 500 } =
      Except.ok (setCell emptyBand 599 449 500) := by
  have hy : doubleToInt (((400000 : ℚ) - ((-1 : Int) : ℚ)) / 5) = 80000 := by
    rw [doubleToInt_eq, if_pos (by norm_num), Int.floor_eq_iff]
    norm_num
  have hx : doubleToInt (((100000 : ℚ) - ((-1 : Int) : ℚ)) / 5) = 20000 := by
    rw [doubleToInt_eq, if_pos (by norm_num), Int.floor_eq_iff]
    norm_num
  have hidx : clampIndex sectionOutOfRangeDS
      (bandIndex sectionOutOfRangeDS { x := 400000, y := 100000, z := 500 }) = (599, 449) := by
    unfold bandIndex
    simp only [sectionOutOfRangeDS, hy, hx]
    decide
  unfold placeSample
  rw [hidx]
  exact placeAt_nil sectionOutOfRangeDS emptyBand 599 449 500 (by decide) (by decide)
    (by simp [eligibleNeighbours, surrounding, eligible, emptyBand, sectionOutOfRangeDS])

/-- The constructor of the band on `VTA1801.xyz`: one record is read and stored,
the empty second line ends the loop. -/
theorem new_sectionOutOfRange :
    DMVRasterBand.new sampleEnv sectionOutOfRangeDS =
      Except.ok { nBlockXSize := 450
                  nBlockYSize := 1
                  band := setCell emptyBand 599 449 500
                  lineCnt := 1 } := by
  have hread1 : readLine (sampleEnv.chrInit 0) sampleEnv.llineInit sectionOutOfRangeDS.fp =
      Except.ok (18, sampleLine, Char.ofNat 10 :: sampleTail) :=
    readLine_line (sampleEnv.chrInit 0) sampleEnv.llineInit sampleRecord
      (Char.ofNat 10 :: sampleTail) (by decide) (by decide)
  have hread2 : readLine (sampleEnv.chrInit 1) (Function.update sampleLine 0 (Char.ofNat 10))
      (Char.ofNat 10 :: sampleTail) =
      Except.ok (1, Function.update (Function.update sampleLine 0 (Char.ofNat 10)) 0
        (Char.ofNat 0), sampleTail) :=
    readLine_line (sampleEnv.chrInit 1) (Function.update sampleLine 0 (Char.ofNat 10)) []
      sampleTail (by decide) (by decide)
  have hlen : sectionOutOfRangeDS.fp.length = 108 + 1 := by decide
  unfold DMVRasterBand.new
  rw [hread1]
  simp only
  rw [ingestLoop_step sampleEnv sectionOutOfRangeDS _ 1 18 sampleLine _ emptyBand 0 _ _ _ _ _
    (by decide) parseXyzLine_sampleLine placeSample_sectionOutOfRange hread2, hlen,
    ingestLoop_stop sampleEnv sectionOutOfRangeDS 108 (1 + 1) 1 _ _ _ _ (by decide)]
  rfl

/-- The driver opens `VTA1801.xyz`, whose section 18 is outside the table: the
grid is built and the first record is stored in it. -/
theorem Open_sectionOutOfRangeFile :
    Open sampleEnv sectionOutOfRange = Except.ok (some sectionOutOfRangeOpened) := by
  rw [Open_builds_band sampleEnv sectionOutOfRange sampleFile (by decide) (by decide) rfl,
    datasetFor_sectionOutOfRange, new_sectionOutOfRange]
  rfl


/-! ## Opening `VTB1901.xyz` -/

/-- The name `VTB1901` is geocoded to the origin `x = 37000`, `y = 387500`. -/
theorem datasetFor_tileB1901 :
    datasetFor tileB1901Info tileFile = tileB1901DS := by
  have hd : getCellDimension tileB1901Info.baseName =
      { originX := 37000, originY := 387500, widthY := 450, heightX := 600 } := by
    simp [getCellDimension, tileB1901Info, strncpy2, cstr, atoi, isspace, isdigit, digitsValue,
      getCellOrign, baseOrigin, tableEntry, originXY, getCellSize, doubleToInt]
    norm_num
  have h1 : doubleToInt 37000 = 37000 := by
    simp [doubleToInt]
  have h2 : doubleToInt 387500 = 387500 := by
    simp [doubleToInt]
  unfold datasetFor tileB1901DS
  rw [hd]
  simp only [h1, h2]

/-- The first record of `tileFile` as `parseXyzLine` reads it. -/
theorem parseXyzLine_tileLine :
    parseXyzLine sampleEnv.atof tileLine =
      Except.ok { x := 37020, y := 387510, z := 500 } := by
  rw [parseXyzLine_fields sampleEnv.atof tileLine 6 5 3 (by decide) (by decide) (by decide)
    (by decide) (by decide) (by decide) (by decide)]
  have hx : atoi (cstr (bytesFrom tileLine (6 + 1) 5)) = 37020 := by decide
  have hy : atoi (cstr (bytesFrom tileLine 0 6)) = 387510 := by decide
  have hz : atoi (cstr (bytesFrom tileLine (6 + 1 + 5 + 1) 3)) = 500 := by decide
  simp only [sampleEnv, atofDigits, hx, hy, hz]
  norm_num

/-- The first record of `tileFile` is stored at row 4, column 2. -/
theorem placeSample_tileB1901 :
    placeSample tileB1901DS emptyBand { x := 37020, y := 387510, z := 500 } =
      Except.ok (setCell emptyBand 4 2 500) := by
  have hy : doubleToInt (((37020 : ℚ) - ((37000 : Int) : ℚ)) / 5) = 4 := by
    rw [doubleToInt_eq, if_pos (by norm_num), Int.floor_eq_iff]
    norm_num
  have hx : doubleToInt (((387510 : ℚ) - ((387500 : Int) : ℚ)) / 5) = 2 := by
    rw [doubleToInt_eq, if_pos (by norm_num), Int.floor_eq_iff]
    norm_num
  have hidx : clampIndex tileB1901DS
      (bandIndex tileB1901DS { x := 37020, y := 387510, z := 500 }) = (4, 2) := by
    unfold bandIndex
    simp only [tileB1901DS, hy, hx]
    decide
  unfold placeSample
  rw [hidx]
  exact placeAt_nil tileB1901DS emptyBand 4 2 500 (by decide) (by decide)
    (by simp [eligibleNeighbours, surrounding, eligible, emptyBand, tileB1901DS])

/-- The constructor of the band on `VTB1901.xyz`: one record is read and stored,
the empty second line ends the loop. -/
theorem new_tileB1901 :
    DMVRasterBand.new sampleEnv tileB1901DS =
      Except.ok { nBlockXSize := 450
                  nBlockYSize := 1
                  band := setCell emptyBand 4 2 500
                  lineCnt := 1 } := by
  have hread1 : readLine (sampleEnv.chrInit 0) sampleEnv.llineInit tileB1901DS.fp =
      Except.ok (17, tileLine, Char.ofNat 10 :: tileTail) :=
    readLine_line (sampleEnv.chrInit 0) sampleEnv.llineInit tileRecord
      (Char.ofNat 10 :: tileTail) (by decide) (by decide)
  have hread2 : readLine (sampleEnv.chrInit 1) (Function.update tileLine 0 (Char.ofNat 10))
      (Char.ofNat 10 :: tileTail) =
      Except.ok (1, Function.update (Function.update tileLine 0 (Char.ofNat 10)) 0
        (Char.ofNat 0), tileTail) :=
    readLine_line (sampleEnv.chrInit 1) (Function.update tileLine 0 (Char.ofNat 10)) []
      tileTail (by decide) (by decide)
  have hlen : tileB1901DS.fp.length = 119 + 1 := by decide
  unfold DMVRasterBand.new
  rw [hread1]
  simp only
  rw [ingestLoop_step sampleEnv tileB1901DS _ 1 17 tileLine _ emptyBand 0 _ _ _ _ _
    (by decide) parseXyzLine_tileLine placeSample_tileB1901 hread2, hlen,
    ingestLoop_stop sampleEnv tileB1901DS 119 (1 + 1) 1 _ _ _ _ (by decide)]
  rfl

/-- The driver opens `VTB1901.xyz`: the raster has 600 rows of 450 cells. -/
theorem Open_tileB1901File :
    Open sampleEnv tileB1901Info = Except.ok (some tileB1901Opened) := by
  rw [Open_builds_band sampleEnv tileB1901Info tileFile (by decide) (by decide) rfl,
    datasetFor_tileB1901, new_tileB1901]
  rfl

/-- The block size of the band is one row of the raster. -/
theorem new_blockSize (env : Env) (poDS : DMVDataset) (b : DMVRasterBand)
    (h : DMVRasterBand.new env poDS = Except.ok b) :
    b.nBlockXSize = poDS.nRasterXSize ∧ b.nBlockYSize = 1 := by
  unfold DMVRasterBand.new at h
  cases hr : readLine (env.chrInit 0) env.llineInit poDS.fp with
  | error e =>
    rw [hr] at h
    simp at h
  | ok r =>
    obtain ⟨len, lline, fp⟩ := r
    rw [hr] at h
    dsimp only at h
    cases hi : ingestLoop env poDS (poDS.fp.length + 1) 1 len lline fp emptyBand 0 with
    | error e =>
      rw [hi] at h
      simp at h
    | ok r2 =>
      obtain ⟨band2, lineCnt⟩ := r2
      rw [hi] at h
      simp only [Except.ok.injEq] at h
      rw [← h]
      exact ⟨rfl, rfl⟩

/-- Whatever `Open` returns other than `NULL` is the dataset with the raster size
450 x 600 and the band its constructor built. -/
theorem Open_some (env : Env) (poOpenInfo : GDALOpenInfo) (o : Opened)
    (h : Open env poOpenInfo = Except.ok (some o)) :
    ∃ fp, poOpenInfo.fpL = some fp ∧ o.poDS = datasetFor poOpenInfo fp ∧
      DMVRasterBand.new env (datasetFor poOpenInfo fp) = Except.ok o.band1 := by
  by_cases hid : Identify env poOpenInfo = true
  · by_cases hacc : poOpenInfo.eAccess = GDALAccess.GA_Update
    · unfold Open at h
      rw [hid, if_pos hacc] at h
      simp at h
    · cases hfp : poOpenInfo.fpL with
      | none =>
        unfold Open at h
        rw [hid, if_neg hacc, hfp] at h
        simp at h
      | some fp =>
        rw [Open_builds_band env poOpenInfo fp hid hacc hfp] at h
        refine ⟨fp, rfl, ?_⟩
        cases hnew : DMVRasterBand.new env (datasetFor poOpenInfo fp) with
        | error e =>
          rw [hnew] at h
          simp at h
        | ok b =>
          rw [hnew] at h
          simp only [Except.ok.injEq, Option.some.injEq] at h
          rw [← h]
          exact ⟨rfl, rfl⟩
  · unfold Open at h
    have hf : Identify env poOpenInfo = false := by simpa using hid
    rw [hf] at h
    simp at h


/-! ## Grid: claims -/

/-- The eligible neighbours of `(5, 5)` in `twoNeighbours` are 100 and 110. -/
theorem twoNeighbours_eligible :
    eligibleNeighbours twoNeighbours tileB1901.nRasterYSize tileB1901.nRasterXSize 5 5 =
      [100, 110] := by
  simp [eligibleNeighbours, surrounding, eligible, twoNeighbours, setCell, emptyBand, tileB1901]

/-- C9 as stated fails: on the 600 x 450 raster, the neighbour `(599, 449)` of the
target `(598, 448)` lies on the last row and on the last column; holding 10 it adds
10 to the sum and 1 to the count of `calcPixAvg`, which are `(0, 0)` without it. -/
theorem calcPixAvg_counts_last_row_and_column :
    (599 : Int) = 600 - 1 ∧ (449 : Int) = 450 - 1 ∧
    pixSumCnt cornerBand 598 448 600 450 = (10, 1) ∧
    pixSumCnt emptyBand 598 448 600 450 = (0, 0) ∧
    calcPixAvg cornerBand 598 448 600 450 = Dbl.fin 10 := by
  refine ⟨by decide, by decide, ?_, ?_, ?_⟩
  · simp [pixSumCnt, addPix, cornerBand, setCell, emptyBand]
  · simp [pixSumCnt, addPix, emptyBand]
  · simp [calcPixAvg, Dbl.div, pixSumCnt, addPix, cornerBand, setCell, emptyBand]

/-- C9, amended: for every grid and every target cell, a cell located on row 0 or on
column 0 contributes neither to the sum nor to the count of `calcPixAvg`, whatever
value it holds: storing any value there leaves the sum, the count and the average
as they were.  A surrounding cell on the last row or the last column that passes
the guard `0 < y < maxy`, `0 < x < maxx` and holds a value `> 0` is counted. -/
theorem calcPixAvg_border (band : Band) (bandY bandX maxy maxx y x : Int) (v : ℚ)
    (h : y = 0 ∨ x = 0) :
    pixSumCnt (setCell band y x v) bandY bandX maxy maxx =
        pixSumCnt band bandY bandX maxy maxx ∧
    calcPixAvg (setCell band y x v) bandY bandX maxy maxx =
        calcPixAvg band bandY bandX maxy maxx ∧
    (∀ p ∈ surrounding bandY bandX, (p.1 = maxy - 1 ∨ p.2 = maxx - 1) →
      0 < p.1 → p.1 < maxy → 0 < p.2 → p.2 < maxx → 0 < band p.1 p.2 →
      band p.1 p.2 ∈ eligibleNeighbours band maxy maxx bandY bandX ∧
      1 ≤ (pixSumCnt band bandY bandX maxy maxx).2) := by
  have hsc : pixSumCnt (setCell band y x v) bandY bandX maxy maxx =
      pixSumCnt band bandY bandX maxy maxx := by
    rw [pixSumCnt_eq, pixSumCnt_eq, eligibleNeighbours_setCell_border band maxy maxx bandY bandX
      y x v h]
  refine ⟨hsc, ?_, ?_⟩
  · unfold calcPixAvg
    rw [hsc]
  · intro p hp _ h1 h2 h3 h4 h5
    have hmem : band p.1 p.2 ∈ eligibleNeighbours band maxy maxx bandY bandX := by
      unfold eligibleNeighbours
      rw [List.mem_map]
      refine ⟨p, ?_, rfl⟩
      rw [List.mem_filter]
      refine ⟨hp, ?_⟩
      unfold eligible
      exact decide_eq_true ⟨h1, h2, h3, h4, h5⟩
    refine ⟨hmem, ?_⟩
    rw [pixSumCnt_eq]
    have hlen : 0 < (eligibleNeighbours band maxy maxx bandY bandX).length :=
      List.length_pos_of_mem hmem
    show (1 : Int) ≤ ((eligibleNeighbours band maxy maxx bandY bandX).length : Int)
    omega

/-- C9 amended, on the 600 x 450 raster: the value 10 stored at `(0, 449)`, a
neighbour of the target `(1, 448)` on row 0, leaves the sum and the count at
`(0, 0)`. -/
theorem calcPixAvg_border_witness :
    pixSumCnt (setCell emptyBand 0 449 10) 1 448 600 450 = pixSumCnt emptyBand 1 448 600 450 ∧
    calcPixAvg (setCell emptyBand 0 449 10) 1 448 600 450 =
      calcPixAvg emptyBand 1 448 600 450 ∧
    pixSumCnt emptyBand 1 448 600 450 = (0, 0) ∧
    (cornerBand 599 449 ∈ eligibleNeighbours cornerBand 600 450 598 448 ∧
      1 ≤ (pixSumCnt cornerBand 598 448 600 450).2) :=
  ⟨(calcPixAvg_border emptyBand 1 448 600 450 0 449 10 (Or.inl rfl)).1,
   (calcPixAvg_border emptyBand 1 448 600 450 0 449 10 (Or.inl rfl)).2.1,
   by simp [pixSumCnt, addPix, emptyBand],
   (calcPixAvg_border cornerBand 598 448 600 450 0 0 0 (Or.inl rfl)).2.2 (599, 449)
     (by simp [surrounding]) (Or.inl (by decide)) (by decide) (by decide) (by decide)
     (by decide) (by simp [cornerBand, setCell])⟩

/-- C6 as stated fails: for tile `VTB1901` the extent is `heightX = 600`,
`widthY = 450`, and the dataset that `Open` returns has 600 rows (`nRasterYSize`)
of 450 cells (`nRasterXSize`), not 450 rows of 600 cells. -/
theorem raster_not_450_rows_of_600 :
    (getCellDimension tileB1901Info.baseName).heightX = 600 ∧
    (getCellDimension tileB1901Info.baseName).widthY = 450 ∧
    Open sampleEnv tileB1901Info = Except.ok (some tileB1901Opened) ∧
    tileB1901DS.nRasterYSize = 600 ∧ tileB1901DS.nRasterXSize = 450 ∧
    ¬ (tileB1901DS.nRasterYSize = 450 ∧ tileB1901DS.nRasterXSize = 600) :=
  ⟨(getCellDimension_size _).1, (getCellDimension_size _).2, Open_tileB1901File,
   by decide, by decide, by decide⟩

/-- C6, amended: for every sub-section number (any integer) and every tile name the
tile extent is the constant pair `heightX = 600`, `widthY = 450` (`getCellSize`
returns `x = 600`, `y = 450`): the dataset that `Open` returns has 600 rows (raster
Y size), each of 450 cells (raster X size, which is the length of the row that
`IReadBlock` reads, `nBlockXSize`). -/
theorem raster_size (env : Env) (poOpenInfo : GDALOpenInfo) (o : Opened)
    (h : Open env poOpenInfo = Except.ok (some o)) (subNum : Int) (fileName : List Char) :
    (getCellSize subNum).x = 600 ∧ (getCellSize subNum).y = 450 ∧
    (getCellDimension fileName).heightX = 600 ∧ (getCellDimension fileName).widthY = 450 ∧
    o.poDS.nRasterYSize = 600 ∧ o.poDS.nRasterXSize = 450 ∧
    o.band1.nBlockXSize = 450 ∧ o.band1.nBlockYSize = 1 := by
  have hs : getCellSize subNum = { x := 600, y := 450, z := 0 } := by
    unfold getCellSize
    split_ifs <;> rfl
  obtain ⟨fp, _, hds, hnew⟩ := Open_some env poOpenInfo o h
  obtain ⟨hbx, hby⟩ := new_blockSize env (datasetFor poOpenInfo fp) o.band1 hnew
  refine ⟨by rw [hs], by rw [hs], (getCellDimension_size fileName).1,
    (getCellDimension_size fileName).2, by rw [hds]; rfl, by rw [hds]; rfl, ?_, hby⟩
  rw [hbx]
  rfl

/-- C6 amended, on the file `VTB1901.xyz`, with sub-section 77 and the name
`VTA1801`. -/
theorem raster_size_witness :
    (getCellSize 77).x = 600 ∧ (getCellSize 77).y = 450 ∧
    (getCellDimension sectionOutOfRange.baseName).heightX = 600 ∧
    (getCellDimension sectionOutOfRange.baseName).widthY = 450 ∧
    tileB1901Opened.poDS.nRasterYSize = 600 ∧ tileB1901Opened.poDS.nRasterXSize = 450 ∧
    tileB1901Opened.band1.nBlockXSize = 450 ∧ tileB1901Opened.band1.nBlockYSize = 1 :=
  raster_size sampleEnv tileB1901Info tileB1901Opened Open_tileB1901File 77
    sectionOutOfRange.baseName

/-- C7 as stated fails: the name `VTA1801` has section 18, outside `19..30`, and is
geocoded to the sentinel origin `(-1, -1)`; `Open` does not fail on it: it returns
the dataset with a grid in which the first record of the file has been stored. -/
theorem Open_accepts_invalid_origin :
    (getCellDimension sectionOutOfRange.baseName).originX = -1 ∧
    (getCellDimension sectionOutOfRange.baseName).originY = -1 ∧
    Open sampleEnv sectionOutOfRange = Except.ok (some sectionOutOfRangeOpened) ∧
    Open sampleEnv sectionOutOfRange ≠ Except.ok none := by
  have hd : getCellDimension sectionOutOfRange.baseName =
      { originX := -1, originY := -1, widthY := 450, heightX := 600 } := by
    simp [getCellDimension, sectionOutOfRange, strncpy2, cstr, atoi, isspace, isdigit, digitsValue,
      getCellOrign, baseOrigin, getCellSize, doubleToInt]
    norm_num
  refine ⟨by rw [hd], by rw [hd], Open_sectionOutOfRangeFile, ?_⟩
  rw [Open_sectionOutOfRangeFile]
  simp

/-- C7, amended: `Open` has no test on the geocoded origin.  For every tile name,
also one whose origin is the sentinel, once `Identify` has accepted the file, the
access is not an update and the file pointer is present, the size test passes
(the raster is 450 x 600 for every name) and `Open` runs the constructor of the
band on that raster, with the origin it got: it returns what the constructor
yields and never `NULL`. -/
theorem Open_no_origin_test (env : Env) (poOpenInfo : GDALOpenInfo) (fp : List Char)
    (hid : Identify env poOpenInfo = true)
    (hacc : poOpenInfo.eAccess ≠ GDALAccess.GA_Update)
    (hfp : poOpenInfo.fpL = some fp) :
    Open env poOpenInfo ≠ Except.ok none ∧
    Open env poOpenInfo =
      match DMVRasterBand.new env (datasetFor poOpenInfo fp) with
      | Except.error e => Except.error e
      | Except.ok band1 =>
        Except.ok (some { poDS := datasetFor poOpenInfo fp, band1 := band1 }) := by
  have h := Open_builds_band env poOpenInfo fp hid hacc hfp
  refine ⟨?_, h⟩
  rw [h]
  cases DMVRasterBand.new env (datasetFor poOpenInfo fp) <;> simp

/-- C7 amended, on the file `VTA1801.xyz`, whose origin is the sentinel. -/
theorem Open_no_origin_test_witness :
    (datasetFor sectionOutOfRange sampleFile).nRasterYOrigin = -1 ∧
    (datasetFor sectionOutOfRange sampleFile).nRasterXOrigin = -1 ∧
    Open sampleEnv sectionOutOfRange ≠ Except.ok none ∧
    Open sampleEnv sectionOutOfRange =
      match DMVRasterBand.new sampleEnv (datasetFor sectionOutOfRange sampleFile) with
      | Except.error e => Except.error e
      | Except.ok band1 =>
        Except.ok (some { poDS := datasetFor sectionOutOfRange sampleFile, band1 := band1 }) :=
  ⟨by rw [datasetFor_sectionOutOfRange]; rfl, by rw [datasetFor_sectionOutOfRange]; rfl,
   Open_no_origin_test sampleEnv sectionOutOfRange sampleFile (by decide) (by decide) rfl⟩

/-! ## Clamp and placement lemmas -/

/-- A surrounding cell is never the target cell itself. -/
theorem surrounding_ne_self (row col : Int) (p : Int × Int) (hp : p ∈ surrounding row col) :
    ¬ (p.1 = row ∧ p.2 = col) := by
  unfold surrounding at hp
  simp only [List.mem_cons, List.mem_singleton, List.not_mem_nil, or_false] at hp
  rcases hp with h | h | h | h | h | h | h | h <;> rw [h] <;> simp

/-- Storing a value at the target cell changes none of its eligible neighbours. -/
theorem eligibleNeighbours_setCell_self (band : Band) (maxy maxx row col : Int) (z : ℚ) :
    eligibleNeighbours (setCell band row col z) maxy maxx row col =
      eligibleNeighbours band maxy maxx row col := by
  have hval : ∀ p ∈ surrounding row col, setCell band row col z p.1 p.2 = band p.1 p.2 := by
    intro p hp
    unfold setCell
    rw [if_neg (surrounding_ne_self row col p hp)]
  unfold eligibleNeighbours
  have hfilter : (surrounding row col).filter (eligible (setCell band row col z) maxy maxx) =
      (surrounding row col).filter (eligible band maxy maxx) := by
    apply List.filter_congr
    intro p hp
    unfold eligible
    rw [hval p hp]
  rw [hfilter]
  apply List.map_congr_left
  intro p hp
  exact hval p (List.mem_filter.mp hp).1

/-- The average around the target cell does not depend on the value of the target
cell. -/
theorem calcPixAvg_setCell_self (band : Band) (maxy maxx row col : Int) (z : ℚ) :
    calcPixAvg (setCell band row col z) row col maxy maxx = calcPixAvg band row col maxy maxx := by
  unfold calcPixAvg
  rw [pixSumCnt_eq, pixSumCnt_eq, eligibleNeighbours_setCell_self]

/-- Storing the same value twice at a cell is storing it once. -/
theorem setCell_setCell (band : Band) (row col : Int) (z : ℚ) :
    setCell (setCell band row col z) row col z = setCell band row col z := by
  funext y x
  unfold setCell
  by_cases h : y = row ∧ x = col
  · rw [if_pos h, if_pos h]
  · rw [if_neg h, if_neg h]

/-- A placement either leaves the grid as it was or stores the value at the target
cell. -/
theorem placeAt_cases (poDS : DMVDataset) (band band2 : Band) (row col : Int) (z : ℚ)
    (h : placeAt poDS band row col z = Except.ok band2) :
    (band2 = band ∧ placeAt poDS band row col z = Except.ok band) ∨
    (band2 = setCell band row col z ∧
      storeCell poDS band row col z = Except.ok (setCell band row col z)) := by
  have hstore : ∀ b, storeCell poDS band row col z = Except.ok b →
      b = setCell band row col z ∧
        storeCell poDS band row col z = Except.ok (setCell band row col z) := by
    intro b hb
    unfold storeCell at hb ⊢
    by_cases hin : 0 ≤ row ∧ row < poDS.nRasterYSize ∧ 0 ≤ col ∧ col < poDS.nRasterXSize
    · rw [if_pos hin] at hb ⊢
      simp only [Except.ok.injEq] at hb
      exact ⟨hb.symm, rfl⟩
    · rw [if_neg hin] at hb
      simp at hb
  unfold placeAt at h
  dsimp only at h
  by_cases hz : (calcPixAvg band row col poDS.nRasterYSize poDS.nRasterXSize).isZero = true
  · rw [if_pos hz] at h
    exact Or.inr (hstore band2 h)
  · rw [if_neg hz] at h
    by_cases hg : ((Dbl.rsub z
        (calcPixAvg band row col poDS.nRasterYSize poDS.nRasterXSize)).abs).gt30 = true
    · rw [if_pos hg] at h
      simp only [Except.ok.injEq] at h
      refine Or.inl ⟨h.symm, ?_⟩
      unfold placeAt
      dsimp only
      rw [if_neg hz, if_pos hg]
    · rw [if_neg hg] at h
      exact Or.inr (hstore band2 h)

/-- Once a value has been stored at a cell, placing it there again leaves the grid
as it is: either it is dropped or it is stored over itself. -/
theorem placeAt_after_store (poDS : DMVDataset) (band : Band) (row col : Int) (z : ℚ)
    (hstore : storeCell poDS band row col z = Except.ok (setCell band row col z)) :
    placeAt poDS (setCell band row col z) row col z = Except.ok (setCell band row col z) := by
  have hin : 0 ≤ row ∧ row < poDS.nRasterYSize ∧ 0 ≤ col ∧ col < poDS.nRasterXSize := by
    unfold storeCell at hstore
    by_contra hc
    rw [if_neg hc] at hstore
    simp at hstore
  have hstore2 : storeCell poDS (setCell band row col z) row col z =
      Except.ok (setCell band row col z) := by
    unfold storeCell
    rw [if_pos hin, setCell_setCell]
  unfold placeAt
  dsimp only
  split_ifs
  · exact hstore2
  · rfl
  · exact hstore2

/-- Placing a record a second time gives the grid of the first placement. -/
theorem placeSample_twice (poDS : DMVDataset) (band band1 : Band) (data : XYZ)
    (h : placeSample poDS band data = Except.ok band1) :
    placeSample poDS band1 data = Except.ok band1 := by
  unfold placeSample at h ⊢
  dsimp only at h ⊢
  rcases placeAt_cases poDS band band1 _ _ data.z h with ⟨hb, hp⟩ | ⟨hb, hs⟩
  · rw [hb]
    exact hp
  · rw [hb]
    exact placeAt_after_store poDS band _ _ data.z hs

/-- The clamp leaves a negative index negative. -/
theorem clampIndex_neg (poDS : DMVDataset) (idx : Int × Int) :
    (idx.1 < 0 → (clampIndex poDS idx).1 < 0) ∧ (idx.2 < 0 → (clampIndex poDS idx).2 < 0) := by
  unfold clampIndex
  dsimp only
  constructor
  · intro h
    split_ifs <;> omega
  · intro h
    split_ifs <;> omega

/-- Around a target with a negative index no cell passes the guard of
`calcPixAvg`. -/
theorem eligibleNeighbours_neg (band : Band) (maxy maxx row col : Int)
    (h : row < 0 ∨ col < 0) : eligibleNeighbours band maxy maxx row col = [] := by
  unfold eligibleNeighbours
  rw [List.map_eq_nil_iff, List.filter_eq_nil_iff]
  intro p hp
  unfold surrounding at hp
  simp only [List.mem_cons, List.mem_singleton, List.not_mem_nil, or_false] at hp
  unfold eligible
  simp only [decide_eq_true_eq, not_and]
  intro h1 _ h3
  exfalso
  rcases hp with e | e | e | e | e | e | e | e <;> rw [e] at h1 h3 <;>
    simp only at h1 h3 <;> omega

/-- A record with a negative index is written outside the grid. -/
theorem placeSample_negative (poDS : DMVDataset) (band : Band) (data : XYZ)
    (h : (bandIndex poDS data).1 < 0 ∨ (bandIndex poDS data).2 < 0) :
    placeSample poDS band data = Except.error Fault.outOfBounds := by
  have hneg : (clampIndex poDS (bandIndex poDS data)).1 < 0 ∨
      (clampIndex poDS (bandIndex poDS data)).2 < 0 := by
    rcases h with h | h
    · exact Or.inl ((clampIndex_neg poDS _).1 h)
    · exact Or.inr ((clampIndex_neg poDS _).2 h)
  have havg := calcPixAvg_nil band _ _ poDS.nRasterYSize poDS.nRasterXSize
    (eligibleNeighbours_neg band poDS.nRasterYSize poDS.nRasterXSize _ _ hneg)
  have hst : storeCell poDS band (clampIndex poDS (bandIndex poDS data)).1
      (clampIndex poDS (bandIndex poDS data)).2 data.z = Except.error Fault.outOfBounds := by
    unfold storeCell
    rw [if_neg (by omega)]
  unfold placeSample
  simp only [placeAt, havg, Dbl.isZero, Dbl.rsub, Dbl.abs, Dbl.gt30, Bool.false_eq_true,
    if_false, hst]

/-- With both indices non-negative and a raster that is not empty, the clamped
indices are inside the raster and the placement returns a grid. -/
theorem placeSample_ok (poDS : DMVDataset) (band : Band) (data : XYZ)
    (hsize : 0 < poDS.nRasterYSize ∧ 0 < poDS.nRasterXSize)
    (hidx : 0 ≤ (bandIndex poDS data).1 ∧ 0 ≤ (bandIndex poDS data).2) :
    (0 ≤ (clampIndex poDS (bandIndex poDS data)).1 ∧
      (clampIndex poDS (bandIndex poDS data)).1 < poDS.nRasterYSize ∧
      0 ≤ (clampIndex poDS (bandIndex poDS data)).2 ∧
      (clampIndex poDS (bandIndex poDS data)).2 < poDS.nRasterXSize) ∧
    (placeSample poDS band data = Except.ok band ∨
      placeSample poDS band data = Except.ok (setCell band
        (clampIndex poDS (bandIndex poDS data)).1 (clampIndex poDS (bandIndex poDS data)).2
        data.z)) := by
  have hin : 0 ≤ (clampIndex poDS (bandIndex poDS data)).1 ∧
      (clampIndex poDS (bandIndex poDS data)).1 < poDS.nRasterYSize ∧
      0 ≤ (clampIndex poDS (bandIndex poDS data)).2 ∧
      (clampIndex poDS (bandIndex poDS data)).2 < poDS.nRasterXSize := by
    unfold clampIndex
    dsimp only
    refine ⟨?_, ?_, ?_, ?_⟩ <;> split_ifs <;> omega
  refine ⟨hin, ?_⟩
  have hst := storeCell_inside poDS band _ _ data.z ⟨hin.1, hin.2.1⟩ ⟨hin.2.2.1, hin.2.2.2⟩
  unfold placeSample placeAt
  dsimp only
  split_ifs
  · exact Or.inr hst
  · exact Or.inl rfl
  · exact Or.inr hst
/-- The conversion to `int` of a non-negative quotient `n / d` of integers. -/
theorem doubleToInt_div (a : ℚ) (o : Int) (k : Int) (hk : 0 ≤ k)
    (h1 : (k : ℚ) * 5 ≤ a - (o : ℚ)) (h2 : a - (o : ℚ) < ((k : ℚ) + 1) * 5) :
    doubleToInt ((a - (o : ℚ)) / 5) = k := by
  have hk' : (0 : ℚ) ≤ (k : ℚ) := by exact_mod_cast hk
  have hnn : 0 ≤ (a - (o : ℚ)) / 5 := by
    apply div_nonneg _ (by norm_num)
    linarith
  rw [doubleToInt_eq, if_pos hnn, Int.floor_eq_iff]
  constructor
  · rw [le_div_iff₀ (by norm_num)]
    exact h1
  · rw [div_lt_iff₀ (by norm_num)]
    exact h2

/-- The record `atMean` has row index 5 and column index 5. -/
theorem bandIndex_atMean : bandIndex tileB1901 atMean = (5, 5) := by
  unfold bandIndex
  rw [doubleToInt_div _ _ 5 (by decide) (by norm_num [atMean, tileB1901])
    (by norm_num [atMean, tileB1901]),
    doubleToInt_div _ _ 5 (by decide) (by norm_num [atMean, tileB1901])
    (by norm_num [atMean, tileB1901])]

/-- The record `underOrigin` has row index `-2` and column index 2. -/
theorem bandIndex_underOrigin : bandIndex tileB1901DS underOrigin = (-2, 2) := by
  have h1 : doubleToInt ((underOrigin.x - (tileB1901DS.nRasterYOrigin : ℚ)) / 5) = -2 := by
    have hq : (underOrigin.x - (tileB1901DS.nRasterYOrigin : ℚ)) / 5 = ((-2 : Int) : ℚ) := by
      norm_num [underOrigin, tileB1901DS]
    rw [hq, doubleToInt_eq, if_neg (by norm_num), Int.ceil_intCast]
  unfold bandIndex
  rw [h1, doubleToInt_div _ _ 2 (by decide) (by norm_num [underOrigin, tileB1901DS])
    (by norm_num [underOrigin, tileB1901DS])]

/-! ## Clamp and placement: claims -/

/-- C18: placement is idempotent.  For every grid, tile origin and sample whose
indices are not negative (on a raster that is not empty), the placement returns a
grid, and placing the same sample again on that grid returns the same grid.  When
the neighbour mean equals the elevation of the sample, the sample is stored. -/
theorem placeSample_idempotent (poDS : DMVDataset) (band : Band) (data : XYZ)
    (hsize : 0 < poDS.nRasterYSize ∧ 0 < poDS.nRasterXSize)
    (hidx : 0 ≤ (bandIndex poDS data).1 ∧ 0 ≤ (bandIndex poDS data).2) :
    (∃ band1, placeSample poDS band data = Except.ok band1 ∧
      placeSample poDS band1 data = Except.ok band1) ∧
    (eligibleNeighbours band poDS.nRasterYSize poDS.nRasterXSize
        (clampIndex poDS (bandIndex poDS data)).1 (clampIndex poDS (bandIndex poDS data)).2 ≠ [] →
      data.z = neighbourMean (eligibleNeighbours band poDS.nRasterYSize poDS.nRasterXSize
        (clampIndex poDS (bandIndex poDS data)).1 (clampIndex poDS (bandIndex poDS data)).2) →
      placeSample poDS band data = Except.ok (setCell band
        (clampIndex poDS (bandIndex poDS data)).1 (clampIndex poDS (bandIndex poDS data)).2
        data.z)) := by
  obtain ⟨hin, hres⟩ := placeSample_ok poDS band data hsize hidx
  constructor
  · rcases hres with h | h
    · exact ⟨_, h, placeSample_twice poDS band _ data h⟩
    · exact ⟨_, h, placeSample_twice poDS band _ data h⟩
  · intro hN hz
    unfold placeSample
    dsimp only
    refine placeAt_near poDS band _ _ data.z ⟨hin.1, hin.2.1⟩ ⟨hin.2.2.1, hin.2.2.2⟩ hN ?_
    rw [hz, sub_self]
    norm_num

/-- C18, on the raster of tile `VTB1901`: the record `atMean` falls on cell
`(5, 5)` of `twoNeighbours`, whose neighbour mean is its elevation 105; it is
stored, and placing it again changes nothing. -/
theorem placeSample_idempotent_witness :
    bandIndex tileB1901 atMean = (5, 5) ∧
    (∃ band1, placeSample tileB1901 twoNeighbours atMean = Except.ok band1 ∧
      placeSample tileB1901 band1 atMean = Except.ok band1) ∧
    placeSample tileB1901 twoNeighbours atMean = Except.ok (setCell twoNeighbours
      (clampIndex tileB1901 (bandIndex tileB1901 atMean)).1
      (clampIndex tileB1901 (bandIndex tileB1901 atMean)).2 atMean.z) :=
  ⟨bandIndex_atMean,
   (placeSample_idempotent tileB1901 twoNeighbours atMean (by decide)
      (by rw [bandIndex_atMean]; decide)).1,
   (placeSample_idempotent tileB1901 twoNeighbours atMean (by decide)
      (by rw [bandIndex_atMean]; decide)).2
      (by
        rw [bandIndex_atMean]
        have hc : clampIndex tileB1901 (5, 5) = (5, 5) := by decide
        rw [hc, twoNeighbours_eligible]
        simp)
      (by
        rw [bandIndex_atMean]
        have hc : clampIndex tileB1901 (5, 5) = (5, 5) := by decide
        rw [hc, twoNeighbours_eligible]
        norm_num [neighbourMean, atMean])⟩

/-! ## Block read: lemmas and claim -/

/-- The bytes from index `i` on split at any point. -/
theorem bytesFrom_add (line : LineBuf) (i m n : Nat) :
    bytesFrom line i (m + n) = bytesFrom line i m ++ bytesFrom line (i + m) n := by
  induction m generalizing i with
  | zero => simp [bytesFrom]
  | succ m ih =>
    rw [show m + 1 + n = (m + n) + 1 by omega, bytesFrom_succ, bytesFrom_succ, ih (i + 1),
      List.cons_append, show i + 1 + m = i + (m + 1) by omega]

/-- The number of bytes taken from the buffer. -/
theorem bytesFrom_length (line : LineBuf) (i n : Nat) : (bytesFrom line i n).length = n := by
  simp [bytesFrom]

/-- Each byte in the range is among the bytes taken from the buffer. -/
theorem mem_bytesFrom (line : LineBuf) (i n k : Nat) (hk : k < n) :
    line (i + k) ∈ bytesFrom line i n := by
  unfold bytesFrom
  rw [List.mem_map]
  exact ⟨k, List.mem_range.mpr hk, rfl⟩

/-- A string without NUL is the C string it holds. -/
theorem cstr_of_no_nul (s : List Char) (h : ∀ ch ∈ s, ch.toNat ≠ 0) : cstr s = s := by
  unfold cstr
  rw [List.takeWhile_eq_self_iff]
  intro ch hch
  simpa using h ch hch

/-- The function `parseXyzLine` on a buffer that starts with `a`, a space, `b`, a
space, `c` and a NUL. -/
theorem parseXyzLine_of_line (atof : List Char → ℚ) (line : LineBuf) (a b c : List Char)
    (ha : ∀ ch ∈ a, ch.toNat ≠ 32 ∧ ch.toNat ≠ 0) (hb : ∀ ch ∈ b, ch.toNat ≠ 32 ∧ ch.toNat ≠ 0)
    (hc : ∀ ch ∈ c, ch.toNat ≠ 0)
    (hlen : a.length + 1 + b.length + 1 + c.length < 80)
    (hline : bytesFrom line 0 (a.length + (1 + (b.length + (1 + (c.length + 1))))) =
      a ++ Char.ofNat 32 :: (b ++ Char.ofNat 32 :: (c ++ [Char.ofNat 0]))) :
    parseXyzLine atof line = Except.ok { x := atof b, y := atof a, z := atof c } := by
  rw [bytesFrom_add] at hline
  obtain ⟨h1, hline⟩ := List.append_inj hline (bytesFrom_length line 0 a.length)
  rw [show 1 + (b.length + (1 + (c.length + 1))) = (b.length + (1 + (c.length + 1))) + 1
    by omega, bytesFrom_succ] at hline
  simp only [List.cons.injEq] at hline
  obtain ⟨s1, hline⟩ := hline
  rw [bytesFrom_add] at hline
  obtain ⟨h2, hline⟩ := List.append_inj hline (bytesFrom_length line _ b.length)
  rw [show 1 + (c.length + 1) = (c.length + 1) + 1 by omega, bytesFrom_succ] at hline
  simp only [List.cons.injEq] at hline
  obtain ⟨s2, hline⟩ := hline
  rw [bytesFrom_add] at hline
  obtain ⟨h3, hline⟩ := List.append_inj hline (bytesFrom_length line _ c.length)
  rw [bytesFrom_succ] at hline
  simp only [List.cons.injEq] at hline
  obtain ⟨s3, _⟩ := hline
  simp only [Nat.zero_add] at h2 s2 h3 s3
  have p1 : ∀ k, k < a.length → (line (0 + k)).toNat ≠ 32 := by
    intro k hk
    have hm := mem_bytesFrom line 0 a.length k hk
    rw [h1] at hm
    exact (ha _ hm).1
  have p2 : ∀ k, k < b.length → (line (a.length + 1 + k)).toNat ≠ 32 := by
    intro k hk
    have hm := mem_bytesFrom line (a.length + 1) b.length k hk
    rw [h2] at hm
    exact (hb _ hm).1
  have p3 : ∀ k, k < c.length → (line (a.length + 1 + b.length + 1 + k)).toNat ≠ 0 := by
    intro k hk
    have hm := mem_bytesFrom line (a.length + 1 + b.length + 1) c.length k hk
    rw [h3] at hm
    exact hc _ hm
  rw [parseXyzLine_fields atof line a.length b.length c.length p1 (by rw [s1]; decide) p2
    (by rw [s2]; decide) p3 (by rw [s3]; decide) hlen, h1, h2, h3,
    cstr_of_no_nul a (fun ch h => (ha ch h).2), cstr_of_no_nul b (fun ch h => (hb ch h).2),
    cstr_of_no_nul c hc]

/-- C15: field order.  For every line buffer that holds a line of the form
`a ' ' b ' ' c` and its terminating NUL, where `a` and `b` contain no space (the
line, a C string of at most 79 characters, contains no NUL), `parseXyzLine` sets
the `y` of the sample to the number parsed from the first field `a`, its `x` to
the number parsed from the second field `b`, and its `z` to the number parsed from
the rest of the line `c`. -/
theorem parseXyzLine_field_order (atof : List Char → ℚ) (line : LineBuf) (a b c : List Char)
    (ha : ∀ ch ∈ a, ch.toNat ≠ 32 ∧ ch.toNat ≠ 0) (hb : ∀ ch ∈ b, ch.toNat ≠ 32 ∧ ch.toNat ≠ 0)
    (hc : ∀ ch ∈ c, ch.toNat ≠ 0)
    (hlen : a.length + 1 + b.length + 1 + c.length < 80)
    (hline : bytesFrom line 0 (a.length + (1 + (b.length + (1 + (c.length + 1))))) =
      a ++ Char.ofNat 32 :: (b ++ Char.ofNat 32 :: (c ++ [Char.ofNat 0]))) :
    ∃ data, parseXyzLine atof line = Except.ok data ∧
      data.y = atof a ∧ data.x = atof b ∧ data.z = atof c :=
  ⟨_, parseXyzLine_of_line atof line a b c ha hb hc hlen hline, rfl, rfl, rfl⟩

/-- C15, on the first line of `sampleFile`, `100000 400000 500`: `y` is read from
`100000`, `x` from `400000` and `z` from `500`. -/
theorem parseXyzLine_field_order_witness :
    ∃ data, parseXyzLine atofDigits sampleLine = Except.ok data ∧
      data.y = atofDigits "100000".toList ∧ data.x = atofDigits "400000".toList ∧
      data.z = atofDigits "500".toList :=
  parseXyzLine_field_order atofDigits sampleLine "100000".toList "400000".toList "500".toList
    (by decide) (by decide) (by decide) (by decide) (by decide)

/-! ## Line reader: lemmas and claim -/

/-- Bytes stored from index `i` on leave the bytes below `i` as they were. -/
theorem storeBytes_below (cs : List Char) :
    ∀ (line : LineBuf) (i k : Nat), k < i → storeBytes line i cs k = line k := by
  induction cs with
  | nil => intro line i k _; rfl
  | cons c cs ih =>
    intro line i k hk
    rw [storeBytes, ih _ (i + 1) k (by omega), Function.update_noteq (by omega)]

/-- The bytes stored from index `i` on are read back from index `i` on. -/
theorem bytesFrom_storeBytes (cs : List Char) :
    ∀ (line : LineBuf) (i : Nat), bytesFrom (storeBytes line i cs) i cs.length = cs := by
  induction cs with
  | nil => intro line i; simp [bytesFrom]
  | cons c cs ih =>
    intro line i
    rw [List.length_cons, bytesFrom_succ, storeBytes, ih, storeBytes_below cs _ (i + 1) i
      (by omega), Function.update_same]

/-- Bytes stored from index `i` on leave the bytes from `i + length` on as they
were. -/
theorem storeBytes_above (cs : List Char) :
    ∀ (line : LineBuf) (i k : Nat), i + cs.length ≤ k → storeBytes line i cs k = line k := by
  induction cs with
  | nil => intro line i k _; rfl
  | cons c cs ih =>
    intro line i k hk
    rw [List.length_cons] at hk
    rw [storeBytes, ih _ (i + 1) k (by omega), Function.update_noteq (by omega)]

/-- The bytes of a buffer do not change when a byte beyond them is replaced. -/
theorem bytesFrom_update_above (line : LineBuf) (i n j : Nat) (c : Char) (hj : i + n ≤ j) :
    bytesFrom (Function.update line j c) i n = bytesFrom line i n := by
  unfold bytesFrom
  apply List.map_congr_left
  intro k hk
  rw [List.mem_range] at hk
  rw [Function.update_noteq (by omega)]

/-- What `readLine` leaves in the buffer: the stored bytes, then a NUL, then what
the buffer held before. -/
theorem readLine_buffer (line : LineBuf) (stored : List Char) :
    bytesFrom (Function.update (storeBytes line 0 stored) stored.length (Char.ofNat 0)) 0
        (stored.length + 1) = stored ++ [Char.ofNat 0] ∧
    ∀ k, stored.length < k →
      Function.update (storeBytes line 0 stored) stored.length (Char.ofNat 0) k = line k := by
  constructor
  · rw [bytesFrom_add, bytesFrom_update_above _ 0 _ _ _ (by omega), bytesFrom_storeBytes,
      bytesFrom_succ, Nat.zero_add, Function.update_same]
    simp [bytesFrom]
  · intro k hk
    rw [Function.update_noteq (by omega), storeBytes_above stored line 0 k (by omega)]

/-- The loop of `readLine` on a line with 80 bytes to store or more before its
newline writes past the buffer. -/
theorem readLineLoop_overrun (rest : List Char) :
    ∀ (body : List Char), (∀ c ∈ body, c.toNat ≠ 10 ∧ c.toNat ≠ 255) →
    ∀ (fuel i : Nat) (line : LineBuf) (chr : Char) (fp : List Char),
      chr :: fp = body ++ Char.ofNat 10 :: rest → body.length < fuel →
      80 ≤ i + (dropCR body).length →
      readLineLoop fuel chr i line fp = Except.error Fault.bufferOverrun := by
  intro body
  induction body with
  | nil =>
    intro _ fuel i line chr fp hfp hfuel hi
    simp only [List.nil_append, List.cons.injEq] at hfp
    obtain ⟨hchr, _⟩ := hfp
    obtain ⟨f, rfl⟩ : ∃ f, fuel = f + 1 := ⟨fuel - 1, by simp at hfuel; omega⟩
    have h1 : ¬ chr.toNat = 255 := by rw [hchr]; decide
    have h2 : chr.toNat = 10 := by rw [hchr]; decide
    have hi' : ¬ i < 80 := by simp [dropCR] at hi; omega
    rw [readLineLoop, if_neg h1, if_pos h2, if_neg hi']
  | cons c body ih =>
    intro hclean fuel i line chr fp hfp hfuel hi
    simp only [List.cons_append, List.cons.injEq] at hfp
    obtain ⟨hchr, hfp⟩ := hfp
    obtain ⟨f, rfl⟩ : ∃ f, fuel = f + 1 := ⟨fuel - 1, by simp at hfuel; omega⟩
    have hc := hclean c (List.mem_cons_self c body)
    have hclean' : ∀ d ∈ body, d.toNat ≠ 10 ∧ d.toNat ≠ 255 :=
      fun d hd => hclean d (List.mem_cons_of_mem c hd)
    have hne : fp ≠ [] := by rw [hfp]; cases body <;> simp
    obtain ⟨c2, fp2, rfl⟩ := List.exists_cons_of_ne_nil hne
    have hfuel' : body.length < f := by simp at hfuel; omega
    rw [hchr]
    by_cases hcr : c.toNat = 13
    · have hd : dropCR (c :: body) = dropCR body := by
        simp [dropCR, hcr]
      rw [hd] at hi
      rw [readLineLoop, if_neg hc.2, if_neg hc.1, if_pos hcr]
      exact ih hclean' f i line c2 fp2 hfp hfuel' hi
    · have hd : dropCR (c :: body) = c :: dropCR body := by
        simp [dropCR, hcr]
      rw [hd] at hi
      simp only [List.length_cons] at hi
      rw [readLineLoop, if_neg hc.2, if_neg hc.1, if_neg hcr]
      by_cases hi80 : i < 80
      · rw [if_pos hi80]
        exact ih hclean' f (i + 1) (Function.update line i c) c2 fp2 hfp hfuel' (by omega)
      · rw [if_neg hi80]

/-- The function `readLine` on a file whose first line has 80 bytes to store or
more. -/
theorem readLine_overrun (chr0 : Char) (line : LineBuf) (body rest : List Char)
    (hclean : ∀ c ∈ body, c.toNat ≠ 10 ∧ c.toNat ≠ 255)
    (hlen : 80 ≤ (dropCR body).length) :
    readLine chr0 line (body ++ Char.ofNat 10 :: rest) = Except.error Fault.bufferOverrun := by
  unfold readLine
  have hne : body ++ Char.ofNat 10 :: rest ≠ [] := by cases body <;> simp
  obtain ⟨c, fp, hfp⟩ := List.exists_cons_of_ne_nil hne
  rw [hfp]
  simp only [VSIFReadL]
  have hl : body.length < (c :: fp).length := by
    rw [← hfp, List.length_append, List.length_cons]
    omega
  exact readLineLoop_overrun rest body hclean ((c :: fp).length + 82) 0 line c fp hfp.symm
    (by omega) (by omega)

/-- C20 as stated fails: on the file `longLineFile`, whose first line has 80 bytes
before its newline and no `0xFF`, `readLine` does not leave the line in the buffer:
storing the 80 bytes and the NUL takes 81 bytes, one more than `lline` has. -/
theorem readLine_long_line_overruns :
    longLineFile = List.replicate 80 (Char.ofNat 97) ++ Char.ofNat 10 :: [] ∧
    (∀ c ∈ List.replicate 80 (Char.ofNat 97), c.toNat ≠ 10 ∧ c.toNat ≠ 255) ∧
    readLine (Char.ofNat 0) (fun _ => Char.ofNat 0) longLineFile =
      Except.error Fault.bufferOverrun :=
  ⟨rfl, by decide,
   readLine_overrun (Char.ofNat 0) (fun _ => Char.ofNat 0) (List.replicate 80 (Char.ofNat 97)) []
     (by decide) (by decide)⟩

/-- C20, amended: line splitting.  For every byte sequence `body ++ '\n' :: rest`
whose `body` contains no newline and no `0xFF` byte and has at most 79 bytes other
than carriage returns (they and the NUL fit the 80-byte buffer), `readLine`
consumes the bytes up to and including the newline (`rest` is left), returns the
number of stored bytes plus one, and leaves in the buffer the bytes of `body`
without the carriage returns, in their order, followed by a NUL; the bytes of the
buffer beyond the NUL are left as they were. -/
theorem readLine_splits (chr0 : Char) (line : LineBuf) (body rest : List Char)
    (hclean : ∀ c ∈ body, c.toNat ≠ 10 ∧ c.toNat ≠ 255)
    (hlen : (dropCR body).length < 80) :
    ∃ buf, readLine chr0 line (body ++ Char.ofNat 10 :: rest) =
        Except.ok ((((dropCR body).length : Nat) : Int) + 1, buf, rest) ∧
      bytesFrom buf 0 ((dropCR body).length + 1) = dropCR body ++ [Char.ofNat 0] ∧
      (∀ k, (dropCR body).length < k → buf k = line k) ∧
      (∀ c, c ∈ dropCR body ↔ c ∈ body ∧ c.toNat ≠ 13) :=
  ⟨_, readLine_line chr0 line body rest hclean hlen, (readLine_buffer line (dropCR body)).1,
   (readLine_buffer line (dropCR body)).2, fun c => by simp [dropCR]⟩

/-- C20 amended, on `sampleFile`: its first line `100000 400000 500` is stored
with a NUL, 18 is returned, and the file is left at its second line. -/
theorem readLine_splits_witness :
    ∃ buf, readLine (Char.ofNat 0) (fun _ => Char.ofNat 0) sampleFile =
        Except.ok ((((dropCR sampleRecord).length : Nat) : Int) + 1, buf,
          Char.ofNat 10 :: sampleTail) ∧
      bytesFrom buf 0 ((dropCR sampleRecord).length + 1) = dropCR sampleRecord ++ [Char.ofNat 0] ∧
      (∀ k, (dropCR sampleRecord).length < k → buf k = Char.ofNat 0) ∧
      (∀ c, c ∈ dropCR sampleRecord ↔ c ∈ sampleRecord ∧ c.toNat ≠ 13) :=
  readLine_splits (Char.ofNat 0) (fun _ => Char.ofNat 0) sampleRecord
    (Char.ofNat 10 :: sampleTail) (by decide) (by decide)

/-! ## The three-line scenario -/

/-- The function `readLine` at the end of the file, entered with a newline in
`chr[0]`: an empty line is returned. -/
theorem readLine_eof_stale (line : LineBuf) :
    readLine (Char.ofNat 10) line [] =
      Except.ok (1, Function.update line 0 (Char.ofNat 0), []) := by
  simp [readLine, VSIFReadL, readLineLoop]

/-- The first record of the scenario. -/
theorem scenario_parse1 :
    parseXyzLine staleEnv.atof scenarioBuf1 = Except.ok { x := 400000, y := 100000, z := 500 } := by
  rw [parseXyzLine_of_line staleEnv.atof scenarioBuf1 "100000".toList "400000".toList
    "500".toList (by decide) (by decide) (by decide) (by decide) (by decide)]
  have hx : atoi "400000".toList = 400000 := by decide
  have hy : atoi "100000".toList = 100000 := by decide
  have hz : atoi "500".toList = 500 := by decide
  simp only [staleEnv, atofDigits, hx, hy, hz]
  norm_num

/-- The second record of the scenario. -/
theorem scenario_parse2 :
    parseXyzLine staleEnv.atof (nextLine scenarioBuf1 (dropCR scenarioLine2)) =
      Except.ok { x := 400000, y := 100005, z := 502 } := by
  rw [parseXyzLine_of_line staleEnv.atof _ "100005".toList "400000".toList
    "502".toList (by decide) (by decide) (by decide) (by decide) (by decide)]
  have hx : atoi "400000".toList = 400000 := by decide
  have hy : atoi "100005".toList = 100005 := by decide
  have hz : atoi "502".toList = 502 := by decide
  simp only [staleEnv, atofDigits, hx, hy, hz]
  norm_num

/-- The third record of the scenario. -/
theorem scenario_parse3 :
    parseXyzLine staleEnv.atof
        (nextLine (nextLine scenarioBuf1 (dropCR scenarioLine2)) (dropCR scenarioLine3)) =
      Except.ok { x := 400005, y := 100000, z := 10000 } := by
  rw [parseXyzLine_of_line staleEnv.atof _ "100000".toList "400005".toList
    "10000".toList (by decide) (by decide) (by decide) (by decide) (by decide)]
  have hx : atoi "400005".toList = 400005 := by decide
  have hy : atoi "100000".toList = 100000 := by decide
  have hz : atoi "10000".toList = 10000 := by decide
  simp only [staleEnv, atofDigits, hx, hy, hz]
  norm_num

/-- A record whose indices are inside the raster and around which no cell passes
the guard of `calcPixAvg` is stored at its cell. -/
theorem placeSample_store (poDS : DMVDataset) (band : Band) (data : XYZ) (r c : Int)
    (hidx : bandIndex poDS data = (r, c))
    (hrow : 0 ≤ r ∧ r < poDS.nRasterYSize) (hcol : 0 ≤ c ∧ c < poDS.nRasterXSize)
    (hN : eligibleNeighbours band poDS.nRasterYSize poDS.nRasterXSize r c = []) :
    placeSample poDS band data = Except.ok (setCell band r c data.z) := by
  have hclamp : clampIndex poDS (r, c) = (r, c) := by
    unfold clampIndex
    dsimp only
    rw [if_neg (by omega), if_neg (by omega)]
  unfold placeSample
  rw [hidx, hclamp]
  exact placeAt_nil poDS band r c data.z hrow hcol hN

/-- The first record of the scenario is stored at row 0, column 0. -/
theorem scenario_place1 :
    placeSample scenarioDS emptyBand { x := 400000, y := 100000, z := 500 } =
      Except.ok (setCell emptyBand 0 0 500) := by
  refine placeSample_store scenarioDS emptyBand _ 0 0 ?_ (by decide) (by decide)
    (by simp [eligibleNeighbours, surrounding, eligible, emptyBand, scenarioDS])
  unfold bandIndex
  rw [doubleToInt_div _ _ 0 (by decide) (by norm_num [scenarioDS]) (by norm_num [scenarioDS]),
    doubleToInt_div _ _ 0 (by decide) (by norm_num [scenarioDS]) (by norm_num [scenarioDS])]

/-- The second record of the scenario is stored at row 0, column 1: its only
written neighbour `(0, 0)` lies on row 0 and is not counted. -/
theorem scenario_place2 :
    placeSample scenarioDS (setCell emptyBand 0 0 500) { x := 400000, y := 100005, z := 502 } =
      Except.ok (setCell (setCell emptyBand 0 0 500) 0 1 502) := by
  refine placeSample_store scenarioDS _ _ 0 1 ?_ (by decide) (by decide)
    (by simp [eligibleNeighbours, surrounding, eligible, setCell, emptyBand, scenarioDS])
  unfold bandIndex
  rw [doubleToInt_div _ _ 0 (by decide) (by norm_num [scenarioDS]) (by norm_num [scenarioDS]),
    doubleToInt_div _ _ 1 (by decide) (by norm_num [scenarioDS]) (by norm_num [scenarioDS])]

/-- The third record of the scenario is stored at row 1, column 0: its written
neighbours `(0, 0)` and `(0, 1)` lie on row 0 and are not counted. -/
theorem scenario_place3 :
    placeSample scenarioDS (setCell (setCell emptyBand 0 0 500) 0 1 502)
        { x := 400005, y := 100000, z := 10000 } = Except.ok scenarioBand := by
  refine placeSample_store scenarioDS _ _ 1 0 ?_ (by decide) (by decide)
    (by simp [eligibleNeighbours, surrounding, eligible, setCell, emptyBand, scenarioDS])
  unfold bandIndex
  rw [doubleToInt_div _ _ 1 (by decide) (by norm_num [scenarioDS]) (by norm_num [scenarioDS]),
    doubleToInt_div _ _ 0 (by decide) (by norm_num [scenarioDS]) (by norm_num [scenarioDS])]

/-- The constructor of the band on the three lines of the scenario: the three
records are stored. -/
theorem new_scenario :
    DMVRasterBand.new staleEnv scenarioDS =
      Except.ok { nBlockXSize := 450, nBlockYSize := 1, band := scenarioBand, lineCnt := 3 } := by
  have hread1 : readLine (staleEnv.chrInit 0) staleEnv.llineInit scenarioDS.fp =
      Except.ok (18, scenarioBuf1,
        scenarioLine2 ++ Char.ofNat 10 :: (scenarioLine3 ++ Char.ofNat 10 :: [])) :=
    readLine_line (staleEnv.chrInit 0) staleEnv.llineInit scenarioLine1 _ (by decide) (by decide)
  have hread2 : readLine (staleEnv.chrInit 1) (Function.update scenarioBuf1 0 (Char.ofNat 10))
      (scenarioLine2 ++ Char.ofNat 10 :: (scenarioLine3 ++ Char.ofNat 10 :: [])) =
      Except.ok (18, nextLine scenarioBuf1 (dropCR scenarioLine2),
        scenarioLine3 ++ Char.ofNat 10 :: []) :=
    readLine_line (staleEnv.chrInit 1) _ scenarioLine2 _ (by decide) (by decide)
  have hread3 : readLine (staleEnv.chrInit 2)
      (Function.update (nextLine scenarioBuf1 (dropCR scenarioLine2)) 0 (Char.ofNat 10))
      (scenarioLine3 ++ Char.ofNat 10 :: []) =
      Except.ok (20, nextLine (nextLine scenarioBuf1 (dropCR scenarioLine2))
        (dropCR scenarioLine3), []) :=
    readLine_line (staleEnv.chrInit 2) _ scenarioLine3 _ (by decide) (by decide)
  have hread4 := readLine_eof_stale (Function.update
    (nextLine (nextLine scenarioBuf1 (dropCR scenarioLine2)) (dropCR scenarioLine3)) 0
    (Char.ofNat 10))
  have hlen : scenarioDS.fp.length = 53 + 1 + 1 + 1 := by decide
  unfold DMVRasterBand.new
  rw [hread1]
  simp only
  rw [hlen,
    ingestLoop_step staleEnv scenarioDS _ 1 18 _ _ emptyBand 0 _ _ _ _ _ (by decide)
      scenario_parse1 scenario_place1 hread2,
    ingestLoop_step staleEnv scenarioDS _ (1 + 1) 18 _ _ _ (0 + 1) _ _ _ _ _ (by decide)
      scenario_parse2 scenario_place2 hread3,
    ingestLoop_step staleEnv scenarioDS _ (1 + 1 + 1) 20 _ _ _ (0 + 1 + 1) _ _ _ _ _ (by decide)
      scenario_parse3 scenario_place3 hread4,
    ingestLoop_stop staleEnv scenarioDS 53 _ 1 _ _ _ _ (by decide)]
  rfl

/-! ## Line-length threshold -/

/-- The turn of the constructor loop on a line that passes its test: the line is
parsed, the record placed and the next line read. -/
theorem ingestLoop_turn (env : Env) (poDS : DMVDataset) (f k : Nat) (len : Int)
    (lline : LineBuf) (fp : List Char) (band : Band) (lineCnt : Int)
    (h : len ≠ -1 ∧ len > 5) :
    ingestLoop env poDS (f + 1) k len lline fp band lineCnt =
      match parseXyzLine env.atof lline with
      | Except.error e => Except.error e
      | Except.ok data =>
        match placeSample poDS band data with
        | Except.error e => Except.error e
        | Except.ok band2 =>
          match readLine (env.chrInit k) (Function.update lline 0 (Char.ofNat 10)) fp with
          | Except.error e => Except.error e
          | Except.ok (len2, lline2, fp2) =>
            ingestLoop env poDS f (k + 1) len2 lline2 fp2 band2 (lineCnt + 1) := by
  rw [ingestLoop, if_pos h]

/-- The line `1 2 3` as `parseXyzLine` reads it. -/
theorem fiveChar_parse :
    parseXyzLine staleEnv.atof fiveCharBuf = Except.ok { x := 2, y := 1, z := 3 } := by
  rw [parseXyzLine_of_line staleEnv.atof fiveCharBuf "1".toList "2".toList "3".toList
    (by decide) (by decide) (by decide) (by decide) (by decide)]
  have hx : atoi "2".toList = 2 := by decide
  have hy : atoi "1".toList = 1 := by decide
  have hz : atoi "3".toList = 3 := by decide
  simp only [staleEnv, atofDigits, hx, hy, hz]
  norm_num

/-- The record of the line `1 2 3` is stored at row 0, column 0. -/
theorem fiveChar_place :
    placeSample fiveCharDS emptyBand { x := 2, y := 1, z := 3 } =
      Except.ok (setCell emptyBand 0 0 3) := by
  refine placeSample_store fiveCharDS emptyBand _ 0 0 ?_ (by decide) (by decide)
    (by simp [eligibleNeighbours, surrounding, eligible, emptyBand, fiveCharDS])
  unfold bandIndex
  rw [doubleToInt_div _ _ 0 (by decide) (by norm_num [fiveCharDS]) (by norm_num [fiveCharDS]),
    doubleToInt_div _ _ 0 (by decide) (by norm_num [fiveCharDS]) (by norm_num [fiveCharDS])]

/-- The constructor of the band on `fiveCharFile`: the line `1 2 3` is parsed and
its record stored. -/
theorem new_fiveChar :
    DMVRasterBand.new staleEnv fiveCharDS =
      Except.ok { nBlockXSize := 450, nBlockYSize := 1, band := setCell emptyBand 0 0 3,
                  lineCnt := 1 } := by
  have hread1 : readLine (staleEnv.chrInit 0) staleEnv.llineInit fiveCharDS.fp =
      Except.ok (6, fiveCharBuf, Char.ofNat 10 :: []) :=
    readLine_line (staleEnv.chrInit 0) staleEnv.llineInit fiveCharLine _ (by decide) (by decide)
  have hread2 : readLine (staleEnv.chrInit 1) (Function.update fiveCharBuf 0 (Char.ofNat 10))
      (Char.ofNat 10 :: []) =
      Except.ok (1, nextLine fiveCharBuf [], []) :=
    readLine_line (staleEnv.chrInit 1) _ [] [] (by decide) (by decide)
  have hlen : fiveCharDS.fp.length = 6 + 1 := by decide
  unfold DMVRasterBand.new
  rw [hread1]
  simp only
  rw [hlen,
    ingestLoop_step staleEnv fiveCharDS _ 1 6 _ _ emptyBand 0 _ _ _ _ _ (by decide)
      fiveChar_parse fiveChar_place hread2,
    ingestLoop_stop staleEnv fiveCharDS 6 _ 1 _ _ _ _ (by decide)]
  rfl

/-! ## Line-length threshold: claim -/

/-- C16 as stated fails: the line `1 2 3` has exactly 5 characters; `readLine`
returns 6 for it, the loop test `len > 5` passes, and the line is parsed and its
record stored in the grid: one record is counted. -/
theorem five_char_line_is_ingested :
    fiveCharLine.length = 5 ∧
    readLine (staleEnv.chrInit 0) staleEnv.llineInit fiveCharDS.fp =
      Except.ok (6, fiveCharBuf, Char.ofNat 10 :: []) ∧
    DMVRasterBand.new staleEnv fiveCharDS =
      Except.ok { nBlockXSize := 450, nBlockYSize := 1, band := setCell emptyBand 0 0 3,
                  lineCnt := 1 } :=
  ⟨by decide,
   readLine_line (staleEnv.chrInit 0) staleEnv.llineInit fiveCharLine _ (by decide) (by decide),
   new_fiveChar⟩

/-- C16, amended: line-length threshold.  For a line with `n` characters (carriage
returns and the newline excluded, no `0xFF`, `n` at most 79) `readLine` returns
`n + 1`, the NUL being counted.  The loop of the constructor parses the line and
places its record exactly when `n + 1 > 5`: with `n < 5` the loop ends there and
the grid and the record count stay as they were; with `n ≥ 5` (so also for a line
of exactly 5 characters) the line is handed to `parseXyzLine` and its record to the
placement, and the next line is read. -/
theorem line_threshold (env : Env) (poDS : DMVDataset) (f k : Nat) (chr0 : Char)
    (line : LineBuf) (body rest : List Char) (band : Band) (lineCnt : Int)
    (hclean : ∀ c ∈ body, c.toNat ≠ 10 ∧ c.toNat ≠ 255)
    (hlen : (dropCR body).length < 80) :
    ∃ buf, readLine chr0 line (body ++ Char.ofNat 10 :: rest) =
        Except.ok ((((dropCR body).length : Nat) : Int) + 1, buf, rest) ∧
      ((dropCR body).length < 5 →
        ingestLoop env poDS (f + 1) k ((((dropCR body).length : Nat) : Int) + 1) buf rest band
          lineCnt = Except.ok (band, lineCnt)) ∧
      (5 ≤ (dropCR body).length →
        ingestLoop env poDS (f + 1) k ((((dropCR body).length : Nat) : Int) + 1) buf rest band
          lineCnt =
          match parseXyzLine env.atof buf with
          | Except.error e => Except.error e
          | Except.ok data =>
            match placeSample poDS band data with
            | Except.error e => Except.error e
            | Except.ok band2 =>
              match readLine (env.chrInit k) (Function.update buf 0 (Char.ofNat 10)) rest with
              | Except.error e => Except.error e
              | Except.ok (len2, lline2, fp2) =>
                ingestLoop env poDS f (k + 1) len2 lline2 fp2 band2 (lineCnt + 1)) := by
  refine ⟨_, readLine_line chr0 line body rest hclean hlen, ?_, ?_⟩
  · intro h
    exact ingestLoop_stop env poDS f k _ _ _ _ _ (by omega)
  · intro h
    exact ingestLoop_turn env poDS f k _ _ _ _ _ (by omega)

/-- C16 amended, on the line `1 23` of 4 characters, which ends the loop, and on
the line `1 2 3` of 5 characters, which is parsed and placed. -/
theorem line_threshold_witness :
    (∃ buf, readLine (Char.ofNat 0) staleEnv.llineInit (fourCharLine ++ Char.ofNat 10 :: []) =
        Except.ok ((((dropCR fourCharLine).length : Nat) : Int) + 1, buf, []) ∧
      ingestLoop staleEnv fiveCharDS (0 + 1) 1 ((((dropCR fourCharLine).length : Nat) : Int) + 1)
        buf [] emptyBand 0 = Except.ok (emptyBand, 0)) ∧
    (∃ buf, readLine (Char.ofNat 0) staleEnv.llineInit (fiveCharLine ++ Char.ofNat 10 :: []) =
        Except.ok ((((dropCR fiveCharLine).length : Nat) : Int) + 1, buf, []) ∧
      ingestLoop staleEnv fiveCharDS (0 + 1) 1 ((((dropCR fiveCharLine).length : Nat) : Int) + 1)
        buf [] emptyBand 0 =
        match parseXyzLine staleEnv.atof buf with
        | Except.error e => Except.error e
        | Except.ok data =>
          match placeSample fiveCharDS emptyBand data with
          | Except.error e => Except.error e
          | Except.ok band2 =>
            match readLine (staleEnv.chrInit 1) (Function.update buf 0 (Char.ofNat 10)) [] with
            | Except.error e => Except.error e
            | Except.ok (len2, lline2, fp2) =>
              ingestLoop staleEnv fiveCharDS 0 (1 + 1) len2 lline2 fp2 band2 (0 + 1)) := by
  constructor
  · obtain ⟨buf, h1, h2, _⟩ := line_threshold staleEnv fiveCharDS 0 1 (Char.ofNat 0)
      staleEnv.llineInit fourCharLine [] emptyBand 0 (by decide) (by decide)
    exact ⟨buf, h1, h2 (by decide)⟩
  · obtain ⟨buf, h1, _, h3⟩ := line_threshold staleEnv fiveCharDS 0 1 (Char.ofNat 0)
      staleEnv.llineInit fiveCharLine [] emptyBand 0 (by decide) (by decide)
    exact ⟨buf, h1, h3 (by decide)⟩

/-! ## Record parser on lines without two spaces -/

/-- A scanning loop of `parseXyzLine` that does not meet its stop byte in the rest
of the buffer reads past the buffer. -/
theorem scanField_overrun (stop : Nat) (line : LineBuf) :
    ∀ (rem i : Nat) (str : List Char), (∀ k, k < rem → (line (i + k)).toNat ≠ stop) →
      scanField stop line rem i str = Except.error Fault.bufferOverrun := by
  intro rem
  induction rem with
  | zero =>
    intro i str _
    rw [scanField]
  | succ r ih =>
    intro i str h
    have h0 : ¬ (line i).toNat = stop := by simpa using h 0 (by omega)
    rw [scanField, if_neg h0]
    apply ih
    intro k hk
    have := h (k + 1) (by omega)
    rwa [show i + (k + 1) = i + 1 + k by omega] at this

/-- The function `parseXyzLine` on the line `abcdefgh`: the first scan finds no
space in the 80 bytes of the buffer. -/
theorem noSpace_parse :
    parseXyzLine sampleEnv.atof noSpaceBuf = Except.error Fault.bufferOverrun := by
  unfold parseXyzLine
  rw [scanField_overrun 32 noSpaceBuf 80 0 [] (by decide)]

/-- The constructor of the band on `noSpaceFile`. -/
theorem new_noSpace :
    DMVRasterBand.new sampleEnv noSpaceDS = Except.error Fault.bufferOverrun := by
  have hread1 : readLine (sampleEnv.chrInit 0) sampleEnv.llineInit noSpaceDS.fp =
      Except.ok (9, noSpaceBuf, Char.ofNat 10 :: []) :=
    readLine_line (sampleEnv.chrInit 0) sampleEnv.llineInit noSpaceLine _ (by decide) (by decide)
  unfold DMVRasterBand.new
  rw [hread1]
  simp only
  rw [ingestLoop_turn sampleEnv noSpaceDS _ 1 9 _ _ _ _ (by decide), noSpace_parse]

/-- The function `parseXyzLine` on the line `77777 8` read over an earlier line:
the second scan passes the NUL of the line and stops at a space of the earlier
line, and the third field is the `500` of the earlier line. -/
theorem oneSpace_parse :
    bytesFrom oneSpaceBuf 0 18 =
      "77777 8".toList ++ Char.ofNat 0 :: ("00000 500".toList ++ [Char.ofNat 0]) ∧
    parseXyzLine sampleEnv.atof oneSpaceBuf = Except.ok { x := 8, y := 77777, z := 500 } := by
  refine ⟨by decide, ?_⟩
  rw [parseXyzLine_fields sampleEnv.atof oneSpaceBuf 5 7 3 (by decide) (by decide) (by decide)
    (by decide) (by decide) (by decide) (by decide)]
  have hx : atoi (cstr (bytesFrom oneSpaceBuf (5 + 1) 7)) = 8 := by decide
  have hy : atoi (cstr (bytesFrom oneSpaceBuf 0 5)) = 77777 := by decide
  have hz : atoi (cstr (bytesFrom oneSpaceBuf (5 + 1 + 7 + 1) 3)) = 500 := by decide
  simp only [sampleEnv, atofDigits, hx, hy, hz]
  norm_num

/-- C17, the code at two failing inputs.  On the line `abcdefgh` (no space) the
first scan of `parseXyzLine` runs through the NUL of the line and on to the end of
the 80-byte buffer: no sample is returned and the constructor does not go on.  On
the line `77777 8` (one space) read after `100000 400000 500`, the second scan runs
through the NUL of the line into the bytes left by the earlier line, and the
sample gets the elevation 500 of that earlier line. -/
theorem parseXyzLine_scans_past_nul :
    noSpaceLine.length = 8 ∧
    parseXyzLine sampleEnv.atof noSpaceBuf = Except.error Fault.bufferOverrun ∧
    DMVRasterBand.new sampleEnv noSpaceDS = Except.error Fault.bufferOverrun ∧
    oneSpaceLine.length = 7 ∧
    bytesFrom oneSpaceBuf 0 18 =
      "77777 8".toList ++ Char.ofNat 0 :: ("00000 500".toList ++ [Char.ofNat 0]) ∧
    parseXyzLine sampleEnv.atof oneSpaceBuf = Except.ok { x := 8, y := 77777, z := 500 } :=
  ⟨by decide, noSpace_parse, new_noSpace, by decide, oneSpace_parse.1, oneSpace_parse.2⟩

/-! ## Grid provenance -/

/-- A placement that returns a grid leaves it as it was or stores the elevation at
the clamped cell of the record. -/
theorem placeSample_cases (poDS : DMVDataset) (band band2 : Band) (data : XYZ)
    (h : placeSample poDS band data = Except.ok band2) :
    band2 = band ∨
    band2 = setCell band (clampIndex poDS (bandIndex poDS data)).1
      (clampIndex poDS (bandIndex poDS data)).2 data.z := by
  unfold placeSample at h
  dsimp only at h
  rcases placeAt_cases poDS band band2 _ _ data.z h with ⟨hb, _⟩ | ⟨hb, _⟩
  · exact Or.inl hb
  · exact Or.inr hb

/-- The provenance of the cells is kept by a placement, with the placed record
added to the records. -/
theorem provenance_step (poDS : DMVDataset) (recs : List XYZ) (g g2 : Band) (data : XYZ)
    (hp : Provenance poDS recs g) (h : placeSample poDS g data = Except.ok g2) :
    Provenance poDS (recs ++ [data]) g2 := by
  intro y x
  rcases placeSample_cases poDS g g2 data h with hb | hb
  · rw [hb]
    rcases hp y x with h0 | ⟨r, hr, hc, hv⟩
    · exact Or.inl h0
    · exact Or.inr ⟨r, List.mem_append_left _ hr, hc, hv⟩
  · rw [hb]
    unfold setCell
    by_cases hyx : y = (clampIndex poDS (bandIndex poDS data)).1 ∧
        x = (clampIndex poDS (bandIndex poDS data)).2
    · rw [if_pos hyx]
      refine Or.inr ⟨data, List.mem_append_right _ (List.mem_singleton_self data), ?_, rfl⟩
      exact Prod.ext hyx.1.symm hyx.2.symm
    · rw [if_neg hyx]
      rcases hp y x with h0 | ⟨r, hr, hc, hv⟩
      · exact Or.inl h0
      · exact Or.inr ⟨r, List.mem_append_left _ hr, hc, hv⟩

/-- The provenance of the cells is kept by a sequence of placements. -/
theorem placeRecords_provenance (poDS : DMVDataset) :
    ∀ (recs pre : List XYZ) (band g : Band), Provenance poDS pre band →
      placeRecords poDS band recs = Except.ok g → Provenance poDS (pre ++ recs) g := by
  intro recs
  induction recs with
  | nil =>
    intro pre band g hp h
    rw [placeRecords] at h
    simp only [Except.ok.injEq] at h
    rw [List.append_nil, ← h]
    exact hp
  | cons d rest ih =>
    intro pre band g hp h
    rw [placeRecords] at h
    cases hd : placeSample poDS band d with
    | error e =>
      rw [hd] at h
      simp at h
    | ok band2 =>
      rw [hd] at h
      have := ih (pre ++ [d]) band2 g (provenance_step poDS pre band band2 d hp hd) h
      rwa [List.append_assoc, List.singleton_append] at this

/-- Records with indices that are not negative are all placed: the sequence of
placements returns a grid. -/
theorem placeRecords_ok (poDS : DMVDataset)
    (hsize : 0 < poDS.nRasterYSize ∧ 0 < poDS.nRasterXSize) :
    ∀ (recs : List XYZ) (band : Band),
      (∀ r ∈ recs, 0 ≤ (bandIndex poDS r).1 ∧ 0 ≤ (bandIndex poDS r).2) →
      ∃ g, placeRecords poDS band recs = Except.ok g := by
  intro recs
  induction recs with
  | nil => intro band _; exact ⟨band, rfl⟩
  | cons d rest ih =>
    intro band h
    have hd := h d (List.mem_cons_self d rest)
    have hrest : ∀ r ∈ rest, 0 ≤ (bandIndex poDS r).1 ∧ 0 ≤ (bandIndex poDS r).2 :=
      fun r hr => h r (List.mem_cons_of_mem d hr)
    rcases (placeSample_ok poDS band d hsize hd).2 with hp | hp
    · obtain ⟨g, hg⟩ := ih band hrest
      exact ⟨g, by rw [placeRecords, hp]; exact hg⟩
    · obtain ⟨g, hg⟩ := ih _ hrest
      exact ⟨g, by rw [placeRecords, hp]; exact hg⟩

/-- The empty grid has the provenance of no record. -/
theorem provenance_empty (poDS : DMVDataset) : Provenance poDS [] emptyBand :=
  fun _ _ => Or.inl rfl

/-- The grid that the loop of the constructor returns is the grid after the
placement of a sequence of records, as many as the loop has counted. -/
theorem ingestLoop_records (env : Env) (poDS : DMVDataset) :
    ∀ (fuel k : Nat) (len : Int) (lline : LineBuf) (fp : List Char) (band : Band)
      (lineCnt : Int) (g : Band) (c : Int),
      ingestLoop env poDS fuel k len lline fp band lineCnt = Except.ok (g, c) →
      ∃ recs, placeRecords poDS band recs = Except.ok g ∧ c = lineCnt + (recs.length : Int) := by
  intro fuel
  induction fuel with
  | zero =>
    intro k len lline fp band lineCnt g c h
    rw [ingestLoop] at h
    simp at h
  | succ f ih =>
    intro k len lline fp band lineCnt g c h
    by_cases hg : len ≠ -1 ∧ len > 5
    · rw [ingestLoop_turn env poDS f k len lline fp band lineCnt hg] at h
      cases hp : parseXyzLine env.atof lline with
      | error e => rw [hp] at h; simp at h
      | ok data =>
        rw [hp] at h
        dsimp only at h
        cases hs : placeSample poDS band data with
        | error e => rw [hs] at h; simp at h
        | ok band2 =>
          rw [hs] at h
          dsimp only at h
          cases hr : readLine (env.chrInit k) (Function.update lline 0 (Char.ofNat 10)) fp with
          | error e => rw [hr] at h; simp at h
          | ok res =>
            obtain ⟨len2, lline2, fp2⟩ := res
            rw [hr] at h
            dsimp only at h
            obtain ⟨recs, hrecs, hc⟩ := ih (k + 1) len2 lline2 fp2 band2 (lineCnt + 1) g c h
            refine ⟨data :: recs, ?_, ?_⟩
            · rw [placeRecords, hs]
              exact hrecs
            · rw [hc, List.length_cons]
              push_cast
              ring
    · rw [ingestLoop_stop env poDS f k len lline fp band lineCnt hg] at h
      simp only [Except.ok.injEq, Prod.mk.injEq] at h
      exact ⟨[], by rw [placeRecords, h.1], by rw [← h.2]; simp⟩

/-- The grid that the constructor builds is the grid after the placement of a
sequence of records into the empty grid, as many as `lineCnt`. -/
theorem new_records (env : Env) (poDS : DMVDataset) (b : DMVRasterBand)
    (h : DMVRasterBand.new env poDS = Except.ok b) :
    ∃ recs, placeRecords poDS emptyBand recs = Except.ok b.band ∧
      b.lineCnt = (recs.length : Int) := by
  unfold DMVRasterBand.new at h
  cases hr : readLine (env.chrInit 0) env.llineInit poDS.fp with
  | error e =>
    rw [hr] at h
    simp at h
  | ok r =>
    obtain ⟨len, lline, fp⟩ := r
    rw [hr] at h
    dsimp only at h
    cases hi : ingestLoop env poDS (poDS.fp.length + 1) 1 len lline fp emptyBand 0 with
    | error e =>
      rw [hi] at h
      simp at h
    | ok r2 =>
      obtain ⟨band2, lineCnt⟩ := r2
      rw [hi] at h
      simp only [Except.ok.injEq] at h
      obtain ⟨recs, hrecs, hc⟩ := ingestLoop_records env poDS _ _ _ _ _ _ _ _ _ hi
      refine ⟨recs, ?_, ?_⟩
      · rw [← h]
        exact hrecs
      · rw [← h, hc]
        simp

/-- In a grid with the provenance of `recs`, a cell that is the clamped target of
none of them holds the sentinel. -/
theorem provenance_untouched (poDS : DMVDataset) (recs : List XYZ) (g : Band)
    (hp : Provenance poDS recs g) (y x : Int)
    (h : ∀ r ∈ recs, clampIndex poDS (bandIndex poDS r) ≠ (y, x)) : g y x = 0 := by
  rcases hp y x with h0 | ⟨r, hr, hc, _⟩
  · exact h0
  · exact absurd hc (h r hr)

/-- The conversion to `int` of a double that is not negative is not negative. -/
theorem doubleToInt_nonneg (q : ℚ) (hq : 0 ≤ q) : 0 ≤ doubleToInt q := by
  rw [doubleToInt_eq, if_pos hq]
  exact Int.floor_nonneg.mpr hq

/-- The records of the scenario have indices that are not negative. -/
theorem scenarioRecords_nonneg :
    ∀ r ∈ scenarioRecords,
      0 ≤ (bandIndex scenarioDS r).1 ∧ 0 ≤ (bandIndex scenarioDS r).2 := by
  intro r hr
  unfold scenarioRecords at hr
  simp only [List.mem_cons, List.mem_singleton, List.not_mem_nil, or_false] at hr
  unfold bandIndex
  rcases hr with h | h | h <;> rw [h] <;>
    exact ⟨doubleToInt_nonneg _ (by norm_num [scenarioDS]),
      doubleToInt_nonneg _ (by norm_num [scenarioDS])⟩

/-! ## Grid provenance: claim -/

/-- C19: grid provenance.  For every sequence of records placed into the
all-sentinel grid, with computed indices that are not negative (on a raster that is
not empty), every step returns a grid, and after every step each cell is either the
sentinel 0 or the elevation of a record already placed whose clamped `(row, col)`
is that cell; a cell that is the clamped target of no record is 0 in the final
grid.  The grid that the constructor builds is the result of such a sequence of
placements, one per record counted, and has the same two properties. -/
theorem grid_provenance (env : Env) (poDS : DMVDataset) (recs : List XYZ)
    (hsize : 0 < poDS.nRasterYSize ∧ 0 < poDS.nRasterXSize)
    (hidx : ∀ r ∈ recs, 0 ≤ (bandIndex poDS r).1 ∧ 0 ≤ (bandIndex poDS r).2) :
    (∀ n : Nat, ∃ g, placeRecords poDS emptyBand (recs.take n) = Except.ok g ∧
      Provenance poDS (recs.take n) g) ∧
    (∃ g, placeRecords poDS emptyBand recs = Except.ok g ∧ Provenance poDS recs g ∧
      ∀ y x, (∀ r ∈ recs, clampIndex poDS (bandIndex poDS r) ≠ (y, x)) → g y x = 0) ∧
    (∀ b, DMVRasterBand.new env poDS = Except.ok b →
      ∃ ingested, placeRecords poDS emptyBand ingested = Except.ok b.band ∧
        b.lineCnt = (ingested.length : Int) ∧ Provenance poDS ingested b.band ∧
        ∀ y x, (∀ r ∈ ingested, clampIndex poDS (bandIndex poDS r) ≠ (y, x)) →
          b.band y x = 0) := by
  have hpre : ∀ l : List XYZ, (∀ r ∈ l, r ∈ recs) →
      ∃ g, placeRecords poDS emptyBand l = Except.ok g ∧ Provenance poDS l g := by
    intro l hl
    obtain ⟨g, hg⟩ := placeRecords_ok poDS hsize l emptyBand (fun r hr => hidx r (hl r hr))
    have hp := placeRecords_provenance poDS l [] emptyBand g (provenance_empty poDS) hg
    rw [List.nil_append] at hp
    exact ⟨g, hg, hp⟩
  refine ⟨?_, ?_, ?_⟩
  · intro n
    exact hpre (recs.take n) (fun r hr => List.mem_of_mem_take hr)
  · obtain ⟨g, hg, hp⟩ := hpre recs (fun r hr => hr)
    exact ⟨g, hg, hp, provenance_untouched poDS recs g hp⟩
  · intro b hb
    obtain ⟨ingested, hrecs, hc⟩ := new_records env poDS b hb
    have hp := placeRecords_provenance poDS ingested [] emptyBand b.band
      (provenance_empty poDS) hrecs
    rw [List.nil_append] at hp
    exact ⟨ingested, hrecs, hc, hp, provenance_untouched poDS ingested b.band hp⟩

/-- C19, on the three records of the scenario: every prefix of them is placed and
leaves a grid with the provenance of that prefix, and the grid that the
constructor builds from the three lines has the provenance of the records it
counted. -/
theorem grid_provenance_witness :
    (∀ n : Nat, ∃ g, placeRecords scenarioDS emptyBand (scenarioRecords.take n) = Except.ok g ∧
      Provenance scenarioDS (scenarioRecords.take n) g) ∧
    (∃ g, placeRecords scenarioDS emptyBand scenarioRecords = Except.ok g ∧
      Provenance scenarioDS scenarioRecords g ∧
      ∀ y x, (∀ r ∈ scenarioRecords,
        clampIndex scenarioDS (bandIndex scenarioDS r) ≠ (y, x)) → g y x = 0) ∧
    (∃ ingested, placeRecords scenarioDS emptyBand ingested = Except.ok scenarioBand ∧
      (3 : Int) = (ingested.length : Int) ∧ Provenance scenarioDS ingested scenarioBand ∧
      ∀ y x, (∀ r ∈ ingested, clampIndex scenarioDS (bandIndex scenarioDS r) ≠ (y, x)) →
        scenarioBand y x = 0) :=
  ⟨(grid_provenance staleEnv scenarioDS scenarioRecords (by decide) scenarioRecords_nonneg).1,
   (grid_provenance staleEnv scenarioDS scenarioRecords (by decide) scenarioRecords_nonneg).2.1,
   (grid_provenance staleEnv scenarioDS scenarioRecords (by decide) scenarioRecords_nonneg).2.2
     _ new_scenario⟩

/-! ## A record below the origin, through the constructor -/

/-- The line `387510 36990 500` as `parseXyzLine` reads it. -/
theorem underflow_parse :
    parseXyzLine sampleEnv.atof underflowBuf = Except.ok underOrigin := by
  rw [parseXyzLine_of_line sampleEnv.atof underflowBuf "387510".toList "36990".toList
    "500".toList (by decide) (by decide) (by decide) (by decide) (by decide)]
  have hx : atoi "36990".toList = 36990 := by decide
  have hy : atoi "387510".toList = 387510 := by decide
  have hz : atoi "500".toList = 500 := by decide
  simp only [sampleEnv, atofDigits, hx, hy, hz, underOrigin]
  norm_num

/-- The constructor of the band on `underflowFile` writes outside the grid. -/
theorem new_underflow :
    DMVRasterBand.new sampleEnv underflowDS = Except.error Fault.outOfBounds := by
  have hread1 : readLine (sampleEnv.chrInit 0) sampleEnv.llineInit underflowDS.fp =
      Except.ok (17, underflowBuf, Char.ofNat 10 :: []) :=
    readLine_line (sampleEnv.chrInit 0) sampleEnv.llineInit underflowLine _ (by decide)
      (by decide)
  have hidx : (bandIndex underflowDS underOrigin).1 < 0 := by
    have : bandIndex underflowDS underOrigin = bandIndex tileB1901DS underOrigin := rfl
    rw [this, bandIndex_underOrigin]
    decide
  unfold DMVRasterBand.new
  rw [hread1]
  simp only
  rw [ingestLoop_turn sampleEnv underflowDS _ 1 17 _ _ _ _ (by decide), underflow_parse]
  simp only
  rw [placeSample_negative underflowDS emptyBand underOrigin (Or.inl hidx)]

/-! ## A record below the origin: claim -/

/-- C12, the code at a failing input: for tile `VTB1901` (row origin 37000) the
record line `387510 36990 500` gives `data.x = 36990` and the row index `-2`.  The
sample is not skipped: no neighbour passes the guard, so the value is written at
`band[-2][2]`, outside the grid, and the constructor does not go on. -/
theorem underflow_writes_outside :
    bandIndex tileB1901DS underOrigin = (-2, 2) ∧
    placeSample tileB1901DS emptyBand underOrigin = Except.error Fault.outOfBounds ∧
    parseXyzLine sampleEnv.atof underflowBuf = Except.ok underOrigin ∧
    DMVRasterBand.new sampleEnv underflowDS = Except.error Fault.outOfBounds :=
  ⟨bandIndex_underOrigin,
   placeSample_negative tileB1901DS emptyBand underOrigin
     (Or.inl (by rw [bandIndex_underOrigin]; decide)),
   underflow_parse, new_underflow⟩

/-! ## Geocoder: closed form and injectivity -/

/-- The populated entries of the table: the Y of letter index `a` is
`365000 + 22500 * a` and the X of section index `c` is `25000 + 15000 * c`. -/
theorem tableEntry_populated (a c : Int) (ha : 0 ≤ a ∧ a < 12) (hc : 0 ≤ c ∧ c < 12)
    (hpos : 0 < (tableEntry a c).1 ∧ 0 < (tableEntry a c).2) :
    tableEntry a c = (365000 + 22500 * a, 25000 + 15000 * c) := by
  obtain ⟨ha1, ha2⟩ := ha
  obtain ⟨hc1, hc2⟩ := hc
  interval_cases a <;> interval_cases c <;>
    first
    | rfl
    | exact absurd hpos.1 (by decide)

/-- The origin of a populated tile in integers: `x` is `25000` plus a multiple of
3000 that codes the section and the sub-row, `y` is `365000` plus a multiple of 2250
that codes the letter and the sub-column. -/
theorem getCellOrign_grid (letter num s : Int)
    (hy : 0 ≤ letter - 65 ∧ letter - 65 < 12) (hx : 0 ≤ num - 19 ∧ num - 19 < 12)
    (hpos : 0 < (tableEntry (letter - 65) (num - 19)).1 ∧
      0 < (tableEntry (letter - 65) (num - 19)).2)
    (hs : 1 ≤ s ∧ s ≤ 50) :
    (getCellOrign letter num s).x =
        ((25000 + 3000 * (5 * (num - 19) + (4 - (s - 1) / 10)) : Int) : ℚ) ∧
    (getCellOrign letter num s).y =
        ((365000 + 2250 * (10 * (letter - 65) + (s - 1) % 10) : Int) : ℚ) := by
  obtain ⟨h1, h2⟩ := getCellOrign_populated letter num s hy hx hpos hs
  rw [h1, h2, tableEntry_populated _ _ hy hx hpos]
  constructor
  · congr 1
    simp only
    ring
  · congr 1
    simp only
    ring

/-- An entry of the table that is not `(0, 0)` has both coordinates positive. -/
theorem tableEntry_pos_of_ne (a c : Int) (ha : 0 ≤ a ∧ a < 12) (hc : 0 ≤ c ∧ c < 12)
    (hne : tableEntry a c ≠ (0, 0)) : 0 < (tableEntry a c).1 ∧ 0 < (tableEntry a c).2 := by
  obtain ⟨ha1, ha2⟩ := ha
  obtain ⟨hc1, hc2⟩ := hc
  interval_cases a <;> interval_cases c <;>
    first
    | exact absurd rfl hne
    | decide

/-- Two distinct valid tiles have origins that are at least one tile height apart
in `x` or at least one tile width apart in `y`, in integers. -/
theorem origin_separation (l1 n1 s1 l2 n2 s2 : Int)
    (hs1 : 1 ≤ s1 ∧ s1 ≤ 50) (hs2 : 1 ≤ s2 ∧ s2 ≤ 50)
    (hne : l1 ≠ l2 ∨ n1 ≠ n2 ∨ s1 ≠ s2) :
    (25000 + 3000 * (5 * (n1 - 19) + (4 - (s1 - 1) / 10)) + 3000 ≤
        25000 + 3000 * (5 * (n2 - 19) + (4 - (s2 - 1) / 10)) ∨
      25000 + 3000 * (5 * (n2 - 19) + (4 - (s2 - 1) / 10)) + 3000 ≤
        25000 + 3000 * (5 * (n1 - 19) + (4 - (s1 - 1) / 10))) ∨
    (365000 + 2250 * (10 * (l1 - 65) + (s1 - 1) % 10) + 2250 ≤
        365000 + 2250 * (10 * (l2 - 65) + (s2 - 1) % 10) ∨
      365000 + 2250 * (10 * (l2 - 65) + (s2 - 1) % 10) + 2250 ≤
        365000 + 2250 * (10 * (l1 - 65) + (s1 - 1) % 10)) := by
  omega

/-! ## Geocoder: claims on the closed form -/

/-- C22: closed form of the sub-section offset.  For every `(letter, num)` whose
table entry `(baseY, baseX)` has both components `> 0` and every sub-section `s` in
`1..50`, `getCellOrign` returns `x = baseX + 3000 * (4 - (s-1) div 10)` and
`y = baseY + 2250 * ((s-1) mod 10)`: the three cases on `subY` give `2250 * subY`
and the guards `subX > 0`, `subY > 0` do not change the result.  The truncating
division and remainder of the source agree here with the floor ones. -/
theorem getCellOrign_closed_form (letter num s : Int)
    (hy : 0 ≤ letter - 65 ∧ letter - 65 < 12) (hx : 0 ≤ num - 19 ∧ num - 19 < 12)
    (hpos : 0 < (tableEntry (letter - 65) (num - 19)).1 ∧
      0 < (tableEntry (letter - 65) (num - 19)).2)
    (hs : 1 ≤ s ∧ s ≤ 50) :
    (getCellOrign letter num s).x =
      ((tableEntry (letter - 65) (num - 19)).2 : ℚ) + 3000 * ((4 - (s - 1) / 10 : Int) : ℚ) ∧
    (getCellOrign letter num s).y =
      ((tableEntry (letter - 65) (num - 19)).1 : ℚ) + 2250 * (((s - 1) % 10 : Int) : ℚ) ∧
    Int.tdiv (s - 1) 10 = (s - 1) / 10 ∧ Int.tmod (s - 1) 10 = (s - 1) % 10 := by
  obtain ⟨h1, h2⟩ := getCellOrign_populated letter num s hy hx hpos hs
  refine ⟨?_, ?_, Int.tdiv_eq_ediv (by omega) (by omega), Int.tmod_eq_emod (by omega) (by omega)⟩
  · rw [h1]
    push_cast
    ring
  · rw [h2]
    push_cast
    ring

/-- C22, at letter `H` (72), section 22, sub-section 50, where `subX = 0` and
`subY = 9`: the origin is the table `x` and the table `y` plus `9 * 2250`. -/
theorem getCellOrign_closed_form_witness :
    tableEntry (72 - 65) (22 - 19) = (522500, 70000) ∧
    (getCellOrign 72 22 50).x = ((70000 : Int) : ℚ) + 3000 * ((4 - (50 - 1) / 10 : Int) : ℚ) ∧
    (getCellOrign 72 22 50).y = ((522500 : Int) : ℚ) + 2250 * (((50 - 1) % 10 : Int) : ℚ) ∧
    Int.tdiv (50 - 1) 10 = (50 - 1) / 10 ∧ Int.tmod (50 - 1) 10 = (50 - 1) % 10 :=
  ⟨by decide, getCellOrign_closed_form 72 22 50 (by decide) (by decide) (by decide) (by decide)⟩

/-- C23: geocoding is injective on valid tiles.  For any two distinct triples
`(letter, num, subNum)` with the letter in `A..L`, the section in `19..30`, a table
entry other than `(0, 0)` and the sub-section in `1..50`, `getCellOrign` returns
distinct origins: they differ by at least 3000 in `x` or by at least 2250 in `y`,
so the footprints of the two tiles, 600 cells of 5 units along `x` and 450 cells of
5 units along `y`, have no point in common. -/
theorem getCellOrign_injective (l1 n1 s1 l2 n2 s2 : Int)
    (hl1 : 0 ≤ l1 - 65 ∧ l1 - 65 < 12) (hn1 : 0 ≤ n1 - 19 ∧ n1 - 19 < 12)
    (hp1 : tableEntry (l1 - 65) (n1 - 19) ≠ (0, 0)) (hs1 : 1 ≤ s1 ∧ s1 ≤ 50)
    (hl2 : 0 ≤ l2 - 65 ∧ l2 - 65 < 12) (hn2 : 0 ≤ n2 - 19 ∧ n2 - 19 < 12)
    (hp2 : tableEntry (l2 - 65) (n2 - 19) ≠ (0, 0)) (hs2 : 1 ≤ s2 ∧ s2 ≤ 50)
    (hne : (l1, n1, s1) ≠ (l2, n2, s2)) :
    getCellOrign l1 n1 s1 ≠ getCellOrign l2 n2 s2 ∧
    (((getCellOrign l1 n1 s1).x + 3000 ≤ (getCellOrign l2 n2 s2).x ∨
        (getCellOrign l2 n2 s2).x + 3000 ≤ (getCellOrign l1 n1 s1).x) ∨
      ((getCellOrign l1 n1 s1).y + 2250 ≤ (getCellOrign l2 n2 s2).y ∨
        (getCellOrign l2 n2 s2).y + 2250 ≤ (getCellOrign l1 n1 s1).y)) ∧
    (∀ px py : ℚ,
      ¬ (((getCellOrign l1 n1 s1).x ≤ px ∧ px < (getCellOrign l1 n1 s1).x + 5 * (getCellSize s1).x ∧
          (getCellOrign l1 n1 s1).y ≤ py ∧
          py < (getCellOrign l1 n1 s1).y + 5 * (getCellSize s1).y) ∧
        ((getCellOrign l2 n2 s2).x ≤ px ∧ px < (getCellOrign l2 n2 s2).x + 5 * (getCellSize s2).x ∧
          (getCellOrign l2 n2 s2).y ≤ py ∧
          py < (getCellOrign l2 n2 s2).y + 5 * (getCellSize s2).y))) := by
  have hne' : l1 ≠ l2 ∨ n1 ≠ n2 ∨ s1 ≠ s2 := by
    by_contra hc
    push_neg at hc
    exact hne (by rw [hc.1, hc.2.1, hc.2.2])
  obtain ⟨hx1, hy1⟩ := getCellOrign_grid l1 n1 s1 hl1 hn1
    (tableEntry_pos_of_ne _ _ hl1 hn1 hp1) hs1
  obtain ⟨hx2, hy2⟩ := getCellOrign_grid l2 n2 s2 hl2 hn2
    (tableEntry_pos_of_ne _ _ hl2 hn2 hp2) hs2
  have hsep := origin_separation l1 n1 s1 l2 n2 s2 hs1 hs2 hne'
  have hsepQ : ((getCellOrign l1 n1 s1).x + 3000 ≤ (getCellOrign l2 n2 s2).x ∨
        (getCellOrign l2 n2 s2).x + 3000 ≤ (getCellOrign l1 n1 s1).x) ∨
      ((getCellOrign l1 n1 s1).y + 2250 ≤ (getCellOrign l2 n2 s2).y ∨
        (getCellOrign l2 n2 s2).y + 2250 ≤ (getCellOrign l1 n1 s1).y) := by
    rw [hx1, hx2, hy1, hy2]
    rcases hsep with (h | h) | (h | h)
    · exact Or.inl (Or.inl (by exact_mod_cast h))
    · exact Or.inl (Or.inr (by exact_mod_cast h))
    · exact Or.inr (Or.inl (by exact_mod_cast h))
    · exact Or.inr (Or.inr (by exact_mod_cast h))
  have hsz : ∀ n : Int, (getCellSize n).x = 600 ∧ (getCellSize n).y = 450 := by
    intro n
    unfold getCellSize
    split_ifs <;> exact ⟨rfl, rfl⟩
  refine ⟨?_, hsepQ, ?_⟩
  · intro heq
    rw [heq] at hsepQ
    rcases hsepQ with (h | h) | (h | h) <;> linarith
  · intro px py hboth
    obtain ⟨⟨a1, a2, a3, a4⟩, ⟨b1, b2, b3, b4⟩⟩ := hboth
    rw [(hsz s1).1] at a2
    rw [(hsz s1).2] at a4
    rw [(hsz s2).1] at b2
    rw [(hsz s2).2] at b4
    rcases hsepQ with (h | h) | (h | h) <;> linarith

/-- C23, on the tiles `B/19/1` and `B/19/2`, neighbours in the top sub-row: the
origins have the same `x` and are 2250 apart in `y`. -/
theorem getCellOrign_injective_witness :
    getCellOrign 66 19 1 ≠ getCellOrign 66 19 2 ∧
    (((getCellOrign 66 19 1).x + 3000 ≤ (getCellOrign 66 19 2).x ∨
        (getCellOrign 66 19 2).x + 3000 ≤ (getCellOrign 66 19 1).x) ∨
      ((getCellOrign 66 19 1).y + 2250 ≤ (getCellOrign 66 19 2).y ∨
        (getCellOrign 66 19 2).y + 2250 ≤ (getCellOrign 66 19 1).y)) ∧
    (∀ px py : ℚ,
      ¬ (((getCellOrign 66 19 1).x ≤ px ∧ px < (getCellOrign 66 19 1).x + 5 * (getCellSize 1).x ∧
          (getCellOrign 66 19 1).y ≤ py ∧
          py < (getCellOrign 66 19 1).y + 5 * (getCellSize 1).y) ∧
        ((getCellOrign 66 19 2).x ≤ px ∧ px < (getCellOrign 66 19 2).x + 5 * (getCellSize 2).x ∧
          (getCellOrign 66 19 2).y ≤ py ∧
          py < (getCellOrign 66 19 2).y + 5 * (getCellSize 2).y))) :=
  getCellOrign_injective 66 19 1 66 19 2 (by decide) (by decide) (by decide) (by decide)
    (by decide) (by decide) (by decide) (by decide) (by decide)

/-! ## The neighbour mean is never zero -/

/-- The constructor is a first call of `readLine` followed by the loop. -/
theorem new_eq_readAndIngest (env : Env) (poDS : DMVDataset) :
    DMVRasterBand.new env poDS =
      bandOf poDS (readAndIngest env poDS (poDS.fp.length + 1) 0 env.llineInit poDS.fp
        emptyBand 0) := by
  unfold DMVRasterBand.new readAndIngest bandOf
  cases hr : readLine (env.chrInit 0) env.llineInit poDS.fp with
  | error e => rfl
  | ok r =>
    obtain ⟨len, lline, fp⟩ := r
    rfl

/-- A turn of the loop on a line that passes its test, then the next call of
`readLine` and the rest of the loop. -/
theorem ingestLoop_turn_read (env : Env) (poDS : DMVDataset) (f k : Nat) (len : Int)
    (lline : LineBuf) (fp : List Char) (band : Band) (lineCnt : Int)
    (h : len ≠ -1 ∧ len > 5) :
    ingestLoop env poDS (f + 1) k len lline fp band lineCnt =
      match parseXyzLine env.atof lline with
      | Except.error e => Except.error e
      | Except.ok data =>
        match placeSample poDS band data with
        | Except.error e => Except.error e
        | Except.ok band2 =>
          readAndIngest env poDS f k (Function.update lline 0 (Char.ofNat 10)) fp band2
            (lineCnt + 1) := by
  rw [ingestLoop_turn env poDS f k len lline fp band lineCnt h]
  rfl

/-- The lines that pass the loop test are ingested one by one, and a line that
fails it ends the loop, whatever follows that line. -/
theorem readAndIngest_short (env : Env) (poDS : DMVDataset) (short rest : List Char)
    (hshort : (∀ c ∈ short, c.toNat ≠ 10 ∧ c.toNat ≠ 255) ∧ (dropCR short).length < 5) :
    ∀ (bodies : List (List Char)),
      (∀ body ∈ bodies, (∀ c ∈ body, c.toNat ≠ 10 ∧ c.toNat ≠ 255) ∧
        5 ≤ (dropCR body).length ∧ (dropCR body).length < 80) →
      ∀ (fuel k : Nat) (prev : LineBuf) (band : Band) (lineCnt : Int), bodies.length < fuel →
        readAndIngest env poDS fuel k prev (linesOf bodies ++ (short ++ Char.ofNat 10 :: rest))
          band lineCnt = ingestLines env poDS prev band lineCnt bodies := by
  intro bodies
  induction bodies with
  | nil =>
    intro _ fuel k prev band lineCnt hfuel
    obtain ⟨f, rfl⟩ : ∃ f, fuel = f + 1 := ⟨fuel - 1, by simp at hfuel; omega⟩
    unfold readAndIngest
    rw [linesOf, List.nil_append,
      readLine_line (env.chrInit k) prev short rest hshort.1 (by omega)]
    dsimp only
    rw [ingestLoop_stop env poDS f (k + 1) _ _ _ _ _ (by omega), ingestLines]
  | cons body more ih =>
    intro hgood fuel k prev band lineCnt hfuel
    obtain ⟨f, rfl⟩ : ∃ f, fuel = f + 1 := ⟨fuel - 1, by simp at hfuel; omega⟩
    obtain ⟨hclean, h5, h80⟩ := hgood body (List.mem_cons_self body more)
    have hmore : ∀ b ∈ more, (∀ c ∈ b, c.toNat ≠ 10 ∧ c.toNat ≠ 255) ∧
        5 ≤ (dropCR b).length ∧ (dropCR b).length < 80 :=
      fun b hb => hgood b (List.mem_cons_of_mem body hb)
    have hlen : more.length < f := by simp at hfuel; omega
    unfold readAndIngest
    rw [linesOf, List.append_assoc, List.cons_append,
      readLine_line (env.chrInit k) prev body _ hclean h80]
    dsimp only
    rw [ingestLoop_turn_read env poDS f (k + 1) _ _ _ _ _ (by omega), ingestLines]
    cases parseXyzLine env.atof (Function.update (storeBytes prev 0 (dropCR body))
        (dropCR body).length (Char.ofNat 0)) with
    | error e => rfl
    | ok data =>
      dsimp only
      cases placeSample poDS band data with
      | error e => rfl
      | ok band2 =>
        dsimp only
        exact ih hmore f (k + 1) _ band2 (lineCnt + 1) hlen

/-- The lines that pass the loop test are ingested one by one, and the end of the
file ends the loop when `chr[0]` of the call made there starts as a newline. -/
theorem readAndIngest_eof (env : Env) (poDS : DMVDataset) :
    ∀ (bodies : List (List Char)),
      (∀ body ∈ bodies, (∀ c ∈ body, c.toNat ≠ 10 ∧ c.toNat ≠ 255) ∧
        5 ≤ (dropCR body).length ∧ (dropCR body).length < 80) →
      ∀ (fuel k : Nat) (prev : LineBuf) (band : Band) (lineCnt : Int), bodies.length < fuel →
        env.chrInit (k + bodies.length) = Char.ofNat 10 →
        readAndIngest env poDS fuel k prev (linesOf bodies) band lineCnt =
          ingestLines env poDS prev band lineCnt bodies := by
  intro bodies
  induction bodies with
  | nil =>
    intro _ fuel k prev band lineCnt hfuel hchr
    obtain ⟨f, rfl⟩ : ∃ f, fuel = f + 1 := ⟨fuel - 1, by simp at hfuel; omega⟩
    unfold readAndIngest
    rw [List.length_nil, Nat.add_zero] at hchr
    rw [linesOf, hchr, readLine_eof_stale prev]
    dsimp only
    rw [ingestLoop_stop env poDS f (k + 1) _ _ _ _ _ (by decide), ingestLines]
  | cons body more ih =>
    intro hgood fuel k prev band lineCnt hfuel hchr
    obtain ⟨f, rfl⟩ : ∃ f, fuel = f + 1 := ⟨fuel - 1, by simp at hfuel; omega⟩
    obtain ⟨hclean, h5, h80⟩ := hgood body (List.mem_cons_self body more)
    have hmore : ∀ b ∈ more, (∀ c ∈ b, c.toNat ≠ 10 ∧ c.toNat ≠ 255) ∧
        5 ≤ (dropCR b).length ∧ (dropCR b).length < 80 :=
      fun b hb => hgood b (List.mem_cons_of_mem body hb)
    have hlen : more.length < f := by simp at hfuel; omega
    have hchr' : env.chrInit (k + 1 + more.length) = Char.ofNat 10 := by
      rw [List.length_cons] at hchr
      rwa [show k + 1 + more.length = k + (more.length + 1) by omega]
    unfold readAndIngest
    rw [linesOf, readLine_line (env.chrInit k) prev body _ hclean h80]
    dsimp only
    rw [ingestLoop_turn_read env poDS f (k + 1) _ _ _ _ _ (by omega), ingestLines]
    cases parseXyzLine env.atof (Function.update (storeBytes prev 0 (dropCR body))
        (dropCR body).length (Char.ofNat 0)) with
    | error e => rfl
    | ok data =>
      dsimp only
      cases placeSample poDS band data with
      | error e => rfl
      | ok band2 =>
        dsimp only
        exact ih hmore f (k + 1) _ band2 (lineCnt + 1) hlen hchr'

/-- The line-by-line ingestion does not depend on the file of the dataset. -/
theorem ingestLines_withFile (env : Env) (poDS : DMVDataset) (fp : List Char) :
    ∀ (bodies : List (List Char)) (prev : LineBuf) (band : Band) (lineCnt : Int),
      ingestLines env (withFile poDS fp) prev band lineCnt bodies =
        ingestLines env poDS prev band lineCnt bodies := by
  intro bodies
  induction bodies with
  | nil => intro prev band lineCnt; rfl
  | cons body more ih =>
    intro prev band lineCnt
    rw [ingestLines, ingestLines]
    cases parseXyzLine env.atof (Function.update (storeBytes prev 0 (dropCR body))
        (dropCR body).length (Char.ofNat 0)) with
    | error e => rfl
    | ok data =>
      dsimp only
      have hp : placeSample (withFile poDS fp) band data = placeSample poDS band data := rfl
      rw [hp]
      cases placeSample poDS band data with
      | error e => rfl
      | ok band2 =>
        dsimp only
        exact ih _ band2 (lineCnt + 1)

/-- The length of the bytes of a sequence of lines is at least their number. -/
theorem length_linesOf (bodies : List (List Char)) : bodies.length ≤ (linesOf bodies).length := by
  induction bodies with
  | nil => simp [linesOf]
  | cons body more ih =>
    rw [linesOf, List.length_append, List.length_cons, List.length_cons]
    omega

/-- The constructor on a file whose lines pass the loop test up to a line that
fails it. -/
theorem new_short (env : Env) (poDS : DMVDataset) (bodies : List (List Char))
    (short rest : List Char)
    (hgood : ∀ body ∈ bodies, (∀ c ∈ body, c.toNat ≠ 10 ∧ c.toNat ≠ 255) ∧
      5 ≤ (dropCR body).length ∧ (dropCR body).length < 80)
    (hshort : (∀ c ∈ short, c.toNat ≠ 10 ∧ c.toNat ≠ 255) ∧ (dropCR short).length < 5) :
    DMVRasterBand.new env (withFile poDS (linesOf bodies ++ (short ++ Char.ofNat 10 :: rest))) =
      bandOf poDS (ingestLines env poDS env.llineInit emptyBand 0 bodies) := by
  rw [new_eq_readAndIngest]
  have hfp : (withFile poDS (linesOf bodies ++ (short ++ Char.ofNat 10 :: rest))).fp =
      linesOf bodies ++ (short ++ Char.ofNat 10 :: rest) := rfl
  rw [hfp, readAndIngest_short env _ short rest hshort bodies hgood _ 0 _ _ _
    (by rw [List.length_append]; have := length_linesOf bodies; omega),
    ingestLines_withFile]
  rfl

/-- The constructor on a file whose lines all pass the loop test, in an
environment where the call of `readLine` at the end of the file starts with a
newline in `chr[0]`. -/
theorem new_eof (env : Env) (poDS : DMVDataset) (bodies : List (List Char))
    (hgood : ∀ body ∈ bodies, (∀ c ∈ body, c.toNat ≠ 10 ∧ c.toNat ≠ 255) ∧
      5 ≤ (dropCR body).length ∧ (dropCR body).length < 80)
    (hchr : env.chrInit bodies.length = Char.ofNat 10) :
    DMVRasterBand.new env (withFile poDS (linesOf bodies)) =
      bandOf poDS (ingestLines env poDS env.llineInit emptyBand 0 bodies) := by
  rw [new_eq_readAndIngest]
  have hfp : (withFile poDS (linesOf bodies)).fp = linesOf bodies := rfl
  rw [hfp, readAndIngest_eof env _ bodies hgood _ 0 _ _ _
    (by have := length_linesOf bodies; omega) (by rw [Nat.zero_add]; exact hchr),
    ingestLines_withFile]
  rfl

/-! ## Ingestion of an arbitrary stream of bytes, unit by unit -/

/-- The loop of the constructor does not depend on the file of the dataset, only
on the bytes it is handed. -/
theorem ingestLoop_withFile (env : Env) (poDS : DMVDataset) (file : List Char) :
    ∀ (fuel k : Nat) (len : Int) (lline : LineBuf) (fp : List Char) (band : Band)
      (lineCnt : Int),
      ingestLoop env (withFile poDS file) fuel k len lline fp band lineCnt =
        ingestLoop env poDS fuel k len lline fp band lineCnt := by
  intro fuel
  induction fuel with
  | zero =>
    intro k len lline fp band lineCnt
    rw [ingestLoop, ingestLoop]
  | succ f ih =>
    intro k len lline fp band lineCnt
    by_cases hg : len ≠ -1 ∧ len > 5
    · rw [ingestLoop_turn env _ f k len lline fp band lineCnt hg,
        ingestLoop_turn env _ f k len lline fp band lineCnt hg]
      cases parseXyzLine env.atof lline with
      | error e => rfl
      | ok data =>
        dsimp only
        have hp : placeSample (withFile poDS file) band data = placeSample poDS band data := rfl
        rw [hp]
        cases placeSample poDS band data with
        | error e => rfl
        | ok band2 =>
          dsimp only
          cases readLine (env.chrInit k) (Function.update lline 0 (Char.ofNat 10)) fp with
          | error e => rfl
          | ok r =>
            obtain ⟨len2, lline2, fp2⟩ := r
            dsimp only
            exact ih (k + 1) len2 lline2 fp2 band2 (lineCnt + 1)
    · rw [ingestLoop_stop env _ f k len lline fp band lineCnt hg,
        ingestLoop_stop env _ f k len lline fp band lineCnt hg]

/-- The constructor on another file, in terms of the dataset without that file. -/
theorem new_withFile (env : Env) (poDS : DMVDataset) (file : List Char) :
    DMVRasterBand.new env (withFile poDS file) =
      bandOf poDS (readAndIngest env poDS (file.length + 1) 0 env.llineInit file emptyBand 0) := by
  rw [new_eq_readAndIngest]
  have hfp : (withFile poDS file).fp = file := rfl
  rw [hfp]
  unfold readAndIngest
  cases readLine (env.chrInit 0) env.llineInit file with
  | error e => rfl
  | ok r =>
    obtain ⟨len, lline, fp⟩ := r
    dsimp only
    rw [ingestLoop_withFile]
    rfl

/-- The loop of `readLine` at the end of the file, entered with a byte that is
neither a newline nor `0xFF`, returns nothing: the byte is never replaced. -/
theorem readLineLoop_eof_fault (chr : Char) (h10 : chr.toNat ≠ 10) (h255 : chr.toNat ≠ 255) :
    ∀ (fuel i : Nat) (line : LineBuf), ∃ e, readLineLoop fuel chr i line [] = Except.error e := by
  intro fuel
  induction fuel with
  | zero =>
    intro i line
    exact ⟨Fault.noTermination, by rw [readLineLoop]⟩
  | succ f ih =>
    intro i line
    rw [readLineLoop, if_neg h255, if_neg h10]
    simp only [VSIFReadL]
    by_cases hcr : chr.toNat = 13
    · rw [if_pos hcr]
      exact ih i line
    · rw [if_neg hcr]
      by_cases hi : i < 80
      · rw [if_pos hi]
        exact ih (i + 1) _
      · rw [if_neg hi]
        exact ⟨Fault.bufferOverrun, rfl⟩

/-- The constructor on an empty file returns nothing when `chr[0]` of the first
call of `readLine` starts as a byte other than a newline and `0xFF`: the end of the
file is seen only through that byte. -/
theorem new_empty_file_fault (env : Env) (poDS : DMVDataset)
    (h10 : (env.chrInit 0).toNat ≠ 10) (h255 : (env.chrInit 0).toNat ≠ 255) :
    ∃ e, DMVRasterBand.new env (withFile poDS []) = Except.error e := by
  obtain ⟨e, he⟩ := readLineLoop_eof_fault (env.chrInit 0) h10 h255 (0 + 82) 0 env.llineInit
  have hr : readLine (env.chrInit 0) env.llineInit [] = Except.error e := by
    unfold readLine
    simp only [VSIFReadL, List.length_nil]
    exact he
  refine ⟨e, ?_⟩
  rw [new_withFile]
  unfold readAndIngest
  rw [hr]
  rfl

/-- The loop of `readLine` at the end of the file, entered with a byte that is
neither a newline, nor `0xFF`, nor a carriage return: the byte is stored again and
again, until the store passes the end of the 80-byte buffer. -/
theorem readLineLoop_eof_overrun (chr : Char) (h10 : chr.toNat ≠ 10) (h255 : chr.toNat ≠ 255)
    (h13 : chr.toNat ≠ 13) :
    ∀ (n fuel i : Nat) (line : LineBuf), i + n = 80 → n < fuel →
      readLineLoop fuel chr i line [] = Except.error Fault.bufferOverrun := by
  intro n
  induction n with
  | zero =>
    intro fuel i line hi hfuel
    obtain ⟨f, rfl⟩ : ∃ f, fuel = f + 1 := ⟨fuel - 1, by omega⟩
    rw [readLineLoop, if_neg h255, if_neg h10, if_neg h13, if_neg (by omega)]
  | succ n ih =>
    intro fuel i line hi hfuel
    obtain ⟨f, rfl⟩ : ∃ f, fuel = f + 1 := ⟨fuel - 1, by omega⟩
    rw [readLineLoop, if_neg h255, if_neg h10, if_neg h13, if_pos (by omega)]
    simp only [VSIFReadL]
    exact ih f (i + 1) _ (by omega) (by omega)

/-- The function `readLine` at the end of the file, when `chr[0]` starts as a byte
that is neither a newline, nor `0xFF`, nor a carriage return. -/
theorem readLine_eof_overrun (chr0 : Char) (line : LineBuf) (h10 : chr0.toNat ≠ 10)
    (h255 : chr0.toNat ≠ 255) (h13 : chr0.toNat ≠ 13) :
    readLine chr0 line [] = Except.error Fault.bufferOverrun := by
  unfold readLine
  simp only [VSIFReadL, List.length_nil]
  exact readLineLoop_eof_overrun chr0 h10 h255 h13 80 (0 + 82) 0 line (by omega) (by omega)

/-- Lines that pass the loop test and are all placed, in a file that ends after
them: the call of `readLine` at the end of the file overruns the buffer when
`chr[0]` starts there as a byte other than a newline, `0xFF` and a carriage
return. -/
theorem readAndIngest_eof_overrun (env : Env) (poDS : DMVDataset) :
    ∀ (bodies : List (List Char)),
      (∀ body ∈ bodies, (∀ c ∈ body, c.toNat ≠ 10 ∧ c.toNat ≠ 255) ∧
        5 ≤ (dropCR body).length ∧ (dropCR body).length < 80) →
      ∀ (fuel k : Nat) (prev : LineBuf) (band : Band) (lineCnt : Int) (r : Band × Int),
        bodies.length < fuel →
        ((env.chrInit (k + bodies.length)).toNat ≠ 10 ∧
          (env.chrInit (k + bodies.length)).toNat ≠ 255 ∧
          (env.chrInit (k + bodies.length)).toNat ≠ 13) →
        ingestLines env poDS prev band lineCnt bodies = Except.ok r →
        readAndIngest env poDS fuel k prev (linesOf bodies) band lineCnt =
          Except.error Fault.bufferOverrun := by
  intro bodies
  induction bodies with
  | nil =>
    intro _ fuel k prev band lineCnt r hfuel hchr _
    rw [List.length_nil, Nat.add_zero] at hchr
    unfold readAndIngest
    rw [linesOf, readLine_eof_overrun (env.chrInit k) prev hchr.1 hchr.2.1 hchr.2.2]
  | cons body more ih =>
    intro hgood fuel k prev band lineCnt r hfuel hchr hr
    obtain ⟨f, rfl⟩ : ∃ f, fuel = f + 1 := ⟨fuel - 1, by simp at hfuel; omega⟩
    obtain ⟨hclean, h5, h80⟩ := hgood body (List.mem_cons_self body more)
    have hmore : ∀ b ∈ more, (∀ c ∈ b, c.toNat ≠ 10 ∧ c.toNat ≠ 255) ∧
        5 ≤ (dropCR b).length ∧ (dropCR b).length < 80 :=
      fun b hb => hgood b (List.mem_cons_of_mem body hb)
    have hlen : more.length < f := by simp at hfuel; omega
    rw [List.length_cons, show k + (more.length + 1) = k + 1 + more.length by omega] at hchr
    unfold readAndIngest
    rw [linesOf, readLine_line (env.chrInit k) prev body _ hclean h80]
    dsimp only
    rw [ingestLoop_turn_read env poDS f (k + 1) _ _ _ _ _ (by omega)]
    rw [ingestLines] at hr
    cases hp : parseXyzLine env.atof (Function.update (storeBytes prev 0 (dropCR body))
        (dropCR body).length (Char.ofNat 0)) with
    | error e =>
      rw [hp] at hr
      simp at hr
    | ok data =>
      rw [hp] at hr
      dsimp only at hr ⊢
      cases hs : placeSample poDS band data with
      | error e =>
        rw [hs] at hr
        simp at hr
      | ok band2 =>
        rw [hs] at hr
        dsimp only at hr ⊢
        exact ih hmore f (k + 1) _ band2 (lineCnt + 1) r hlen hchr hr

/-- The constructor on a file that ends after lines which pass the loop test and
are all placed returns no band when `chr[0]` of the call of `readLine` at the end
of the file starts as a byte other than a newline, `0xFF` and a carriage return. -/
theorem new_eof_overrun (env : Env) (poDS : DMVDataset) (bodies : List (List Char))
    (r : Band × Int)
    (hgood : ∀ body ∈ bodies, (∀ c ∈ body, c.toNat ≠ 10 ∧ c.toNat ≠ 255) ∧
      5 ≤ (dropCR body).length ∧ (dropCR body).length < 80)
    (hchr : (env.chrInit bodies.length).toNat ≠ 10 ∧ (env.chrInit bodies.length).toNat ≠ 255 ∧
      (env.chrInit bodies.length).toNat ≠ 13)
    (hr : ingestLines env poDS env.llineInit emptyBand 0 bodies = Except.ok r) :
    DMVRasterBand.new env (withFile poDS (linesOf bodies)) =
      Except.error Fault.bufferOverrun := by
  rw [new_withFile, readAndIngest_eof_overrun env poDS bodies hgood _ 0 _ _ _ r
    (by have := length_linesOf bodies; omega) (by rw [Nat.zero_add]; exact hchr) hr]
  rfl

/-- The record parser on a stored line of three fields separated by one space,
whatever the buffer held before. -/
theorem parseXyzLine_stored (atof : List Char → ℚ) (prev : LineBuf) (a b c : List Char)
    (ha : ∀ ch ∈ a, ch.toNat ≠ 32 ∧ ch.toNat ≠ 0) (hb : ∀ ch ∈ b, ch.toNat ≠ 32 ∧ ch.toNat ≠ 0)
    (hc : ∀ ch ∈ c, ch.toNat ≠ 0)
    (hlen : a.length + 1 + b.length + 1 + c.length < 80) :
    parseXyzLine atof
        (Function.update (storeBytes prev 0 (a ++ Char.ofNat 32 :: (b ++ Char.ofNat 32 :: c)))
          (a ++ Char.ofNat 32 :: (b ++ Char.ofNat 32 :: c)).length (Char.ofNat 0)) =
      Except.ok { x := atof b, y := atof a, z := atof c } := by
  refine parseXyzLine_of_line atof _ a b c ha hb hc hlen ?_
  have h := (readLine_buffer prev (a ++ Char.ofNat 32 :: (b ++ Char.ofNat 32 :: c))).1
  have hl : (a ++ Char.ofNat 32 :: (b ++ Char.ofNat 32 :: c)).length + 1 =
      a.length + (1 + (b.length + (1 + (c.length + 1)))) := by
    simp only [List.length_append, List.length_cons]
    omega
  rw [hl] at h
  rw [h]
  simp

/-- The three lines of the scenario, ingested line by line: whatever the
uninitialised variables hold, the three records are stored. -/
theorem scenario_ingest (env : Env) (hatof : env.atof = atofDigits) :
    ingestLines env scenarioDS env.llineInit emptyBand 0
        [scenarioLine1, scenarioLine2, scenarioLine3] =
      Except.ok (scenarioBand, 3) := by
  have h1 : dropCR scenarioLine1 =
      "100000".toList ++ Char.ofNat 32 :: ("400000".toList ++ Char.ofNat 32 :: "500".toList) := by
    decide
  have h2 : dropCR scenarioLine2 =
      "100005".toList ++ Char.ofNat 32 :: ("400000".toList ++ Char.ofNat 32 :: "502".toList) := by
    decide
  have h3 : dropCR scenarioLine3 =
      "100000".toList ++ Char.ofNat 32 :: ("400005".toList ++ Char.ofNat 32 :: "10000".toList) := by
    decide
  have a1 : atofDigits "100000".toList = 100000 := by
    have : atoi "100000".toList = 100000 := by decide
    unfold atofDigits
    rw [this]
    norm_num
  have a2 : atofDigits "400000".toList = 400000 := by
    have : atoi "400000".toList = 400000 := by decide
    unfold atofDigits
    rw [this]
    norm_num
  have a3 : atofDigits "500".toList = 500 := by
    have : atoi "500".toList = 500 := by decide
    unfold atofDigits
    rw [this]
    norm_num
  have a4 : atofDigits "100005".toList = 100005 := by
    have : atoi "100005".toList = 100005 := by decide
    unfold atofDigits
    rw [this]
    norm_num
  have a5 : atofDigits "502".toList = 502 := by
    have : atoi "502".toList = 502 := by decide
    unfold atofDigits
    rw [this]
    norm_num
  have a6 : atofDigits "400005".toList = 400005 := by
    have : atoi "400005".toList = 400005 := by decide
    unfold atofDigits
    rw [this]
    norm_num
  have a7 : atofDigits "10000".toList = 10000 := by
    have : atoi "10000".toList = 10000 := by decide
    unfold atofDigits
    rw [this]
    norm_num
  rw [ingestLines, h1, parseXyzLine_stored env.atof _ _ _ _ (by decide) (by decide) (by decide)
    (by decide), hatof, a1, a2, a3]
  dsimp only
  rw [scenario_place1]
  dsimp only
  rw [ingestLines, h2, parseXyzLine_stored env.atof _ _ _ _ (by decide) (by decide)
    (by decide) (by decide), hatof, a4, a2, a5]
  dsimp only
  rw [scenario_place2]
  dsimp only
  rw [ingestLines, h3, parseXyzLine_stored env.atof _ _ _ _ (by decide) (by decide)
    (by decide) (by decide), hatof, a1, a6, a7]
  dsimp only
  rw [scenario_place3]
  dsimp only
  rw [ingestLines]
  rfl

/-- The constructor on the three lines of the scenario followed by a line that
fails the loop test, whatever the uninitialised variables hold and whatever
follows that line. -/
theorem new_scenario_short (env : Env) (short rest : List Char) (hatof : env.atof = atofDigits)
    (hshort : (∀ c ∈ short, c.toNat ≠ 10 ∧ c.toNat ≠ 255) ∧ (dropCR short).length < 5) :
    DMVRasterBand.new env
        (withFile scenarioDS (scenarioFile ++ (short ++ Char.ofNat 10 :: rest))) =
      Except.ok { nBlockXSize := 450, nBlockYSize := 1, band := scenarioBand, lineCnt := 3 } := by
  have h := new_short env scenarioDS [scenarioLine1, scenarioLine2, scenarioLine3] short rest
    (by decide) hshort
  rw [scenario_ingest env hatof] at h
  exact h

/-- The constructor on the three lines of the scenario alone, in an environment
where `chr[0]` starts as a NUL: the end of the file is not seen and the reads go
on until the line buffer is overrun. -/
theorem new_scenario_nul :
    DMVRasterBand.new sampleEnv (withFile scenarioDS scenarioFile) =
      Except.error Fault.bufferOverrun :=
  new_eof_overrun sampleEnv scenarioDS [scenarioLine1, scenarioLine2, scenarioLine3]
    (scenarioBand, 3) (by decide) (by decide) (scenario_ingest sampleEnv rfl)

/-- C13 as stated fails: on the three lines of the scenario the third record is
not rejected: the cell computed for it, row 1, column 0, holds 10000 in the grid
that the constructor builds, not the sentinel 0.  The grid is that of the three
lines followed by an empty line, with a NUL in `chr[0]`, and that of the three lines
alone when `chr[0]` holds a newline at the end of the file. -/
theorem scenario_third_record_accepted :
    DMVRasterBand.new sampleEnv
        (withFile scenarioDS (scenarioFile ++ ([] ++ Char.ofNat 10 :: []))) =
      Except.ok { nBlockXSize := 450, nBlockYSize := 1, band := scenarioBand, lineCnt := 3 } ∧
    DMVRasterBand.new staleEnv scenarioDS =
      Except.ok { nBlockXSize := 450, nBlockYSize := 1, band := scenarioBand, lineCnt := 3 } ∧
    clampIndex scenarioDS (bandIndex scenarioDS { x := 400005, y := 100000, z := 10000 }) =
      (1, 0) ∧
    scenarioBand 1 0 = 10000 ∧ ¬ (scenarioBand 1 0 = 0) := by
  refine ⟨new_scenario_short sampleEnv [] [] rfl (by decide), new_scenario, ?_, ?_, ?_⟩
  · have hb : bandIndex scenarioDS { x := 400005, y := 100000, z := 10000 } = (1, 0) := by
      unfold bandIndex
      rw [doubleToInt_div _ _ 1 (by decide) (by norm_num [scenarioDS])
        (by norm_num [scenarioDS]),
        doubleToInt_div _ _ 0 (by decide) (by norm_num [scenarioDS])
        (by norm_num [scenarioDS])]
    rw [hb]
    decide
  · simp [scenarioBand, setCell]
  · simp [scenarioBand, setCell]

/-- C13, amended: ingesting the three lines `100000 400000 500`,
`100005 400000 502`, `100000 400005 10000`, followed by a line of fewer than 5
characters that ends the ingestion, into an all-sentinel grid whose origin matches
the first record yields a grid that holds 500 and 502 at the cells computed for the
first two records, `(0, 0)` and `(0, 1)`, and 10000 at the cell computed for the
third, `(1, 0)`: the third record is accepted, because its written neighbours lie on
row 0, which `calcPixAvg` does not count.  Every other cell holds the sentinel 0
and three records are counted.  This holds whatever the uninitialised variables
hold and whatever follows the short line.  For the three lines alone the same grid
is returned when `chr[0]` holds a newline at the end of the file, and no grid when
it holds a NUL. -/
theorem scenario_grid (env : Env) (short rest : List Char) (hatof : env.atof = atofDigits)
    (hshort : (∀ c ∈ short, c.toNat ≠ 10 ∧ c.toNat ≠ 255) ∧ (dropCR short).length < 5) :
    (∃ b, DMVRasterBand.new env
        (withFile scenarioDS (scenarioFile ++ (short ++ Char.ofNat 10 :: rest))) = Except.ok b ∧
      b.lineCnt = 3 ∧ b.band 0 0 = 500 ∧ b.band 0 1 = 502 ∧ b.band 1 0 = 10000 ∧
      b.band = setCell (setCell (setCell emptyBand 0 0 500) 0 1 502) 1 0 10000) ∧
    (∃ b, DMVRasterBand.new staleEnv scenarioDS = Except.ok b ∧ b.lineCnt = 3 ∧
      b.band 0 0 = 500 ∧ b.band 0 1 = 502 ∧ b.band 1 0 = 10000 ∧
      b.band = setCell (setCell (setCell emptyBand 0 0 500) 0 1 502) 1 0 10000) ∧
    DMVRasterBand.new sampleEnv (withFile scenarioDS scenarioFile) =
      Except.error Fault.bufferOverrun := by
  refine ⟨⟨_, new_scenario_short env short rest hatof hshort, rfl, ?_, ?_, ?_, rfl⟩,
    ⟨_, new_scenario, rfl, ?_, ?_, ?_, rfl⟩, new_scenario_nul⟩ <;>
  simp [scenarioBand, setCell]

/-- C13 at a concrete input: the three lines followed by an empty line, with a NUL in
every uninitialised variable. -/
theorem scenario_grid_witness :
    sampleEnv.atof = atofDigits ∧
    ((∀ c ∈ ([] : List Char), c.toNat ≠ 10 ∧ c.toNat ≠ 255) ∧
      (dropCR ([] : List Char)).length < 5) ∧
    ∃ b, DMVRasterBand.new sampleEnv
        (withFile scenarioDS (scenarioFile ++ ([] ++ Char.ofNat 10 :: []))) = Except.ok b ∧
      b.lineCnt = 3 ∧ b.band 0 0 = 500 ∧ b.band 0 1 = 502 ∧ b.band 1 0 = 10000 ∧
      b.band = setCell (setCell (setCell emptyBand 0 0 500) 0 1 502) 1 0 10000 :=
  ⟨rfl, by decide, (scenario_grid sampleEnv [] [] rfl (by decide)).1⟩

/-! ## Where the ingestion stops: claim -/

end DMV
